import Mathlib

/-!
# CollabCode frontend: synchronization and presence engine

A shallow embedding of the `CodeEditor` component of `src/src/App.jsx`.

* React state (`useState`) and refs (`useRef`) of the component are the
  fields of `State`; a handler is a function `State → … → State`.
* The Monaco editor instance behind `editorRef.current` is an external
  collaborator; `Editor` models the part of its interface the handlers call
  (`setValue`, `setPosition`, `setSelection`, `deltaDecorations`, the model
  language).
* `socket.emit` appends to the outward log `State.emitted`.
* `setTimeout(() => { isUpdatingRemotely.current = false }, d)` adds a due
  time to `State.timers`; `advanceTo` runs the callbacks that are due.
-/

namespace CollabCode

/-! ## Values -/

/-- JavaScript `x || d` on an optional string: `undefined`, `null` and the
empty string are falsy. -/
def jsOr (x : Option String) (d : String) : String :=
  match x with
  | some v => if v = "" then d else v
  | none => d

/-- Monaco `IPosition`. -/
structure Position where
  lineNumber : Nat
  column : Nat
deriving DecidableEq, Repr

/-- Monaco `ISelection` / `IRange` as sent in `cursor-activity`. -/
structure Selection where
  startLineNumber : Nat
  startColumn : Nat
  endLineNumber : Nat
  endColumn : Nat
deriving DecidableEq, Repr

/-- Monaco `Range(startLine, startColumn, endLine, endColumn)`. -/
structure Range where
  startLineNumber : Nat
  startColumn : Nat
  endLineNumber : Nat
  endColumn : Nat
deriving DecidableEq, Repr

/-- The `className` of a decoration created by this component. -/
inductive DecorationClass where
  | remoteCursor
  | remoteSelection
  | commentLineActive
  | commentLineResolved
deriving DecidableEq, Repr

/-- One entry of the `newDecorations` array given to `deltaDecorations`. -/
structure ModelDeltaDecoration where
  range : Range
  className : DecorationClass
  hoverMessage : Option String
  overviewRulerColor : Option String
deriving DecidableEq, Repr

/-- Whether a decoration is a remote-cursor overlay (caret marker or selection
highlight of another participant). -/
def ModelDeltaDecoration.isRemote (d : ModelDeltaDecoration) : Bool :=
  match d.className with
  | .remoteCursor => true
  | .remoteSelection => true
  | _ => false

/-- Document order on positions: by line, then by column. -/
def Position.notAfter (a b : Position) : Bool :=
  decide (a.lineNumber < b.lineNumber ∨ (a.lineNumber = b.lineNumber ∧ a.column ≤ b.column))

/-! ## The editor (external collaborator) -/

/-- The Monaco editor instance: text, model language, caret, selection and the
live decorations, each under the id `deltaDecorations` returned for it. The
selection is kept from its anchor (`start…`) to its active end (`end…`); the
caret is the active end. -/
structure Editor where
  value : String
  languageId : String
  caret : Option Position
  selection : Option Selection
  decorations : List (Nat × ModelDeltaDecoration)
  lastDecorationId : Nat
deriving DecidableEq, Repr

namespace Editor

/-- Text split at line feeds: the lines of a text, at least one. -/
def splitLines : List Char → List (List Char)
  | [] => [[]]
  | c :: cs =>
    if c = Char.ofNat 10 then [] :: splitLines cs
    else
      match splitLines cs with
      | [] => [[c]]
      | l :: ls => (c :: l) :: ls

/-- The lines of the model text (line feed is the line separator). -/
def lines (e : Editor) : List String :=
  (splitLines e.value.data).map String.mk

/-- Monaco `model.getLineCount()`. -/
def lineCount (e : Editor) : Nat :=
  e.lines.length

/-- Monaco `model.getLineMaxColumn(lineNumber)`: one past the last character
of the line. -/
def lineMaxColumn (e : Editor) (lineNumber : Nat) : Nat :=
  (e.lines.getD (lineNumber - 1) "").length + 1

/-- Whether a position is a position of the model text: an existing line and
a column from 1 to one past the end of that line. -/
def isValidPosition (e : Editor) (p : Position) : Bool :=
  decide (1 ≤ p.lineNumber ∧ p.lineNumber ≤ e.lineCount ∧ 1 ≤ p.column ∧ p.column ≤ e.lineMaxColumn p.lineNumber)

/-- Monaco `model.getOffsetAt(position)`: the number of characters before the
position, line feeds included. -/
def offsetAt (e : Editor) (p : Position) : Nat :=
  ((e.lines.take (p.lineNumber - 1)).map (fun l => l.length + 1)).sum + (p.column - 1)

/-- Monaco `model.validatePosition`: a line before the first gives the start
of the text, a line after the last gives the end of the text, and within a
line the column is clamped to `1 .. lineMaxColumn`. -/
def validatePosition (e : Editor) (p : Position) : Position :=
  if p.lineNumber < 1 then { lineNumber := 1, column := 1 }
  else if e.lineCount < p.lineNumber then
    { lineNumber := e.lineCount, column := e.lineMaxColumn e.lineCount }
  else if p.column ≤ 1 then { lineNumber := p.lineNumber, column := 1 }
  else if e.lineMaxColumn p.lineNumber ≤ p.column then
    { lineNumber := p.lineNumber, column := e.lineMaxColumn p.lineNumber }
  else p

/-- The call `editor.setValue(text)`: the model text is replaced, the model's
decorations are dropped and the caret goes back to the start. -/
def setValue (e : Editor) (text : String) : Editor :=
  { e with
    value := text
    decorations := []
    caret := some { lineNumber := 1, column := 1 }
    selection := some { startLineNumber := 1, startColumn := 1, endLineNumber := 1, endColumn := 1 } }

/-- The call `monaco.editor.setModelLanguage(editor.getModel(), lang)`; a
missing language falls back to plain text. -/
def setModelLanguage (e : Editor) (lang : Option String) : Editor :=
  { e with languageId := jsOr lang "plaintext" }

/-- The call `editor.setPosition(p)`, validated against the current text. -/
def setPosition (e : Editor) (p : Position) : Editor :=
  let q := e.validatePosition p
  { e with
    caret := some q
    selection := some { startLineNumber := q.lineNumber, startColumn := q.column, endLineNumber := q.lineNumber, endColumn := q.column } }

/-- The call `editor.setSelection(sel)`, both ends validated; the caret sits at
the end of the selection. -/
def setSelection (e : Editor) (sel : Selection) : Editor :=
  let a := e.validatePosition { lineNumber := sel.startLineNumber, column := sel.startColumn }
  let b := e.validatePosition { lineNumber := sel.endLineNumber, column := sel.endColumn }
  { e with
    caret := some b
    selection := some { startLineNumber := a.lineNumber, startColumn := a.column, endLineNumber := b.lineNumber, endColumn := b.column } }

/-- The ids `deltaDecorations` hands out for `n` new decorations. -/
def freshIds (e : Editor) (n : Nat) : List Nat :=
  List.range' e.lastDecorationId n

/-- The call `editor.deltaDecorations(oldIds, newDecorations)`: the
decorations named by `oldIds` are removed, the new ones are added under fresh
ids; the editor after the call. The returned ids are `freshIds`. -/
def deltaDecorations (e : Editor) (oldIds : List Nat) (newDecorations : List ModelDeltaDecoration) : Editor :=
  { e with
    decorations := e.decorations.filter (fun d => decide (d.1 ∉ oldIds))
      ++ (e.freshIds newDecorations.length).zip newDecorations
    lastDecorationId := e.lastDecorationId + newDecorations.length }

/-- The remote-cursor overlays live in the editor, with their ids. -/
def remoteOverlays (e : Editor) : List (Nat × ModelDeltaDecoration) :=
  e.decorations.filter (fun d => d.2.isRemote)

/-- The ids of the remote-cursor overlays live in the editor. -/
def remoteOverlayIds (e : Editor) : List Nat :=
  e.remoteOverlays.map Prod.fst

end Editor

/-! ## Component state -/

/-- Entry of `remoteDecorations.current`: the decoration handle of one
participant. -/
structure DecorationHandle where
  decorationId : List Nat
  color : String
deriving DecidableEq, Repr

/-- Element of the `onlineUsers` list pushed by the server. -/
structure OnlineUser where
  id : String
  username : Option String
  color : String
deriving DecidableEq, Repr

/-- The logged-in user of `AuthContext`. -/
structure User where
  userId : String
  username : String
  token : String
deriving DecidableEq, Repr

/-- The socket.io client as far as the component reads it. -/
structure Socket where
  connected : Bool
  id : Option String
deriving DecidableEq, Repr

/-- Comment record of the comment collection. -/
structure Comment where
  _id : String
  line : Nat
  text : String
  username : String
  resolved : Bool
deriving DecidableEq, Repr

/-- Events the component sends with `socket.emit`. -/
inductive OutEvent where
  | joinFile (projectId fileId color : String)
  | codeChange (fileId newCode newLanguage : String)
  | cursorActivity (fileId : String) (cursorPosition : Position) (selection : Option Selection) (color : String)
  | addComment (fileId : String) (line : Nat) (text : String)
  | resolveComment (fileId commentId : String)
  | authenticate (token : String)
deriving DecidableEq, Repr

/-- The `color` field of an outward event, when the event has one. -/
def OutEvent.color? : OutEvent → Option String
  | .joinFile _ _ color => some color
  | .codeChange _ _ _ => none
  | .cursorActivity _ _ _ color => some color
  | .addComment _ _ _ => none
  | .resolveComment _ _ => none
  | .authenticate _ => none

/-- Requests the component sends to the data service with `fetch`. -/
inductive Request where
  | createVersion (fileId token message : String)
deriving DecidableEq, Repr

/-- State of one `CodeEditor` component: its React state, its refs, the
values it reads from the router and the contexts, the outward event log and
the pending guard timers; then the form state of the comment and version
dialogs, the `localStorage` entries of the auth provider and the log of
requests sent to the data service. -/
structure State where
  code : String
  language : String
  isConnected : Bool
  onlineUsers : List OnlineUser
  chatMessages : List String
  comments : List Comment
  versions : List String
  projectDetails : Option String
  projectFiles : List String
  editorRef : Option Editor
  monacoRef : Bool
  isUpdatingRemotely : Bool
  initialCodeLoaded : Option String
  remoteDecorations : List (String × DecorationHandle)
  projectId : Option String
  fileId : Option String
  user : Option User
  socket : Option Socket
  isAuthenticatedSocket : Bool
  myCursorColor : String
  emitted : List OutEvent
  now : Nat
  timers : List Nat
  selectedLine : Option Nat := none
  newCommentText : String := ""
  showCommentModal : Bool := false
  showSaveVersionModal : Bool := false
  versionMessage : String := ""
  storedToken : Option String := none
  storedUserId : Option String := none
  storedUsername : Option String := none
  requests : List Request := []
deriving DecidableEq, Repr

/-- The component right after its first render: `useState` and `useRef`
initial values, nothing emitted, nothing scheduled. -/
def State.initial (projectId fileId : Option String) (user : Option User) (socket : Option Socket)
    (isAuthenticatedSocket : Bool) (color : String) : State :=
  { code := "// Connecting to server..."
    language := "javascript"
    isConnected := false
    onlineUsers := []
    chatMessages := []
    comments := []
    versions := []
    projectDetails := none
    projectFiles := []
    editorRef := none
    monacoRef := false
    isUpdatingRemotely := false
    initialCodeLoaded := none
    remoteDecorations := []
    projectId := projectId
    fileId := fileId
    user := user
    socket := socket
    isAuthenticatedSocket := isAuthenticatedSocket
    myCursorColor := color
    emitted := []
    now := 0
    timers := [] }

/-- The test `socket && socket.connected`. -/
def State.socketConnected (s : State) : Bool :=
  match s.socket with
  | some k => k.connected
  | none => false

/-- The call `socket.emit(...)`. -/
def State.emit (s : State) (e : OutEvent) : State :=
  { s with emitted := s.emitted ++ [e] }

/-- The call `setTimeout(() => { isUpdatingRemotely.current = false }, delay)`. -/
def State.setTimeout (s : State) (delay : Nat) : State :=
  { s with timers := s.timers ++ [s.now + delay] }

/-- Time passes until `t`: every guard timer that is due by then runs its
callback, which clears `isUpdatingRemotely`. -/
def State.advanceTo (s : State) (t : Nat) : State :=
  { s with
    now := max s.now t
    isUpdatingRemotely := if s.timers.any (fun d => decide (d ≤ t)) then false else s.isUpdatingRemotely
    timers := s.timers.filter (fun d => decide (t < d)) }

/-! ## Synchronization engine -/

/-- Source `handleEditorChange(value, event)`, App.jsx 977-985. -/
def handleEditorChange (s : State) (value : String) : State :=
  match s.fileId with
  | some fileId =>
    if !s.isUpdatingRemotely && s.socketConnected then
      ({ s with code := value }).emit (.codeChange fileId value s.language)
    else
      { s with code := value }
  | none => { s with code := value }

/-- Payload of the inward `load-file` and `code-update` events. -/
structure CodePayload where
  code : String
  language : Option String
deriving DecidableEq, Repr

/-- The editor calls a remote apply makes, in source order; used to name the
call that raises in a faulted run. -/
inductive EditorCall where
  | setValue
  | setModelLanguage
  | setPosition
  | setSelection
deriving DecidableEq, Repr

/-- Outcome of running a handler: the state it leaves and whether it ended by
an exception. -/
structure Run where
  state : State
  raised : Bool
deriving DecidableEq, Repr

/-- Source `handleCodeUpdate`, App.jsx 608-634, run to its end or to the
editor call `fault` raising. An exception leaves the handler at once: the
statements after the raising call, the `setTimeout` included, do not run. -/
def handleCodeUpdateRun (fault : Option EditorCall) (s : State) (p : CodePayload) : Run :=
  let s1 := { s with isUpdatingRemotely := true, code := p.code, language := jsOr p.language "plaintext" }
  match s1.editorRef with
  | none => { state := s1.setTimeout 50, raised := false }
  | some ed =>
    let currentPosition := ed.caret
    let currentSelection := ed.selection
    if fault = some .setValue then { state := s1, raised := true } else
    let ed1 := ed.setValue p.code
    let s2 := { s1 with editorRef := some ed1 }
    let switch := decide (some ed1.languageId ≠ p.language)
    if switch && (fault = some .setModelLanguage || !s1.monacoRef) then { state := s2, raised := true } else
    let ed2 := if switch then ed1.setModelLanguage p.language else ed1
    let s3 := { s2 with editorRef := some ed2 }
    if currentPosition.isSome && fault = some .setPosition then { state := s3, raised := true } else
    let ed3 := match currentPosition with
      | some pos => ed2.setPosition pos
      | none => ed2
    let s4 := { s3 with editorRef := some ed3 }
    if currentSelection.isSome && fault = some .setSelection then { state := s4, raised := true } else
    let ed4 := match currentSelection with
      | some sel => ed3.setSelection sel
      | none => ed3
    let s5 := { s4 with editorRef := some ed4 }
    { state := s5.setTimeout 50, raised := false }

/-- Source `handleCodeUpdate` when every editor call returns. -/
def handleCodeUpdate (s : State) (p : CodePayload) : State :=
  (handleCodeUpdateRun none s p).state

/-- Source `handleLoadFile`, App.jsx 591-606, run to its end or to the editor
call `fault` raising. -/
def handleLoadFileRun (fault : Option EditorCall) (s : State) (p : CodePayload) : Run :=
  let s1 := { s with initialCodeLoaded := some p.code, language := jsOr p.language "plaintext" }
  match s1.editorRef with
  | some ed =>
    let s2 := { s1 with isUpdatingRemotely := true }
    if fault = some .setValue then { state := s2, raised := true } else
    let s3 := { s2 with editorRef := some (ed.setValue p.code), code := p.code }
    { state := s3.setTimeout 50, raised := false }
  | none => { state := { s1 with code := p.code }, raised := false }

/-- Source `handleLoadFile` when every editor call returns. -/
def handleLoadFile (s : State) (p : CodePayload) : State :=
  (handleLoadFileRun none s p).state

/-- Source `handleEditorDidMount(editor, monaco)`, App.jsx 877-893: the refs
are bound and the editor receives the text loaded so far. `code` and
`language` are the variables of the closure that is called: the `Editor`
element calls the `onMount` it was given at its first render, so they are the
values of that render, `// Connecting to server...` and `javascript`, and not
those of the state when the editor mounts; `initialCodeLoaded.current` is a
ref and is read when the call is made. The cursor listener and the comment
action registered after that (895-954) change no state at mount time. -/
def handleEditorDidMount (s : State) (code language : String) (editor : Editor) : State :=
  let s1 := { s with editorRef := some editor, monacoRef := true }
  match s1.initialCodeLoaded with
  | some c =>
    let ed := (editor.setValue c).setModelLanguage (some language)
    ({ s1 with isUpdatingRemotely := true, editorRef := some ed, code := c }).setTimeout 50
  | none =>
    { s1 with editorRef := some ((editor.setValue code).setModelLanguage (some language)) }

/-- The `value={code}` prop of the `Editor` element, App.jsx 1597, when a
render is committed. `previous` is the prop of the render before: when the
prop has changed and the mounted editor does not show it already, the element
makes it the text of the editor (by an edit that does not call `onChange`);
when the prop has not changed, the element does not look at the editor. Only
the text of the editor is modelled. -/
def commitValue (previous : String) (s : State) : State :=
  if s.code = previous then s
  else
    match s.editorRef with
    | some ed =>
      if ed.value = s.code then s else { s with editorRef := some { ed with value := s.code } }
    | none => s

/-- The `supportedLanguages` ids offered by the language selector, App.jsx
1085-1102. -/
def supportedLanguages : List String :=
  ["javascript", "typescript", "python", "java", "csharp", "cpp", "html", "css", "json",
   "markdown", "php", "ruby", "go", "rust", "swift", "plaintext"]

/-- Source `handleLanguageChange(e)` with `e.target.value = newLanguage`,
App.jsx 964-974. -/
def handleLanguageChange (s : State) (newLanguage : String) : State :=
  let s1 := { s with language := newLanguage }
  let s2 := match s1.editorRef with
    | some ed =>
      if s1.monacoRef then { s1 with editorRef := some (ed.setModelLanguage (some newLanguage)) } else s1
    | none => s1
  match s2.fileId with
  | some fileId =>
    if s2.socketConnected then s2.emit (.codeChange fileId s.code newLanguage) else s2
  | none => s2

/-- Argument of the `onDidChangeCursorPosition` listener. -/
structure CursorEvent where
  position : Position
  selection : Option Selection
deriving DecidableEq, Repr

/-- The listener registered with `editor.onDidChangeCursorPosition`, App.jsx
895-904. `mountFileId` is the `fileId` of the closure of
`handleEditorDidMount` that registered it. The test `socket &&
socket.connected` is made on the socket of the state: the closure holds the
socket object of its render, which is that one as long as the provider has not
replaced the socket since. -/
def onDidChangeCursorPosition (s : State) (mountFileId : Option String) (e : CursorEvent) : State :=
  match mountFileId with
  | some fileId =>
    if !s.isUpdatingRemotely && s.socketConnected then
      s.emit (.cursorActivity fileId e.position e.selection s.myCursorColor)
    else s
  | none => s

/-- How a `fetch` of the data service ended: an ok response with its JSON
body, a response that is not ok, or a network error (the `catch` branch). -/
inductive FetchResult (α : Type) where
  | ok (data : α)
  | notOk
  | networkError
deriving DecidableEq, Repr

/-- Source `handleLoadVersion(versionId)` from the arrival of its response on,
App.jsx 1153-1179; the `finally` block schedules the reset in every branch. -/
def handleLoadVersion (s : State) (r : FetchResult CodePayload) : State :=
  match r with
  | .ok data =>
    let s1 := { s with isUpdatingRemotely := true, code := data.code, language := jsOr data.language "plaintext" }
    let s2 := match s1.editorRef with
      | some ed =>
        if s1.monacoRef then
          { s1 with editorRef := some ((ed.setValue data.code).setModelLanguage
              (some (jsOr data.language "plaintext"))) }
        else s1
      | none => s1
    s2.setTimeout 100
  | .notOk => s.setTimeout 100
  | .networkError => s.setTimeout 100

/-! ## Presence tracker -/

/-- The read `remoteDecorations.current[userSocketId]`. -/
def handleOf (m : List (String × DecorationHandle)) (userSocketId : String) : Option DecorationHandle :=
  (m.find? (fun kv => kv.1 == userSocketId)).map Prod.snd

/-- The statement `delete remoteDecorations.current[userSocketId]`. -/
def deleteKey (m : List (String × DecorationHandle)) (userSocketId : String) : List (String × DecorationHandle) :=
  m.filter (fun kv => kv.1 != userSocketId)

/-- The assignment `remoteDecorations.current[userSocketId] = h`: an existing
property keeps its place, a new one is added last. -/
def setKey (m : List (String × DecorationHandle)) (userSocketId : String) (h : DecorationHandle) :
    List (String × DecorationHandle) :=
  if (handleOf m userSocketId).isSome then
    m.map (fun kv => if kv.1 == userSocketId then (userSocketId, h) else kv)
  else
    m ++ [(userSocketId, h)]

/-- Every overlay id owned by a handle of the map. -/
def ownedIds (m : List (String × DecorationHandle)) : List Nat :=
  (m.map (fun kv => kv.2.decorationId)).flatten

/-- Source `clearUserDecorations(editor, userSocketId)`, App.jsx 497-502. Every
caller passes `editorRef.current` as `editor`. -/
def clearUserDecorations (s : State) (userSocketId : String) : State :=
  match s.editorRef, handleOf s.remoteDecorations userSocketId with
  | some ed, some h =>
    { s with
      editorRef := some (ed.deltaDecorations h.decorationId [])
      remoteDecorations := deleteKey s.remoteDecorations userSocketId }
  | _, _ => s

/-- Payload of the inward `cursor-activity` event. -/
structure CursorPayload where
  userId : String
  username : Option String
  cursorPosition : Option Position
  selection : Option Selection
  color : String
deriving DecidableEq, Repr

/-- The `newDecorations` array built by `applyRemoteDecorations`, App.jsx
509-539: a caret marker when a position is given, a selection highlight when
the selection is not collapsed. -/
def newDecorations (userSocketId : String) (username : Option String) (cursorPosition : Option Position)
    (selection : Option Selection) (color : String) : List ModelDeltaDecoration :=
  (match cursorPosition with
    | some p =>
      [{ range := { startLineNumber := p.lineNumber, startColumn := p.column, endLineNumber := p.lineNumber, endColumn := p.column }
         className := .remoteCursor
         hoverMessage := some ("User: " ++ jsOr username (userSocketId.take 8) ++ "...")
         overviewRulerColor := some color }]
    | none => [])
  ++
  (match selection with
    | some sel =>
      if sel.startLineNumber ≠ sel.endLineNumber ∨ sel.startColumn ≠ sel.endColumn then
        [{ range := { startLineNumber := sel.startLineNumber, startColumn := sel.startColumn, endLineNumber := sel.endLineNumber, endColumn := sel.endColumn }
           className := .remoteSelection
           hoverMessage := none
           overviewRulerColor := none }]
      else []
    | none => [])

/-- Source `applyRemoteDecorations(editor, userSocketId, username,
cursorPosition, selection, color)`, App.jsx 504-549. Every caller passes
`editorRef.current` as `editor`. The label style element written to
`document.head` (551-559) is outside the component state. -/
def applyRemoteDecorations (s : State) (userSocketId : String) (username : Option String)
    (cursorPosition : Option Position) (selection : Option Selection) (color : String) : State :=
  if s.editorRef.isNone || !s.monacoRef then s else
  let s1 := clearUserDecorations s userSocketId
  match s1.editorRef with
  | none => s1
  | some ed =>
    let nd := newDecorations userSocketId username cursorPosition selection color
    let oldIds := match handleOf s1.remoteDecorations userSocketId with
      | some h => h.decorationId
      | none => []
    let newDecorationIds := ed.freshIds nd.length
    { s1 with
      editorRef := some (ed.deltaDecorations oldIds nd)
      remoteDecorations := setKey s1.remoteDecorations userSocketId { decorationId := newDecorationIds, color := color } }

/-- Source `handleCursorActivity`, App.jsx 636-640. The handler is registered
only once the socket object exists. -/
def handleCursorActivity (s : State) (p : CursorPayload) : State :=
  match s.socket with
  | none => s
  | some k =>
    if s.editorRef.isSome && decide (some p.userId ≠ k.id) then
      applyRemoteDecorations s p.userId p.username p.cursorPosition p.selection p.color
    else s

/-- Source `handleUserDisconnected(disconnectedUserId)`, App.jsx 642-648. -/
def handleUserDisconnected (s : State) (disconnectedUserId : String) : State :=
  if s.editorRef.isSome then clearUserDecorations s disconnectedUserId else s

/-- Source `handleUserListUpdate(users)`, App.jsx 650-653. -/
def handleUserListUpdate (s : State) (users : List OnlineUser) : State :=
  { s with onlineUsers := users }

/-- The loop `Object.keys(remoteDecorations.current).forEach(id =>
clearUserDecorations(editorRef.current, id))` under `if (editorRef.current)`. -/
def clearAllDecorations (s : State) : State :=
  if s.editorRef.isSome then
    (s.remoteDecorations.map Prod.fst).foldl clearUserDecorations s
  else s

/-- Source `handleDisconnect(reason)` of `CodeEditor`, App.jsx 574-584. -/
def handleDisconnect (s : State) : State :=
  { clearAllDecorations { s with isConnected := false } with onlineUsers := [] }

/-- Source `handleConnect` of `CodeEditor`, App.jsx 569-572. -/
def handleConnect (s : State) : State :=
  { s with isConnected := true }

/-! ## Session lifecycle -/

/-- Body of the join effect, App.jsx 711-851, up to the start of its fetches:
with a project, a file and an authenticated connected socket it emits
`join-file`, resets the document-scoped state and clears the presence. -/
def joinEffect (s : State) : State :=
  match s.projectId, s.fileId with
  | some projectId, some fileId =>
    if s.socketConnected && s.isAuthenticatedSocket then
      let s1 := s.emit (.joinFile projectId fileId s.myCursorColor)
      let s2 := { s1 with
        code := "// Loading file..."
        language := "javascript"
        chatMessages := []
        comments := []
        versions := []
        projectDetails := none
        projectFiles := [] }
      { clearAllDecorations s2 with onlineUsers := [] }
    else s
  | _, _ => s

/-- Cleanup of the join effect, App.jsx 852-866. -/
def joinCleanup (s : State) : State :=
  if s.socket.isSome && (s.projectId.isSome || s.fileId.isSome) then
    { clearAllDecorations s with
      onlineUsers := []
      chatMessages := []
      comments := []
      versions := []
      projectDetails := none
      projectFiles := [] }
  else s

/-- The route changes to another project/file: React runs the cleanup of the
join effect with the old parameters, then its body with the new ones. -/
def navigateTo (s : State) (projectId fileId : Option String) : State :=
  joinEffect { joinCleanup s with projectId := projectId, fileId := fileId }

/-- Source `fetchFileContent` of the join effect from the arrival of its
response on, App.jsx 782-810. The continuation does not look at the file id
the request was made for. -/
def fetchFileContent (s : State) (r : FetchResult CodePayload) : State :=
  match r with
  | .ok data =>
    let text := jsOr (some data.code) "// File is empty."
    let s1 := { s with
      initialCodeLoaded := some data.code
      language := jsOr data.language "javascript"
      code := text }
    match s1.editorRef with
    | some ed =>
      if s1.monacoRef then
        ({ s1 with
          isUpdatingRemotely := true
          editorRef := some ((ed.setValue text).setModelLanguage
            (some (jsOr data.language "plaintext"))) }).setTimeout 50
      else s1
    | none => s1
  | .notOk => { s with code := "// Error loading file. Please try again later.", language := "plaintext" }
  | .networkError =>
    { s with code := "// Network error loading file. Please try again later.", language := "plaintext" }

/-- Source `fetchComments` of the join effect from the arrival of its response
on, App.jsx 812-825. -/
def fetchComments (s : State) (r : FetchResult (List Comment)) : State :=
  match r with
  | .ok data => { s with comments := data }
  | _ => s

/-- Source `fetchVersions` of the join effect from the arrival of its response
on, App.jsx 828-841. -/
def fetchVersions (s : State) (r : FetchResult (List String)) : State :=
  match r with
  | .ok data => { s with versions := data }
  | _ => s

/-! ## Events -/

/-- What can happen to a mounted `CodeEditor`. -/
inductive Event where
  | editorMount (code language : String) (editor : Editor)
  | editorChange (value : String)
  | loadFile (p : CodePayload)
  | codeUpdate (p : CodePayload)
  | cursorActivity (p : CursorPayload)
  | userDisconnected (id : String)
  | userListUpdate (users : List OnlineUser)
  | connect (id : String)
  | disconnect
  | navigate (projectId fileId : Option String)
  | languageChange (newLanguage : String)
  | cursorMoved (mountFileId : Option String) (e : CursorEvent)
  | contentFetched (requestedFileId : String) (r : FetchResult CodePayload)
  | commentsFetched (requestedFileId : String) (r : FetchResult (List Comment))
  | versionsFetched (requestedFileId : String) (r : FetchResult (List String))
  | versionLoaded (r : FetchResult CodePayload)
deriving DecidableEq, Repr

/-- The handler run for an event. On `connect` and `disconnect` the socket
object has changed its `connected` and `id` before the listener runs. A fetch
response is handed to its continuation whatever file the request was made
for. -/
def step (s : State) : Event → State
  | .editorMount code language editor => handleEditorDidMount s code language editor
  | .editorChange value => handleEditorChange s value
  | .loadFile p => handleLoadFile s p
  | .codeUpdate p => handleCodeUpdate s p
  | .cursorActivity p => handleCursorActivity s p
  | .userDisconnected id => handleUserDisconnected s id
  | .userListUpdate users => handleUserListUpdate s users
  | .connect id =>
    match s.socket with
    | some _ => handleConnect { s with socket := some { connected := true, id := some id } }
    | none => s
  | .disconnect =>
    match s.socket with
    | some _ => handleDisconnect { s with socket := some { connected := false, id := none } }
    | none => s
  | .navigate projectId fileId => navigateTo s projectId fileId
  | .languageChange newLanguage => handleLanguageChange s newLanguage
  | .cursorMoved mountFileId e => onDidChangeCursorPosition s mountFileId e
  | .contentFetched _ r => fetchFileContent s r
  | .commentsFetched _ r => fetchComments s r
  | .versionsFetched _ r => fetchVersions s r
  | .versionLoaded r => handleLoadVersion s r

/-- A run of untimed events. -/
def run (s : State) (evs : List Event) : State :=
  evs.foldl step s

/-- An event delivered at clock time `t` (milliseconds): the guard timers due
by `t` have run before the handler. -/
def stepAt (s : State) (te : Nat × Event) : State :=
  step (s.advanceTo te.1) te.2

/-- A run of timed events. -/
def runTimed (s : State) (evs : List (Nat × Event)) : State :=
  evs.foldl stepAt s

/-- The presence events: cursor activity, a participant leaving, the
participant list, disconnect, and join/navigation. -/
def Event.isPresence : Event → Bool
  | .cursorActivity _ => true
  | .userDisconnected _ => true
  | .userListUpdate _ => true
  | .disconnect => true
  | .navigate _ _ => true
  | _ => false

/-- States the component can be in: the first render, then any timed events. -/
inductive Reachable : State → Prop where
  | initial (projectId fileId : Option String) (user : Option User) (socket : Option Socket)
      (auth : Bool) (color : String) :
      Reachable (State.initial projectId fileId user socket auth color)
  | next {s : State} (t : Nat) (e : Event) : Reachable s → Reachable (stepAt s (t, e))

/-- The remote-cursor overlays the editor holds; none while no editor is
mounted. -/
def State.remoteOverlays (s : State) : List (Nat × ModelDeltaDecoration) :=
  match s.editorRef with
  | some ed => ed.remoteOverlays
  | none => []

/-- The ids of the remote-cursor overlays the editor holds. -/
def State.remoteOverlayIds (s : State) : List Nat :=
  s.remoteOverlays.map Prod.fst

/-- The overlay ids owned by the handle stored for a session id; none when no
handle is stored. -/
def oldIdsOf (m : List (String × DecorationHandle)) (k : String) : List Nat :=
  match handleOf m k with
  | some h => h.decorationId
  | none => []

/-- The decoration-handle invariant on the editor and the map: one handle per
session id, handles of different ids own different overlays, no handle
without an editor, every live decoration id is below the editor's counter,
and the live remote-cursor overlays are exactly the overlays the handles own. -/
def DecoInv (e : Option Editor) (m : List (String × DecorationHandle)) : Prop :=
  (m.map Prod.fst).Nodup
  ∧ (∀ a ∈ m, ∀ b ∈ m, a.1 ≠ b.1 → ∀ i ∈ a.2.decorationId, i ∉ b.2.decorationId)
  ∧ (e = none → m = [])
  ∧ (∀ ed, e = some ed →
      (∀ d ∈ ed.decorations, d.1 < ed.lastDecorationId)
      ∧ ∀ i, i ∈ ed.remoteOverlayIds ↔ i ∈ ownedIds m)

/-- The decoration-handle invariant of a component state. -/
def WF (s : State) : Prop :=
  DecoInv s.editorRef s.remoteDecorations

/-- Ownership invariant, kept by every event: one handle per session id, no
handle without an editor, and every live remote-cursor overlay is owned by a
handle of the map. -/
def Owned (s : State) : Prop :=
  (s.remoteDecorations.map Prod.fst).Nodup
  ∧ (s.editorRef = none → s.remoteDecorations = [])
  ∧ ∀ i ∈ s.remoteOverlayIds, i ∈ ownedIds s.remoteDecorations

/-- The state `t` differs from `s` at most in the editor and the decoration
map. -/
def SameOutsidePresence (s t : State) : Prop :=
  t = { s with editorRef := t.editorRef, remoteDecorations := t.remoteDecorations }

/-- Whether an outward event is a `code-change`. -/
def OutEvent.isCodeChange : OutEvent → Bool
  | .codeChange _ _ _ => true
  | _ => false

/-- What an outward event carries as color on a connection whose color is
`c`: a `code-change` has no color field, every other event carries `c`. -/
def ColorOk (c : String) (e : OutEvent) : Prop :=
  (e.isCodeChange = true ∧ e.color? = none) ∨ (e.isCodeChange = false ∧ e.color? = some c)

/-- The step from `s` to `t` keeps the connection's color and adds only
outward events that satisfy `ColorOk`. -/
def EmitsOk (s t : State) : Prop :=
  t.myCursorColor = s.myCursorColor
  ∧ ∀ x ∈ t.emitted, x ∈ s.emitted ∨ ColorOk s.myCursorColor x

/-- Start of a presence history: no handle is stored yet, and the editor, if
mounted, holds no remote-cursor overlay and has handed out every id it holds. -/
def PresenceStart (s : State) : Prop :=
  s.remoteDecorations = []
  ∧ ∀ ed, s.editorRef = some ed →
      ed.remoteOverlays = [] ∧ ∀ d ∈ ed.decorations, d.1 < ed.lastDecorationId

/-! ## Color generator -/

/-- The constant `letters` of `getRandomColor`. -/
def letters : String := "0123456789ABCDEF"

/-- The statement `color += letters[index]`: an index outside the string
reads `undefined`, which `+=` appends as the text `undefined`. -/
def appendLetter (color : String) (index : Int) : String :=
  if index < 0 then color ++ "undefined"
  else
    match letters.data.get? index.toNat with
    | some c => color.push c
    | none => color ++ "undefined"

/-- Source `getRandomColor`, App.jsx 441-448. `random i` is the value of the
call of `Math.random()` in round `i` of the loop; a double is a rational
number and multiplying it by 16 is exact. -/
def getRandomColor (random : Nat → ℚ) : String :=
  (List.range 6).foldl (fun color i => appendLetter color ⌊random i * 16⌋) "#"

/-- The hexadecimal digit `letters[n]` for `n < 16`. -/
def hexChar (n : Nat) : Char :=
  letters.data.getD n '0'

/-! ## Auth and socket providers -/

/-- Source `login(userData)` of `AuthProvider`, App.jsx 36-42. -/
def login (s : State) (userData : User) : State :=
  { s with
    storedToken := some userData.token
    storedUserId := some userData.userId
    storedUsername := some userData.username
    user := some userData }

/-- Source `logout()` of `AuthProvider`, App.jsx 44-51. -/
def logout (s : State) : State :=
  { s with storedToken := none, storedUserId := none, storedUsername := none, user := none }

/-- The `connect` listener of `SocketProvider`, App.jsx 80-87: a user with a
token is authenticated over the socket, a connection without one is marked
authenticated at once. -/
def providerConnect (s : State) : State :=
  match s.user with
  | some u =>
    if u.token ≠ "" then s.emit (.authenticate u.token)
    else { s with isAuthenticatedSocket := true }
  | none => { s with isAuthenticatedSocket := true }

/-- The `authenticated` listener of `SocketProvider`, App.jsx 89-92. -/
def providerAuthenticated (s : State) : State :=
  { s with isAuthenticatedSocket := true }

/-- The `authentication_failed` listener of `SocketProvider`, App.jsx 94-99. -/
def providerAuthenticationFailed (s : State) : State :=
  logout { s with isAuthenticatedSocket := false }

/-- The socket object connects (again) with the transport id `id`, and its
`connect` listener runs. -/
def socketConnects (s : State) (id : String) : State :=
  providerConnect { s with socket := some { connected := true, id := some id } }

/-- The identifiers bound where the listeners of `SocketProvider` are written:
the imports and top-level declarations of the module, the globals the module
uses, the locals of `SocketProvider` and of its effect, and the parameter of
the listener. `setIsConnected` is a local of `CodeEditor` (App.jsx 455) and is
not among them. -/
def socketProviderScope : List String :=
  ["React", "useState", "useEffect", "useRef", "useCallback", "createContext", "useContext",
   "Editor", "io", "Router", "Routes", "Route", "useParams", "useNavigate", "Link", "uuidv4",
   "ToastContainer", "toast", "LandingPage", "BACKEND_URL", "AuthContext", "useAuth",
   "AuthProvider", "SocketContext", "useSocket", "SocketProvider", "Register", "Login",
   "ProjectDashboard", "CodeEditor", "App", "RootApp",
   "console", "localStorage", "fetch", "document", "window", "setTimeout", "Math", "JSON", "Date",
   "children", "socket", "setSocket", "isAuthenticatedSocket", "setIsAuthenticatedSocket",
   "user", "logout", "newSocket", "reason"]

/-- The identifiers the `disconnect` listener of `SocketProvider` evaluates,
in order, App.jsx 107-111: `console.log(… reason …)`, `setIsConnected(false)`,
`toast.warn(… reason …)`. -/
def providerDisconnectUses : List String :=
  ["console", "reason", "setIsConnected", "toast", "reason"]

/-- The first identifier of a body that is not bound in the scope; evaluating
it raises a `ReferenceError`. -/
def firstUnbound (scope body : List String) : Option String :=
  body.find? (fun n => !scope.contains n)

/-- The `disconnect` listener of `SocketProvider`, App.jsx 107-111, run to its
end or to the first unbound identifier. It writes no state of the component. -/
def providerDisconnect (s : State) : Run :=
  { state := s, raised := (firstUnbound socketProviderScope providerDisconnectUses).isSome }

/-- The socket emits `disconnect`: its listeners run in the order of their
registration, the one of `SocketProvider` first, then `handleDisconnect` of
`CodeEditor`; a listener that raises ends the dispatch. -/
def dispatchDisconnect (s : State) : Run :=
  let s0 := { s with socket := s.socket.map (fun _ => { connected := false, id := none }) }
  let r := providerDisconnect s0
  if r.raised then r else { state := handleDisconnect r.state, raised := false }

/-! ## Comments and versions -/

/-- White space in the sense of `String.prototype.trim`. -/
def isJsWhitespace (c : Char) : Bool :=
  let n := c.toNat
  n == 9 || n == 10 || n == 11 || n == 12 || n == 13 || n == 32 || n == 160 || n == 5760
    || (8192 ≤ n && n ≤ 8202) || n == 8232 || n == 8233 || n == 8239 || n == 8287
    || n == 12288 || n == 65279

/-- The test `!text.trim()`: the text is empty or white space only. -/
def isBlank (text : String) : Bool :=
  text.data.all isJsWhitespace

/-- Source `handleAddComment(e)`, App.jsx 1026-1043. -/
def handleAddComment (s : State) : State :=
  if isBlank s.newCommentText then s
  else
    match s.fileId, s.selectedLine, s.user with
    | some fileId, some line, some _ =>
      if s.socketConnected && decide (line ≠ 0) then
        { s.emit (.addComment fileId line s.newCommentText) with
          newCommentText := ""
          showCommentModal := false }
      else s
    | _, _, _ => s

/-- Source `handleResolveComment(commentId, currentResolvedStatus)`, App.jsx
1045-1051. -/
def handleResolveComment (s : State) (commentId : String) : State :=
  match s.fileId, s.user with
  | some fileId, some _ =>
    if s.socketConnected then s.emit (.resolveComment fileId commentId) else s
  | _, _ => s

/-- Source `handleSaveVersion`, App.jsx 1104-1114. -/
def handleSaveVersion (s : State) : State :=
  match s.user with
  | none => s
  | some _ =>
    match s.fileId with
    | none => s
    | some _ => { s with showSaveVersionModal := true }

/-- Source `handleSubmitVersion(e)` up to the sending of its request, App.jsx
1116-1131. Reading `user.token` without a user raises inside the `try`, and
nothing is sent. -/
def handleSubmitVersion (s : State) : State :=
  if isBlank s.versionMessage then s
  else
    match s.user with
    | some u =>
      { s with requests := s.requests ++
          [.createVersion (s.fileId.getD "undefined") u.token s.versionMessage] }
    | none => s

/-- Source `handleCommentUpdated(updatedComment)`, App.jsx 666-674. -/
def handleCommentUpdated (s : State) (updatedComment : Comment) : State :=
  { s with
    comments := s.comments.map
      (fun comment => if comment._id = updatedComment._id then updatedComment else comment) }

/-! ## Sample states -/

/-- A mounted editor showing `foo`, caret at line 1 column 4. -/
def sampleEditor : Editor :=
  { value := "foo"
    languageId := "javascript"
    caret := some { lineNumber := 1, column := 4 }
    selection := some { startLineNumber := 1, startColumn := 4, endLineNumber := 1, endColumn := 4 }
    decorations := []
    lastDecorationId := 0 }

/-- Participant A: file `f1` of project `p1` open, socket connected as `me`,
editor mounted, document text `foo`, nothing pending. -/
def sampleState : State :=
  { State.initial (some "p1") (some "f1") none (some { connected := true, id := some "me" }) true "#1A2B3C" with
    code := "foo"
    isConnected := true
    editorRef := some sampleEditor
    monacoRef := true }

/-- Cursor activity of participant `u1` (ann) with a selection. -/
def cursorAnn : CursorPayload :=
  { userId := "u1"
    username := some "ann"
    cursorPosition := some { lineNumber := 1, column := 2 }
    selection := some { startLineNumber := 1, startColumn := 2, endLineNumber := 1, endColumn := 4 }
    color := "#FF0000" }

/-- A later cursor activity of participant `u1`, selection collapsed. -/
def cursorAnnMoved : CursorPayload :=
  { userId := "u1"
    username := some "ann"
    cursorPosition := some { lineNumber := 1, column := 3 }
    selection := none
    color := "#FF0000" }

/-- Cursor activity of the anonymous participant `u2`. -/
def cursorBob : CursorPayload :=
  { userId := "u2"
    username := none
    cursorPosition := some { lineNumber := 1, column := 1 }
    selection := none
    color := "#00FF00" }

/-- Cursor activity echoed back with the local socket id `me`. -/
def cursorSelf : CursorPayload :=
  { userId := "me"
    username := none
    cursorPosition := some { lineNumber := 1, column := 4 }
    selection := none
    color := "#1A2B3C" }

/-- The participant list the server sends while `u1` and `u2` are present. -/
def sampleUsers : List OnlineUser :=
  [{ id := "u1", username := some "ann", color := "#FF0000" },
   { id := "u2", username := none, color := "#00FF00" }]

/-- A presence history: both participants show up, `u1` moves, `u2` leaves. -/
def presenceTrace : List Event :=
  [.cursorActivity cursorAnn, .cursorActivity cursorBob, .userListUpdate sampleUsers,
    .cursorActivity cursorAnnMoved, .userDisconnected "u2"]

/-- The component after its first render, file `f1` open, socket connected. -/
def freshState : State :=
  State.initial (some "p1") (some "f1") none (some { connected := true, id := some "me" }) true "#1A2B3C"

/-- A timed history after which two participants are present and decorated. -/
def busyTrace : List (Nat × Event) :=
  [(0, .editorMount "// Connecting to server..." "javascript" sampleEditor), (10, .cursorActivity cursorAnn), (20, .cursorActivity cursorBob),
    (30, .userListUpdate sampleUsers)]

/-- The state after `busyTrace`: two participants listed, two handles stored. -/
def busyState : State :=
  runTimed freshState busyTrace

/-- Both participants have shown up. -/
def twoHandles : List Event :=
  [.cursorActivity cursorAnn, .cursorActivity cursorBob]

/-- Two remote updates 40 ms apart, then a change notification carrying the
text of the second update, 20 ms after that update was applied. -/
def overlapTrace : List (Nat × Event) :=
  [ (100, .codeUpdate { code := "a", language := some "javascript" }),
    (140, .codeUpdate { code := "b", language := some "javascript" }),
    (160, .editorChange "b") ]

/-- A mounted editor showing two lines, caret at the end of the second. -/
def twoLineEditor : Editor :=
  { value := "abc\ndef"
    languageId := "javascript"
    caret := some { lineNumber := 2, column := 4 }
    selection := some { startLineNumber := 2, startColumn := 4, endLineNumber := 2, endColumn := 4 }
    decorations := []
    lastDecorationId := 0 }

/-- Participant A with the two-line document open. -/
def twoLineState : State :=
  { sampleState with code := "abc\ndef", editorRef := some twoLineEditor }

/-- A remote update to one line of eight characters. -/
def oneLineUpdate : CodePayload :=
  { code := "abcdefgh", language := some "javascript" }

/-- A remote update to a text of two characters. -/
def shortUpdate : CodePayload :=
  { code := "ab", language := some "javascript" }

/-- A remote update that keeps two lines of three characters. -/
def sameShapeUpdate : CodePayload :=
  { code := "xyz\nuvw", language := some "javascript" }

/-- Participant A after navigating from file `f1` to file `f2`. -/
def movedState : State :=
  run sampleState [.navigate (some "p1") (some "f2")]

/-- The stored content of file `f1`, as the data service returns it. -/
def staleFile : CodePayload :=
  { code := "text of f1", language := some "python" }

/-- The stored comments of file `f1`. -/
def staleComments : List Comment :=
  [{ _id := "c1", line := 1, text := "old", username := "ann", resolved := false }]

/-- File `f1` is loaded as `v1` over the socket and a peer edits it to `v2`. -/
def liveTrace : List Event :=
  [.loadFile { code := "v1", language := some "javascript" },
   .codeUpdate { code := "v2", language := some "javascript" }]

/-- The stored content `v0` of file `f1`, fetched over HTTP at join time. -/
def storedFile : CodePayload :=
  { code := "v0", language := some "javascript" }

/-- The join race: the content fetch resolves at 100 ms, `load-file` arrives
at 140 ms, and the editor reports the loaded text at 160 ms. -/
def joinRaceTrace : List (Nat × Event) :=
  [ (100, .contentFetched "f1" (.ok storedFile)),
    (140, .loadFile { code := "loaded", language := some "javascript" }),
    (160, .editorChange "loaded") ]

/-- A cursor move of the local user to line 1 column 2. -/
def localCursorMove : CursorEvent :=
  { position := { lineNumber := 1, column := 2 }, selection := none }

/-- A history with every kind of outward event: mount, join of `f1`, a local
cursor move, a local edit. -/
def chattyTrace : List (Nat × Event) :=
  [(0, .editorMount "// Connecting to server..." "javascript" sampleEditor), (10, .navigate (some "p1") (some "f1")),
    (100, .cursorMoved (some "f1") localCursorMove), (200, .editorChange "x")]

/-- Six draws of one half each. -/
def halfDraws : Nat → ℚ :=
  fun _ => 1 / 2

/-- The draws `d i / 16`, which select the digits `d i`. -/
def drawsOf (d : Nat → Nat) : Nat → ℚ :=
  fun i => (d i : ℚ) / 16

/-- The account of `ann`. -/
def annUser : User :=
  { userId := "u1", username := "ann", token := "tok" }

/-- The sample state with `ann` logged in. -/
def loggedInState : State :=
  login sampleState annUser

/-- Ann has written a comment for line 3 in the comment dialog. -/
def commentDraftState : State :=
  { loggedInState with selectedLine := some 3, newCommentText := "look here", showCommentModal := true }

/-- The same comment dialog with nobody logged in. -/
def anonymousDraftState : State :=
  { sampleState with selectedLine := some 3, newCommentText := "look here", showCommentModal := true }

/-- Ann has typed two blanks in the comment dialog. -/
def blankDraftState : State :=
  { loggedInState with selectedLine := some 3, newCommentText := "  ", showCommentModal := true }

/-- Ann has opened the save-version dialog and left the message empty. -/
def emptyMessageState : State :=
  { loggedInState with showSaveVersionModal := true, versionMessage := "" }

/-- Ann has opened the save-version dialog and typed three blanks. -/
def blankMessageState : State :=
  { loggedInState with showSaveVersionModal := true, versionMessage := "   " }

/-- Ann has opened the save-version dialog and typed `v1`. -/
def namedMessageState : State :=
  { loggedInState with showSaveVersionModal := true, versionMessage := "v1" }

/-- The server rejects the token of `ann`; the provider then opens a new
socket, which connects as `me2`, and the join effect of the editor runs again. -/
def rejoinState : State :=
  joinEffect (joinCleanup (socketConnects (providerAuthenticationFailed loggedInState) "me2"))

/-- The cursor listener that `handleEditorDidMount` registers when the editor
mounts in state `atMount`, App.jsx 895-904: the `fileId` it reads is the one of
that render. -/
def mountedCursorListener (atMount : State) (s : State) (e : CursorEvent) : State :=
  onDidChangeCursorPosition s atMount.fileId e

/-- The editor mounts with file `f1` open, the route changes to file `f2`,
and the local caret moves. -/
def staleCursorState : State :=
  mountedCursorListener freshState
    (navigateTo (handleEditorDidMount freshState freshState.code freshState.language sampleEditor) (some "p1") (some "f2"))
    localCursorMove

/-- A stored file without a language. -/
def noLanguageFile : CodePayload :=
  { code := "print(1)", language := none }

/-- The comment `c1` after it was resolved. -/
def resolvedComment : Comment :=
  { _id := "c1", line := 1, text := "old", username := "ann", resolved := true }

/-- A comment collection of two comments. -/
def twoComments : List Comment :=
  [{ _id := "c1", line := 1, text := "old", username := "ann", resolved := false },
   { _id := "c2", line := 2, text := "other", username := "bob", resolved := false }]

/-- The component right after the join effect of its first render has run for
file `f1`; the editor is not ready and no content has arrived. -/
def joinedState : State :=
  commitValue freshState.code (joinEffect freshState)

/-- The editor becomes ready then, created with the text of the `value` prop,
and the `Editor` element calls the `onMount` of the first render. -/
def staleMountState : State :=
  handleEditorDidMount joinedState freshState.code freshState.language
    { sampleEditor with value := joinedState.code }

/-- The route changes to file `f2` before any content has arrived: the join
reset runs again and the render is committed. -/
def staleRejoinState : State :=
  commitValue staleMountState.code (navigateTo staleMountState (some "p1") (some "f2"))

/-! ## Synchronization engine: theorems -/

/-- C1: a local change `value` always becomes the document text; the outward
log grows by exactly the one event `code-change(fileId, value, language)` when
the apply-in-progress flag is clear, a file is open and the socket is
connected, and is unchanged otherwise (in particular whenever the flag is
set); so the log grows if and only if those three conditions hold. The flag
itself is not touched. -/
theorem handleEditorChange_emits_iff_flag_clear (s : State) (value : String) :
    (handleEditorChange s value).code = value
    ∧ (handleEditorChange s value).isUpdatingRemotely = s.isUpdatingRemotely
    ∧ (handleEditorChange s value).emitted = s.emitted ++
        (match s.fileId with
          | some fileId =>
            if s.isUpdatingRemotely = false ∧ s.socketConnected = true then
              [OutEvent.codeChange fileId value s.language]
            else []
          | none => [])
    ∧ ((handleEditorChange s value).emitted ≠ s.emitted ↔
        (s.isUpdatingRemotely = false ∧ s.fileId.isSome = true ∧ s.socketConnected = true)) := by
  unfold handleEditorChange State.emit
  cases hf : s.fileId <;> cases hu : s.isUpdatingRemotely <;> cases hc : s.socketConnected <;> simp [hc]

/-- C2 (fails on overlapping guard timers): the second update is applied at
140 ms and its echo notification arrives at 160 ms, inside its 50 ms guard
window, yet the timer of the first update has cleared the flag at 150 ms and
the notification is emitted as `code-change(f1, b)`. -/
theorem overlapTrace_echo_emitted :
    160 < 140 + 50
    ∧ (runTimed sampleState (overlapTrace.take 2)).code = "b"
    ∧ (runTimed sampleState (overlapTrace.take 2)).isUpdatingRemotely = true
    ∧ ((runTimed sampleState (overlapTrace.take 2)).advanceTo 160).isUpdatingRemotely = false
    ∧ (runTimed sampleState overlapTrace).emitted = [OutEvent.codeChange "f1" "b" "javascript"] := by
  decide

theorem handleCodeUpdate_code (s : State) (p : CodePayload) :
    (handleCodeUpdate s p).code = p.code := by
  unfold handleCodeUpdate handleCodeUpdateRun
  cases h : s.editorRef <;> simp [State.setTimeout]
  split_ifs <;> rfl

theorem handleCodeUpdate_emitted (s : State) (p : CodePayload) :
    (handleCodeUpdate s p).emitted = s.emitted := by
  unfold handleCodeUpdate handleCodeUpdateRun
  cases h : s.editorRef <;> simp [State.setTimeout]
  split_ifs <;> rfl

theorem handleCodeUpdate_editor_value (s : State) (p : CodePayload) :
    (handleCodeUpdate s p).editorRef.map Editor.value = s.editorRef.map (fun _ => p.code) := by
  unfold handleCodeUpdate handleCodeUpdateRun
  cases h : s.editorRef with
  | none => simp [State.setTimeout, h]
  | some ed =>
    simp [State.setTimeout]
    split_ifs <;> cases ed.caret <;> cases ed.selection <;>
      simp [Editor.setValue, Editor.setModelLanguage, Editor.setPosition, Editor.setSelection]

theorem advanceTo_code (s : State) (t : Nat) : (s.advanceTo t).code = s.code := rfl

theorem advanceTo_emitted (s : State) (t : Nat) : (s.advanceTo t).emitted = s.emitted := rfl

/-- C3: a remote `code-update` replaces the document text wholesale, in the
state and in the mounted editor, whatever the prior state, and emits nothing.
In the scenario (file open, socket connected, flag clear) a local edit to
`localText` emits `code-change(localText)` once; the remote update `p` that
follows leaves the text `p.code`, and neither it nor the later guard timers
re-apply or re-emit the local text. -/
theorem handleCodeUpdate_last_writer_wins (s : State) (fileId localText : String) (p : CodePayload)
    (hfile : s.fileId = some fileId) (hconn : s.socketConnected = true)
    (hflag : s.isUpdatingRemotely = false) :
    (∀ (s0 : State) (p0 : CodePayload),
        (handleCodeUpdate s0 p0).code = p0.code
        ∧ (handleCodeUpdate s0 p0).editorRef.map Editor.value = s0.editorRef.map (fun _ => p0.code)
        ∧ (handleCodeUpdate s0 p0).emitted = s0.emitted)
    ∧ (handleEditorChange s localText).code = localText
    ∧ (handleEditorChange s localText).emitted = s.emitted ++ [OutEvent.codeChange fileId localText s.language]
    ∧ (handleCodeUpdate (handleEditorChange s localText) p).code = p.code
    ∧ (handleCodeUpdate (handleEditorChange s localText) p).editorRef.map Editor.value
        = s.editorRef.map (fun _ => p.code)
    ∧ (∀ t : Nat,
        ((handleCodeUpdate (handleEditorChange s localText) p).advanceTo t).code = p.code
        ∧ ((handleCodeUpdate (handleEditorChange s localText) p).advanceTo t).emitted
            = s.emitted ++ [OutEvent.codeChange fileId localText s.language]) := by
  have hec : (handleEditorChange s localText).emitted
      = s.emitted ++ [OutEvent.codeChange fileId localText s.language] := by
    simp [handleEditorChange, State.emit, hfile, hconn, hflag]
  have hed : (handleEditorChange s localText).editorRef = s.editorRef := by
    simp [handleEditorChange, State.emit, hfile, hconn, hflag]
  refine ⟨fun s0 p0 => ⟨handleCodeUpdate_code s0 p0, handleCodeUpdate_editor_value s0 p0,
    handleCodeUpdate_emitted s0 p0⟩, ?_, hec, handleCodeUpdate_code _ _, ?_, fun t => ⟨?_, ?_⟩⟩
  · simp [handleEditorChange, State.emit, hfile, hconn, hflag]
  · rw [handleCodeUpdate_editor_value, hed]
  · rw [advanceTo_code, handleCodeUpdate_code]
  · rw [advanceTo_emitted, handleCodeUpdate_emitted, hec]

/-- C3 at the scenario of the spec: from `foo`, the local edit `foobar` is
emitted once and the remote `foobaz` overwrites it. -/
theorem handleCodeUpdate_last_writer_wins_witness :
    (handleEditorChange sampleState "foobar").emitted = [OutEvent.codeChange "f1" "foobar" "javascript"]
    ∧ (handleCodeUpdate (handleEditorChange sampleState "foobar")
        { code := "foobaz", language := some "javascript" }).code = "foobaz"
    ∧ (handleCodeUpdate (handleEditorChange sampleState "foobar")
        { code := "foobaz", language := some "javascript" }).editorRef.map Editor.value = some "foobaz"
    ∧ (∀ t : Nat,
        ((handleCodeUpdate (handleEditorChange sampleState "foobar")
          { code := "foobaz", language := some "javascript" }).advanceTo t).code = "foobaz"
        ∧ ((handleCodeUpdate (handleEditorChange sampleState "foobar")
          { code := "foobaz", language := some "javascript" }).advanceTo t).emitted
            = [OutEvent.codeChange "f1" "foobar" "javascript"]) :=
  have h := handleCodeUpdate_last_writer_wins sampleState "f1" "foobar"
    { code := "foobaz", language := some "javascript" } rfl rfl rfl
  ⟨h.2.2.1, h.2.2.2.1, h.2.2.2.2.1, h.2.2.2.2.2⟩

/-- C4 (fails): a remote apply in which `editor.setValue` raises. The handler
has set the flag and leaves before its `setTimeout`: no timer is pending, so
the flag is still set after any wait and every later local edit is swallowed.
This holds for `handleCodeUpdate` and for `handleLoadFile`. -/
theorem handleCodeUpdateRun_raise_keeps_flag :
    (handleCodeUpdateRun (some .setValue) sampleState { code := "x", language := some "javascript" }).raised = true
    ∧ (handleCodeUpdateRun (some .setValue) sampleState { code := "x", language := some "javascript" }).state.isUpdatingRemotely = true
    ∧ (handleCodeUpdateRun (some .setValue) sampleState { code := "x", language := some "javascript" }).state.timers = []
    ∧ (handleLoadFileRun (some .setValue) sampleState { code := "x", language := some "javascript" }).raised = true
    ∧ (handleLoadFileRun (some .setValue) sampleState { code := "x", language := some "javascript" }).state.isUpdatingRemotely = true
    ∧ (handleLoadFileRun (some .setValue) sampleState { code := "x", language := some "javascript" }).state.timers = []
    ∧ (∀ (t : Nat) (value : String),
        (handleEditorChange ((handleCodeUpdateRun (some .setValue) sampleState
          { code := "x", language := some "javascript" }).state.advanceTo t) value).emitted = []
        ∧ (handleEditorChange ((handleLoadFileRun (some .setValue) sampleState
          { code := "x", language := some "javascript" }).state.advanceTo t) value).emitted = []) := by
  refine ⟨by decide, by decide, by decide, by decide, by decide, by decide, fun t value => ⟨?_, ?_⟩⟩
  · simp [handleEditorChange, handleCodeUpdateRun, State.advanceTo, sampleState, State.initial]
  · simp [handleEditorChange, handleLoadFileRun, State.advanceTo, sampleState, State.initial]

theorem handleCodeUpdate_flag (s : State) (p : CodePayload) :
    (handleCodeUpdate s p).isUpdatingRemotely = true := by
  unfold handleCodeUpdate handleCodeUpdateRun
  cases h : s.editorRef <;> simp [State.setTimeout]
  split_ifs <;> rfl

theorem handleCodeUpdate_timers (s : State) (p : CodePayload) :
    ∀ d ∈ (handleCodeUpdate s p).timers, d ∈ s.timers ∨ d = s.now + 50 := by
  unfold handleCodeUpdate handleCodeUpdateRun
  cases h : s.editorRef with
  | none => simp [State.setTimeout]
  | some ed =>
    simp only [State.setTimeout]
    split_ifs <;> intro d hd <;> first
      | exact Or.inl hd
      | (simp only [List.mem_append, List.mem_singleton] at hd; exact hd)

/-- Echo suppression where it does hold: when no guard timer that is already
pending falls due before the notification, a change notification delivered
less than 50 ms after a remote update is not emitted. -/
theorem echo_suppressed_without_earlier_timer (s : State) (p : CodePayload) (t : Nat) (value : String)
    (hpending : ∀ d ∈ s.timers, t < d) (ht : t < s.now + 50) :
    (stepAt (handleCodeUpdate s p) (t, .editorChange value)).emitted = s.emitted := by
  have hflag := handleCodeUpdate_flag s p
  have hany : ((handleCodeUpdate s p).timers.any (fun d => decide (d ≤ t))) = false := by
    rw [List.any_eq_false]
    intro d hd
    rcases handleCodeUpdate_timers s p d hd with h | h
    · have := hpending d h
      simp; omega
    · simp; omega
  have h2 : ((handleCodeUpdate s p).advanceTo t).isUpdatingRemotely = true := by
    simp [State.advanceTo, hany, hflag]
  have h3 : ((handleCodeUpdate s p).advanceTo t).emitted = s.emitted := by
    rw [advanceTo_emitted, handleCodeUpdate_emitted]
  simp only [stepAt, step, handleEditorChange, h2]
  cases ((handleCodeUpdate s p).advanceTo t).fileId <;> simp [h3]

/-! ## Presence tracker: the decoration map -/

theorem handleOf_some_mem {m : List (String × DecorationHandle)} {k : String} {h : DecorationHandle}
    (hk : handleOf m k = some h) : (k, h) ∈ m := by
  unfold handleOf at hk
  cases hf : m.find? (fun kv => kv.1 == k) with
  | none => simp [hf] at hk
  | some kv =>
    have h1 := List.find?_some hf
    have h2 := List.mem_of_find?_eq_some hf
    simp [hf] at hk
    simp at h1
    obtain ⟨a, b⟩ := kv
    simp at h1 hk
    subst h1; subst hk
    exact h2

theorem handleOf_eq_none_iff {m : List (String × DecorationHandle)} {k : String} :
    handleOf m k = none ↔ ∀ kv ∈ m, kv.1 ≠ k := by
  unfold handleOf
  simp

theorem mem_deleteKey {m : List (String × DecorationHandle)} {k : String} {kv : String × DecorationHandle} :
    kv ∈ deleteKey m k ↔ kv ∈ m ∧ kv.1 ≠ k := by
  simp [deleteKey]

theorem handleOf_deleteKey_self (m : List (String × DecorationHandle)) (k : String) :
    handleOf (deleteKey m k) k = none := by
  rw [handleOf_eq_none_iff]
  intro kv hkv
  exact (mem_deleteKey.1 hkv).2

theorem handleOf_deleteKey_other (m : List (String × DecorationHandle)) {k j : String} (hjk : j ≠ k) :
    handleOf (deleteKey m k) j = handleOf m j := by
  unfold handleOf deleteKey
  induction m with
  | nil => rfl
  | cons a t ih =>
    by_cases hak : a.1 = k
    · have h1 : (a.1 != k) = false := by simp [hak]
      have h2 : (a.1 == j) = false := by
        simp only [beq_eq_false_iff_ne, ne_eq]
        intro h
        exact hjk (h ▸ hak)
      rw [List.filter_cons, List.find?_cons]
      simp only [h1, h2, Bool.false_eq_true, if_false]
      exact ih
    · have h1 : (a.1 != k) = true := by simp [hak]
      rw [List.filter_cons]
      simp only [h1, if_true, List.find?_cons]
      cases h2 : (a.1 == j)
      · exact ih
      · rfl

theorem deleteKey_of_handleOf_none {m : List (String × DecorationHandle)} {k : String}
    (hk : handleOf m k = none) : deleteKey m k = m := by
  unfold deleteKey
  rw [List.filter_eq_self]
  intro kv hkv
  simpa using handleOf_eq_none_iff.1 hk kv hkv

theorem setKey_of_handleOf_none {m : List (String × DecorationHandle)} {k : String}
    (hk : handleOf m k = none) (h : DecorationHandle) : setKey m k h = m ++ [(k, h)] := by
  simp [setKey, hk]

theorem mem_ownedIds {m : List (String × DecorationHandle)} {i : Nat} :
    i ∈ ownedIds m ↔ ∃ kv ∈ m, i ∈ kv.2.decorationId := by
  simp only [ownedIds, List.mem_flatten, List.mem_map]
  constructor
  · rintro ⟨l, ⟨kv, hkv, rfl⟩, hi⟩
    exact ⟨kv, hkv, hi⟩
  · rintro ⟨kv, hkv, hi⟩
    exact ⟨_, ⟨kv, hkv, rfl⟩, hi⟩

theorem keys_deleteKey_nodup {m : List (String × DecorationHandle)} (k : String)
    (hm : (m.map Prod.fst).Nodup) : ((deleteKey m k).map Prod.fst).Nodup :=
  List.Nodup.sublist (List.Sublist.map _ (List.filter_sublist _)) hm

theorem eq_of_key_eq {m : List (String × DecorationHandle)} (hm : (m.map Prod.fst).Nodup)
    {a b : String × DecorationHandle} (ha : a ∈ m) (hb : b ∈ m) (hab : a.1 = b.1) : a = b :=
  List.inj_on_of_nodup_map hm ha hb hab

/-! ## Presence tracker: the editor's overlays -/

theorem mem_remoteOverlayIds {e : Editor} {i : Nat} :
    i ∈ e.remoteOverlayIds ↔ ∃ d, (i, d) ∈ e.decorations ∧ d.isRemote = true := by
  simp [Editor.remoteOverlayIds, Editor.remoteOverlays]

theorem deltaDecorations_nil_decorations (e : Editor) (ids : List Nat) :
    (e.deltaDecorations ids []).decorations = e.decorations.filter (fun d => decide (d.1 ∉ ids)) := by
  simp [Editor.deltaDecorations, Editor.freshIds]

theorem deltaDecorations_nil_lastDecorationId (e : Editor) (ids : List Nat) :
    (e.deltaDecorations ids []).lastDecorationId = e.lastDecorationId := by
  simp [Editor.deltaDecorations]

theorem deltaDecorations_nil_nil (e : Editor) : e.deltaDecorations [] [] = e := by
  cases e
  simp [Editor.deltaDecorations, Editor.freshIds]

theorem newDecorations_isRemote (k : String) (u : Option String) (c : Option Position)
    (sel : Option Selection) (color : String) :
    ∀ d ∈ newDecorations k u c sel color, d.isRemote = true := by
  intro d hd
  unfold newDecorations at hd
  rcases List.mem_append.1 hd with h | h
  · cases c with
    | none => simp at h
    | some p => simp at h; subst h; rfl
  · cases sel with
    | none => simp at h
    | some x =>
      simp only at h
      split_ifs at h
      · simp at h; subst h; rfl
      · simp at h

/-! ## Presence tracker: the decoration-handle invariant -/

theorem decoInv_clear {ed : Editor} {m : List (String × DecorationHandle)} {k : String}
    {h : DecorationHandle} (hinv : DecoInv (some ed) m) (hk : handleOf m k = some h) :
    DecoInv (some (ed.deltaDecorations h.decorationId [])) (deleteKey m k) := by
  obtain ⟨hnd, hdis, -, hed⟩ := hinv
  obtain ⟨hbelow, hown⟩ := hed ed rfl
  have hmem := handleOf_some_mem hk
  refine ⟨keys_deleteKey_nodup k hnd, ?_, by simp, ?_⟩
  · intro a ha b hb hab
    exact hdis a (mem_deleteKey.1 ha).1 b (mem_deleteKey.1 hb).1 hab
  · intro ed1 hed1
    simp only [Option.some.injEq] at hed1
    subst hed1
    refine ⟨?_, ?_⟩
    · intro d hd
      rw [deltaDecorations_nil_decorations] at hd
      rw [deltaDecorations_nil_lastDecorationId]
      exact hbelow d (List.mem_filter.1 hd).1
    · intro i
      rw [mem_remoteOverlayIds, deltaDecorations_nil_decorations, mem_ownedIds]
      constructor
      · rintro ⟨d, hd, hr⟩
        obtain ⟨hd1, hd2⟩ := List.mem_filter.1 hd
        simp only [decide_eq_true_eq] at hd2
        obtain ⟨kv, hkv, hi⟩ := mem_ownedIds.1 ((hown i).1 (mem_remoteOverlayIds.2 ⟨d, hd1, hr⟩))
        refine ⟨kv, mem_deleteKey.2 ⟨hkv, ?_⟩, hi⟩
        intro hkk
        have : kv = (k, h) := eq_of_key_eq hnd hkv hmem hkk
        subst this
        exact hd2 hi
      · rintro ⟨kv, hkv, hi⟩
        obtain ⟨hkv1, hkv2⟩ := mem_deleteKey.1 hkv
        obtain ⟨d, hd, hr⟩ := mem_remoteOverlayIds.1 ((hown i).2 (mem_ownedIds.2 ⟨kv, hkv1, hi⟩))
        refine ⟨d, List.mem_filter.2 ⟨hd, ?_⟩, hr⟩
        simp only [decide_eq_true_eq]
        exact hdis kv hkv1 (k, h) hmem hkv2 i hi

theorem wf_clearUserDecorations (s : State) (k : String) (hs : WF s) :
    WF (clearUserDecorations s k) := by
  unfold clearUserDecorations
  cases he : s.editorRef with
  | none => simpa [he] using hs
  | some ed =>
    cases hk : handleOf s.remoteDecorations k with
    | none => simpa [he, hk] using hs
    | some h =>
      simp only [WF]
      unfold WF at hs
      rw [he] at hs
      exact decoInv_clear hs hk

theorem clearUserDecorations_handleOf_self (s : State) (k : String)
    (hs : s.editorRef = none → s.remoteDecorations = []) :
    handleOf (clearUserDecorations s k).remoteDecorations k = none := by
  unfold clearUserDecorations
  cases he : s.editorRef with
  | none => simp [hs he, handleOf]
  | some ed =>
    cases hk : handleOf s.remoteDecorations k with
    | none => simpa using hk
    | some h => simpa using handleOf_deleteKey_self _ _

theorem deltaDecorations_add_decorations (e : Editor) (nd : List ModelDeltaDecoration) :
    (e.deltaDecorations [] nd).decorations = e.decorations ++ (e.freshIds nd.length).zip nd := by
  simp [Editor.deltaDecorations]

theorem deltaDecorations_add_lastDecorationId (e : Editor) (nd : List ModelDeltaDecoration) :
    (e.deltaDecorations [] nd).lastDecorationId = e.lastDecorationId + nd.length := rfl

theorem mem_freshIds {e : Editor} {n i : Nat} :
    i ∈ e.freshIds n ↔ e.lastDecorationId ≤ i ∧ i < e.lastDecorationId + n := by
  simp [Editor.freshIds]

theorem exists_mem_zip_freshIds {e : Editor} {nd : List ModelDeltaDecoration} {i : Nat}
    (hi : i ∈ e.freshIds nd.length) : ∃ d, (i, d) ∈ (e.freshIds nd.length).zip nd := by
  have hlen : (e.freshIds nd.length).length ≤ nd.length := by simp [Editor.freshIds]
  have hmap := List.map_fst_zip (e.freshIds nd.length) nd hlen
  rw [← hmap] at hi
  obtain ⟨x, hx, hxi⟩ := List.mem_map.1 hi
  obtain ⟨a, d⟩ := x
  simp only at hxi
  subst hxi
  exact ⟨d, hx⟩

theorem decoInv_add {ed : Editor} {m : List (String × DecorationHandle)} {k : String}
    (nd : List ModelDeltaDecoration) (color : String)
    (hinv : DecoInv (some ed) m) (hk : handleOf m k = none) (hnd : ∀ d ∈ nd, d.isRemote = true) :
    DecoInv (some (ed.deltaDecorations [] nd))
      (m ++ [(k, { decorationId := ed.freshIds nd.length, color := color })]) := by
  obtain ⟨hnodup, hdis, -, hed⟩ := hinv
  obtain ⟨hbelow, hown⟩ := hed ed rfl
  have hold : ∀ a ∈ m, ∀ i ∈ a.2.decorationId, i < ed.lastDecorationId := by
    intro a ha i hi
    obtain ⟨d, hd, -⟩ := mem_remoteOverlayIds.1 ((hown i).2 (mem_ownedIds.2 ⟨a, ha, hi⟩))
    exact hbelow (i, d) hd
  refine ⟨?_, ?_, by simp, ?_⟩
  · rw [List.map_append, List.nodup_append]
    refine ⟨hnodup, by simp, ?_⟩
    intro x hx hx2
    simp only [List.map_cons, List.map_nil, List.mem_singleton] at hx2
    subst hx2
    obtain ⟨kv, hkv, hkk⟩ := List.mem_map.1 hx
    exact handleOf_eq_none_iff.1 hk kv hkv hkk
  · intro a ha b hb hab i hi hib
    rcases List.mem_append.1 ha with ha | ha <;> rcases List.mem_append.1 hb with hb | hb
    · exact hdis a ha b hb hab i hi hib
    · simp only [List.mem_singleton] at hb
      subst hb
      have h1 := hold a ha i hi
      have h2 := (mem_freshIds.1 hib).1
      omega
    · simp only [List.mem_singleton] at ha
      subst ha
      have h1 := hold b hb i hib
      have h2 := (mem_freshIds.1 hi).1
      omega
    · simp only [List.mem_singleton] at ha hb
      subst ha; subst hb
      exact hab rfl
  · intro ed1 hed1
    simp only [Option.some.injEq] at hed1
    subst hed1
    refine ⟨?_, ?_⟩
    · intro d hd
      rw [deltaDecorations_add_decorations] at hd
      rw [deltaDecorations_add_lastDecorationId]
      rcases List.mem_append.1 hd with h | h
      · have := hbelow d h
        omega
      · obtain ⟨i, x⟩ := d
        exact (mem_freshIds.1 (List.of_mem_zip h).1).2
    · intro i
      rw [mem_remoteOverlayIds, deltaDecorations_add_decorations, mem_ownedIds]
      constructor
      · rintro ⟨d, hd, hr⟩
        rcases List.mem_append.1 hd with h | h
        · obtain ⟨kv, hkv, hi⟩ := mem_ownedIds.1 ((hown i).1 (mem_remoteOverlayIds.2 ⟨d, h, hr⟩))
          exact ⟨kv, List.mem_append.2 (Or.inl hkv), hi⟩
        · exact ⟨_, List.mem_append.2 (Or.inr (List.mem_singleton.2 rfl)), (List.of_mem_zip h).1⟩
      · rintro ⟨kv, hkv, hi⟩
        rcases List.mem_append.1 hkv with h | h
        · obtain ⟨d, hd, hr⟩ := mem_remoteOverlayIds.1 ((hown i).2 (mem_ownedIds.2 ⟨kv, h, hi⟩))
          exact ⟨d, List.mem_append.2 (Or.inl hd), hr⟩
        · simp only [List.mem_singleton] at h
          subst h
          obtain ⟨d, hd⟩ := exists_mem_zip_freshIds hi
          exact ⟨d, List.mem_append.2 (Or.inr hd), hnd d (List.of_mem_zip hd).2⟩

/-- What `applyRemoteDecorations` does once editor and monaco are bound: the
old handle of the id is cleared, the new overlays are added under fresh ids
and the new handle is stored last. -/
theorem applyRemoteDecorations_eq (s : State) (k : String) (u : Option String) (c : Option Position)
    (sel : Option Selection) (color : String) (ed : Editor)
    (he : s.editorRef = some ed) (hm : s.monacoRef = true) :
    ∃ ed1, (clearUserDecorations s k).editorRef = some ed1
      ∧ applyRemoteDecorations s k u c sel color =
        { clearUserDecorations s k with
          editorRef := some (ed1.deltaDecorations [] (newDecorations k u c sel color))
          remoteDecorations := (clearUserDecorations s k).remoteDecorations ++
            [(k, { decorationId := ed1.freshIds (newDecorations k u c sel color).length, color := color })] } := by
  have hnone : handleOf (clearUserDecorations s k).remoteDecorations k = none :=
    clearUserDecorations_handleOf_self s k (by simp [he])
  have hed1 : ∃ ed1, (clearUserDecorations s k).editorRef = some ed1 := by
    unfold clearUserDecorations
    cases hk : handleOf s.remoteDecorations k <;> simp [he]
  obtain ⟨ed1, hed1⟩ := hed1
  refine ⟨ed1, hed1, ?_⟩
  unfold applyRemoteDecorations
  simp only [he, hm, Option.isNone_some, Bool.not_true, Bool.or_self, Bool.false_eq_true, if_false]
  simp only [hed1, hnone, setKey_of_handleOf_none hnone]

theorem wf_applyRemoteDecorations (s : State) (k : String) (u : Option String) (c : Option Position)
    (sel : Option Selection) (color : String) (hs : WF s) :
    WF (applyRemoteDecorations s k u c sel color) := by
  cases he : s.editorRef with
  | none => simpa [applyRemoteDecorations, he] using hs
  | some ed =>
    cases hm : s.monacoRef with
    | false => simpa [applyRemoteDecorations, he, hm] using hs
    | true =>
      obtain ⟨ed1, hed1, heq⟩ := applyRemoteDecorations_eq s k u c sel color ed he hm
      have h1 : WF (clearUserDecorations s k) := wf_clearUserDecorations s k hs
      have hnone : handleOf (clearUserDecorations s k).remoteDecorations k = none :=
        clearUserDecorations_handleOf_self s k (by simp [he])
      rw [heq]
      unfold WF at h1 ⊢
      rw [hed1] at h1
      exact decoInv_add _ color h1 hnone (newDecorations_isRemote k u c sel color)

theorem wf_foldl_clear (ks : List String) (s : State) (hs : WF s) :
    WF (ks.foldl clearUserDecorations s) := by
  induction ks generalizing s with
  | nil => exact hs
  | cons k t ih => exact ih _ (wf_clearUserDecorations s k hs)

theorem wf_clearAllDecorations (s : State) (hs : WF s) : WF (clearAllDecorations s) := by
  unfold clearAllDecorations
  split_ifs
  · exact wf_foldl_clear _ s hs
  · exact hs

theorem wf_handleCursorActivity (s : State) (p : CursorPayload) (hs : WF s) :
    WF (handleCursorActivity s p) := by
  unfold handleCursorActivity
  cases s.socket with
  | none => exact hs
  | some k =>
    simp only
    split_ifs
    · exact wf_applyRemoteDecorations _ _ _ _ _ _ hs
    · exact hs

theorem wf_handleUserDisconnected (s : State) (k : String) (hs : WF s) :
    WF (handleUserDisconnected s k) := by
  unfold handleUserDisconnected
  split_ifs
  · exact wf_clearUserDecorations s k hs
  · exact hs

theorem wf_handleDisconnect (s : State) (hs : WF s) : WF (handleDisconnect s) :=
  wf_clearAllDecorations { s with isConnected := false } hs

theorem wf_joinCleanup (s : State) (hs : WF s) : WF (joinCleanup s) := by
  unfold joinCleanup
  split_ifs
  · exact wf_clearAllDecorations s hs
  · exact hs

theorem wf_joinEffect (s : State) (hs : WF s) : WF (joinEffect s) := by
  unfold joinEffect
  split
  · split_ifs
    · exact wf_clearAllDecorations _ hs
    · exact hs
  · exact hs

theorem wf_navigateTo (s : State) (projectId fileId : Option String) (hs : WF s) :
    WF (navigateTo s projectId fileId) :=
  wf_joinEffect _ (wf_joinCleanup s hs)

theorem wf_step_presence (s : State) (e : Event) (he : e.isPresence = true) (hs : WF s) :
    WF (step s e) := by
  cases e with
  | cursorActivity p => exact wf_handleCursorActivity s p hs
  | userDisconnected id => exact wf_handleUserDisconnected s id hs
  | userListUpdate users => exact hs
  | disconnect =>
    simp only [step]
    cases s.socket with
    | none => exact hs
    | some k => exact wf_handleDisconnect _ hs
  | navigate projectId fileId => exact wf_navigateTo s projectId fileId hs
  | editorMount code language editor => simp [Event.isPresence] at he
  | editorChange value => simp [Event.isPresence] at he
  | loadFile p => simp [Event.isPresence] at he
  | codeUpdate p => simp [Event.isPresence] at he
  | connect id => simp [Event.isPresence] at he
  | languageChange newLanguage => simp [Event.isPresence] at he
  | cursorMoved mountFileId e => simp [Event.isPresence] at he
  | contentFetched requestedFileId r => simp [Event.isPresence] at he
  | commentsFetched requestedFileId r => simp [Event.isPresence] at he
  | versionsFetched requestedFileId r => simp [Event.isPresence] at he
  | versionLoaded r => simp [Event.isPresence] at he

theorem wf_run_presence (evs : List Event) (s : State) (hevs : ∀ e ∈ evs, e.isPresence = true)
    (hs : WF s) : WF (run s evs) := by
  induction evs generalizing s with
  | nil => exact hs
  | cons e t ih =>
    exact ih (step s e) (fun x hx => hevs x (List.mem_cons_of_mem _ hx))
      (wf_step_presence s e (hevs e (List.mem_cons_self _ _)) hs)

theorem wf_of_presenceStart (s : State) (hs : PresenceStart s) : WF s := by
  obtain ⟨hm, hed⟩ := hs
  unfold WF DecoInv
  rw [hm]
  refine ⟨by simp, by simp, by simp, ?_⟩
  intro ed he
  obtain ⟨h1, h2⟩ := hed ed he
  refine ⟨h2, ?_⟩
  intro i
  simp [Editor.remoteOverlayIds, h1, ownedIds]

theorem wf_remoteOverlayIds (s : State) (hs : WF s) (i : Nat) :
    i ∈ s.remoteOverlayIds ↔ i ∈ ownedIds s.remoteDecorations := by
  obtain ⟨-, -, hnone, hed⟩ := hs
  unfold State.remoteOverlayIds State.remoteOverlays
  cases he : s.editorRef with
  | none => simp [hnone he, ownedIds]
  | some ed => exact (hed ed he).2 i

/-- C5: decoration-handle invariant. Start with no handle stored and no
remote-cursor overlay in the editor; after any sequence of cursor-activity,
user-disconnected, user-list-update, disconnect and join/navigation events
the map `remoteDecorations` holds at most one handle per session id, and an
overlay id is live in the editor as a remote-cursor overlay exactly when some
handle of the map owns it. -/
theorem remoteDecorations_invariant (s : State) (evs : List Event)
    (hstart : PresenceStart s) (hevs : ∀ e ∈ evs, e.isPresence = true) :
    ((run s evs).remoteDecorations.map Prod.fst).Nodup
    ∧ ∀ i, i ∈ (run s evs).remoteOverlayIds ↔ ∃ kv ∈ (run s evs).remoteDecorations, i ∈ kv.2.decorationId := by
  have hwf : WF (run s evs) := wf_run_presence evs s hevs (wf_of_presenceStart s hstart)
  refine ⟨hwf.1, fun i => ?_⟩
  rw [wf_remoteOverlayIds _ hwf, mem_ownedIds]

/-! ## Presence tracker: ownership in every reachable state -/

theorem remoteOverlayIds_of_some {s : State} {ed : Editor} (he : s.editorRef = some ed) :
    s.remoteOverlayIds = ed.remoteOverlayIds := by
  simp [State.remoteOverlayIds, State.remoteOverlays, he, Editor.remoteOverlayIds]

theorem remoteOverlayIds_of_none {s : State} (he : s.editorRef = none) :
    s.remoteOverlayIds = [] := by
  simp [State.remoteOverlayIds, State.remoteOverlays, he]

theorem owned_mono {s t : State} (hs : Owned s) (hm : t.remoteDecorations = s.remoteDecorations)
    (he : t.editorRef = none → s.editorRef = none)
    (ho : ∀ i ∈ t.remoteOverlayIds, i ∈ s.remoteOverlayIds) : Owned t := by
  obtain ⟨h1, h2, h3⟩ := hs
  refine ⟨hm ▸ h1, fun h => hm ▸ h2 (he h), fun i hi => ?_⟩
  rw [hm]
  exact h3 i (ho i hi)

theorem owned_clearUserDecorations (s : State) (k : String) (hs : Owned s) :
    Owned (clearUserDecorations s k) := by
  unfold clearUserDecorations
  cases he : s.editorRef with
  | none => simpa [he] using hs
  | some ed =>
    cases hk : handleOf s.remoteDecorations k with
    | none => simpa [he, hk] using hs
    | some h =>
      obtain ⟨h1, -, h3⟩ := hs
      have hmem := handleOf_some_mem hk
      refine ⟨keys_deleteKey_nodup k h1, by simp, ?_⟩
      intro i hi
      rw [@remoteOverlayIds_of_some _ (ed.deltaDecorations h.decorationId []) rfl,
        mem_remoteOverlayIds, deltaDecorations_nil_decorations] at hi
      obtain ⟨d, hd, hr⟩ := hi
      obtain ⟨hd1, hd2⟩ := List.mem_filter.1 hd
      simp only [decide_eq_true_eq] at hd2
      have hi0 : i ∈ s.remoteOverlayIds := by
        rw [remoteOverlayIds_of_some he]
        exact mem_remoteOverlayIds.2 ⟨d, hd1, hr⟩
      obtain ⟨kv, hkv, hik⟩ := mem_ownedIds.1 (h3 i hi0)
      refine mem_ownedIds.2 ⟨kv, mem_deleteKey.2 ⟨hkv, ?_⟩, hik⟩
      intro hkk
      have : kv = (k, h) := eq_of_key_eq h1 hkv hmem hkk
      subst this
      exact hd2 hik

theorem owned_applyRemoteDecorations (s : State) (k : String) (u : Option String) (c : Option Position)
    (sel : Option Selection) (color : String) (hs : Owned s) :
    Owned (applyRemoteDecorations s k u c sel color) := by
  cases he : s.editorRef with
  | none => simpa [applyRemoteDecorations, he] using hs
  | some ed =>
    cases hm : s.monacoRef with
    | false => simpa [applyRemoteDecorations, he, hm] using hs
    | true =>
      obtain ⟨ed1, hed1, heq⟩ := applyRemoteDecorations_eq s k u c sel color ed he hm
      obtain ⟨h1, -, h3⟩ := owned_clearUserDecorations s k hs
      have hnone : handleOf (clearUserDecorations s k).remoteDecorations k = none :=
        clearUserDecorations_handleOf_self s k (by simp [he])
      rw [heq]
      refine ⟨?_, by simp, ?_⟩
      · simp only [List.map_append, List.nodup_append]
        refine ⟨h1, by simp, ?_⟩
        intro x hx hx2
        simp only [List.map_cons, List.map_nil, List.mem_singleton] at hx2
        subst hx2
        obtain ⟨kv, hkv, hkk⟩ := List.mem_map.1 hx
        exact handleOf_eq_none_iff.1 hnone kv hkv hkk
      · intro i hi
        rw [@remoteOverlayIds_of_some _
          (ed1.deltaDecorations [] (newDecorations k u c sel color)) rfl,
          mem_remoteOverlayIds, deltaDecorations_add_decorations] at hi
        obtain ⟨d, hd, hr⟩ := hi
        rw [mem_ownedIds]
        rcases List.mem_append.1 hd with h | h
        · have hi0 : i ∈ (clearUserDecorations s k).remoteOverlayIds := by
            rw [remoteOverlayIds_of_some hed1]
            exact mem_remoteOverlayIds.2 ⟨d, h, hr⟩
          obtain ⟨kv, hkv, hik⟩ := mem_ownedIds.1 (h3 i hi0)
          exact ⟨kv, List.mem_append.2 (Or.inl hkv), hik⟩
        · exact ⟨_, List.mem_append.2 (Or.inr (List.mem_singleton.2 rfl)), (List.of_mem_zip h).1⟩

theorem owned_foldl_clear (ks : List String) (s : State) (hs : Owned s) :
    Owned (ks.foldl clearUserDecorations s) := by
  induction ks generalizing s with
  | nil => exact hs
  | cons k t ih => exact ih _ (owned_clearUserDecorations s k hs)

theorem owned_clearAllDecorations (s : State) (hs : Owned s) : Owned (clearAllDecorations s) := by
  unfold clearAllDecorations
  split_ifs
  · exact owned_foldl_clear _ s hs
  · exact hs

theorem setValue_remoteOverlayIds (e : Editor) (text : String) :
    (e.setValue text).remoteOverlayIds = [] := rfl

theorem owned_handleEditorDidMount (s : State) (code language : String) (editor : Editor)
    (hs : Owned s) : Owned (handleEditorDidMount s code language editor) := by
  obtain ⟨h1, -, -⟩ := hs
  unfold handleEditorDidMount
  cases hc : s.initialCodeLoaded with
  | none =>
    refine ⟨h1, by simp [hc], ?_⟩
    intro i hi
    simp [hc, State.remoteOverlayIds, State.remoteOverlays, Editor.remoteOverlays,
      Editor.setModelLanguage, Editor.setValue] at hi
  | some c =>
    refine ⟨h1, by simp [hc, State.setTimeout], ?_⟩
    intro i hi
    simp [hc, State.setTimeout, State.remoteOverlayIds, State.remoteOverlays, Editor.remoteOverlays,
      Editor.setModelLanguage, Editor.setValue] at hi

theorem remoteOverlayIds_congr {s t : State} (h : t.editorRef = s.editorRef) :
    t.remoteOverlayIds = s.remoteOverlayIds := by
  simp [State.remoteOverlayIds, State.remoteOverlays, h]

theorem handleEditorChange_editorRef (s : State) (value : String) :
    (handleEditorChange s value).editorRef = s.editorRef := by
  unfold handleEditorChange State.emit
  cases s.fileId with
  | none => rfl
  | some f => simp only; split_ifs <;> rfl

theorem handleEditorChange_remoteDecorations (s : State) (value : String) :
    (handleEditorChange s value).remoteDecorations = s.remoteDecorations := by
  unfold handleEditorChange State.emit
  cases s.fileId with
  | none => rfl
  | some f => simp only; split_ifs <;> rfl

theorem owned_handleEditorChange (s : State) (value : String) (hs : Owned s) :
    Owned (handleEditorChange s value) := by
  refine owned_mono hs (handleEditorChange_remoteDecorations s value) ?_ ?_
  · intro h
    rw [← handleEditorChange_editorRef s value]
    exact h
  · intro i hi
    rw [← remoteOverlayIds_congr (handleEditorChange_editorRef s value)]
    exact hi

theorem owned_handleLoadFile (s : State) (p : CodePayload) (hs : Owned s) :
    Owned (handleLoadFile s p) := by
  unfold handleLoadFile handleLoadFileRun
  cases he : s.editorRef with
  | none =>
    refine owned_mono hs ?_ ?_ ?_ <;> simp [he, State.remoteOverlayIds, State.remoteOverlays]
  | some ed =>
    refine owned_mono hs ?_ ?_ ?_ <;>
      simp [he, State.setTimeout, State.remoteOverlayIds, State.remoteOverlays, Editor.remoteOverlays,
        Editor.setValue]

theorem handleCodeUpdate_remoteDecorations (s : State) (p : CodePayload) :
    (handleCodeUpdate s p).remoteDecorations = s.remoteDecorations := by
  unfold handleCodeUpdate handleCodeUpdateRun
  cases h : s.editorRef <;> simp [State.setTimeout]
  split_ifs <;> rfl

theorem handleCodeUpdate_remoteOverlays (s : State) (p : CodePayload) :
    (handleCodeUpdate s p).remoteOverlays = [] := by
  unfold handleCodeUpdate handleCodeUpdateRun
  cases h : s.editorRef with
  | none => simp [State.setTimeout, State.remoteOverlays, h]
  | some ed =>
    simp [State.setTimeout]
    split_ifs <;> cases ed.caret <;> cases ed.selection <;>
      simp [State.remoteOverlays, Editor.remoteOverlays, Editor.setValue, Editor.setModelLanguage,
        Editor.setPosition, Editor.setSelection]

theorem handleCodeUpdate_editorRef_none (s : State) (p : CodePayload)
    (h : (handleCodeUpdate s p).editorRef = none) : s.editorRef = none := by
  have hv := handleCodeUpdate_editor_value s p
  rw [h] at hv
  cases he : s.editorRef with
  | none => rfl
  | some ed => simp [he] at hv

theorem owned_handleCodeUpdate (s : State) (p : CodePayload) (hs : Owned s) :
    Owned (handleCodeUpdate s p) := by
  refine owned_mono hs (handleCodeUpdate_remoteDecorations s p)
    (handleCodeUpdate_editorRef_none s p) ?_
  intro i hi
  simp [State.remoteOverlayIds, handleCodeUpdate_remoteOverlays] at hi

theorem owned_handleCursorActivity (s : State) (p : CursorPayload) (hs : Owned s) :
    Owned (handleCursorActivity s p) := by
  unfold handleCursorActivity
  cases s.socket with
  | none => exact hs
  | some k =>
    simp only
    split_ifs
    · exact owned_applyRemoteDecorations _ _ _ _ _ _ hs
    · exact hs

theorem owned_handleUserDisconnected (s : State) (k : String) (hs : Owned s) :
    Owned (handleUserDisconnected s k) := by
  unfold handleUserDisconnected
  split_ifs
  · exact owned_clearUserDecorations s k hs
  · exact hs

theorem owned_handleDisconnect (s : State) (hs : Owned s) : Owned (handleDisconnect s) :=
  owned_clearAllDecorations { s with isConnected := false } hs

theorem owned_joinCleanup (s : State) (hs : Owned s) : Owned (joinCleanup s) := by
  unfold joinCleanup
  split_ifs
  · exact owned_clearAllDecorations s hs
  · exact hs

theorem owned_joinEffect (s : State) (hs : Owned s) : Owned (joinEffect s) := by
  unfold joinEffect
  split
  · split_ifs
    · exact owned_clearAllDecorations _ hs
    · exact hs
  · exact hs

theorem handleLanguageChange_remoteOverlays (s : State) (newLanguage : String) :
    (handleLanguageChange s newLanguage).remoteOverlays = s.remoteOverlays := by
  unfold handleLanguageChange State.emit State.remoteOverlays State.socketConnected
  cases hf : s.fileId <;> cases he : s.editorRef <;> cases hm : s.monacoRef <;>
    rcases hk : s.socket with _ | ⟨_ | _, _⟩ <;>
    simp [Editor.remoteOverlays, Editor.setModelLanguage]

theorem handleLanguageChange_remoteDecorations (s : State) (newLanguage : String) :
    (handleLanguageChange s newLanguage).remoteDecorations = s.remoteDecorations := by
  unfold handleLanguageChange State.emit State.socketConnected
  cases hf : s.fileId <;> cases he : s.editorRef <;> cases hm : s.monacoRef <;>
    rcases hk : s.socket with _ | ⟨_ | _, _⟩ <;> simp

theorem handleLanguageChange_editorRef_none (s : State) (newLanguage : String)
    (h : (handleLanguageChange s newLanguage).editorRef = none) : s.editorRef = none := by
  revert h
  unfold handleLanguageChange State.emit State.socketConnected
  cases hf : s.fileId <;> cases he : s.editorRef <;> cases hm : s.monacoRef <;>
    rcases hk : s.socket with _ | ⟨_ | _, _⟩ <;> simp

theorem owned_handleLanguageChange (s : State) (newLanguage : String) (hs : Owned s) :
    Owned (handleLanguageChange s newLanguage) := by
  refine owned_mono hs (handleLanguageChange_remoteDecorations s newLanguage)
    (handleLanguageChange_editorRef_none s newLanguage) ?_
  intro i hi
  simpa [State.remoteOverlayIds, handleLanguageChange_remoteOverlays] using hi

theorem owned_onDidChangeCursorPosition (s : State) (mountFileId : Option String) (e : CursorEvent)
    (hs : Owned s) : Owned (onDidChangeCursorPosition s mountFileId e) := by
  unfold onDidChangeCursorPosition State.emit
  cases mountFileId with
  | none => exact hs
  | some f =>
    simp only
    split_ifs
    · exact hs
    · exact hs

theorem owned_fetchFileContent (s : State) (r : FetchResult CodePayload) (hs : Owned s) :
    Owned (fetchFileContent s r) := by
  unfold fetchFileContent
  cases r with
  | ok data =>
    cases he : s.editorRef with
    | none =>
      refine owned_mono hs ?_ ?_ ?_ <;> simp [he, State.remoteOverlayIds, State.remoteOverlays]
    | some ed =>
      refine owned_mono hs ?_ ?_ ?_ <;> cases s.monacoRef <;>
        simp [he, State.setTimeout, State.remoteOverlayIds, State.remoteOverlays,
          Editor.remoteOverlays, Editor.setValue, Editor.setModelLanguage]
  | notOk => exact hs
  | networkError => exact hs

theorem owned_fetchComments (s : State) (r : FetchResult (List Comment)) (hs : Owned s) :
    Owned (fetchComments s r) := by
  unfold fetchComments
  cases r <;> exact hs

theorem owned_fetchVersions (s : State) (r : FetchResult (List String)) (hs : Owned s) :
    Owned (fetchVersions s r) := by
  unfold fetchVersions
  cases r <;> exact hs

theorem owned_handleLoadVersion (s : State) (r : FetchResult CodePayload) (hs : Owned s) :
    Owned (handleLoadVersion s r) := by
  unfold handleLoadVersion
  cases r with
  | ok data =>
    cases he : s.editorRef with
    | none =>
      refine owned_mono hs ?_ ?_ ?_ <;>
        simp [he, State.setTimeout, State.remoteOverlayIds, State.remoteOverlays]
    | some ed =>
      refine owned_mono hs ?_ ?_ ?_ <;> cases s.monacoRef <;>
        simp [he, State.setTimeout, State.remoteOverlayIds, State.remoteOverlays,
          Editor.remoteOverlays, Editor.setValue, Editor.setModelLanguage]
  | notOk => exact hs
  | networkError => exact hs

theorem owned_step (s : State) (e : Event) (hs : Owned s) : Owned (step s e) := by
  cases e with
  | editorMount code language editor => exact owned_handleEditorDidMount s code language editor hs
  | editorChange value => exact owned_handleEditorChange s value hs
  | loadFile p => exact owned_handleLoadFile s p hs
  | codeUpdate p => exact owned_handleCodeUpdate s p hs
  | cursorActivity p => exact owned_handleCursorActivity s p hs
  | userDisconnected id => exact owned_handleUserDisconnected s id hs
  | userListUpdate users => exact hs
  | connect id =>
    simp only [step]
    cases s.socket with
    | none => exact hs
    | some k => exact hs
  | disconnect =>
    simp only [step]
    cases s.socket with
    | none => exact hs
    | some k => exact owned_handleDisconnect _ hs
  | navigate projectId fileId => exact owned_joinEffect _ (owned_joinCleanup s hs)
  | languageChange newLanguage => exact owned_handleLanguageChange s newLanguage hs
  | cursorMoved mountFileId e => exact owned_onDidChangeCursorPosition s mountFileId e hs
  | contentFetched requestedFileId r => exact owned_fetchFileContent s r hs
  | commentsFetched requestedFileId r => exact owned_fetchComments s r hs
  | versionsFetched requestedFileId r => exact owned_fetchVersions s r hs
  | versionLoaded r => exact owned_handleLoadVersion s r hs

theorem owned_of_reachable {s : State} (hs : Reachable s) : Owned s := by
  induction hs with
  | initial projectId fileId user socket auth color =>
    refine ⟨by simp [State.initial], by simp [State.initial], ?_⟩
    intro i hi
    simp [State.initial, State.remoteOverlayIds, State.remoteOverlays] at hi
  | next t e _ ih => exact owned_step _ e ih

/-! ## Presence tracker: explicit form of clear and apply -/

theorem clearUserDecorations_eq_of_some (s : State) (k : String) (ed : Editor) (he : s.editorRef = some ed) :
    clearUserDecorations s k =
      { s with
        editorRef := some (ed.deltaDecorations (oldIdsOf s.remoteDecorations k) [])
        remoteDecorations := deleteKey s.remoteDecorations k } := by
  unfold clearUserDecorations oldIdsOf
  cases hk : handleOf s.remoteDecorations k with
  | none =>
    simp only [he]
    rw [deltaDecorations_nil_nil, deleteKey_of_handleOf_none hk, ← he]
  | some h => simp only [he]

theorem clearUserDecorations_of_none (s : State) (k : String) (he : s.editorRef = none) :
    clearUserDecorations s k = s := by
  simp [clearUserDecorations, he]

theorem applyRemoteDecorations_eq_of_some (s : State) (k : String) (u : Option String)
    (c : Option Position) (sel : Option Selection) (color : String) (ed : Editor)
    (he : s.editorRef = some ed) (hm : s.monacoRef = true) :
    applyRemoteDecorations s k u c sel color =
      { s with
        editorRef := some ((ed.deltaDecorations (oldIdsOf s.remoteDecorations k) []).deltaDecorations []
          (newDecorations k u c sel color))
        remoteDecorations := deleteKey s.remoteDecorations k ++
          [(k, { decorationId := ed.freshIds (newDecorations k u c sel color).length, color := color })] } := by
  obtain ⟨ed1, hed1, heq⟩ := applyRemoteDecorations_eq s k u c sel color ed he hm
  rw [heq]
  rw [clearUserDecorations_eq_of_some s k ed he] at hed1 ⊢
  simp only [Option.some.injEq] at hed1
  subst hed1
  rfl

theorem handleOf_append_singleton (m : List (String × DecorationHandle)) (k : String) (h : DecorationHandle)
    (hk : handleOf m k = none) : handleOf (m ++ [(k, h)]) k = some h := by
  unfold handleOf at hk ⊢
  rw [List.find?_append]
  simp only [Option.map_eq_none'] at hk
  simp [hk]

theorem deleteKey_append_singleton (m : List (String × DecorationHandle)) (k : String) (h : DecorationHandle) :
    deleteKey (deleteKey m k ++ [(k, h)]) k = deleteKey m k := by
  simp [deleteKey, List.filter_append, List.filter_filter]

theorem filter_key_append_singleton (m : List (String × DecorationHandle)) (k : String) (h : DecorationHandle) :
    (deleteKey m k ++ [(k, h)]).filter (fun kv => kv.1 == k) = [(k, h)] := by
  simp [deleteKey, List.filter_append, List.filter_filter]

theorem remoteOverlays_map_snd (e : Editor) :
    e.remoteOverlays.map Prod.snd = (e.decorations.map Prod.snd).filter ModelDeltaDecoration.isRemote := by
  unfold Editor.remoteOverlays
  rw [List.filter_map]
  rfl

theorem filter_isRemote_eq_self {nd : List ModelDeltaDecoration} (hnd : ∀ d ∈ nd, d.isRemote = true) :
    nd.filter ModelDeltaDecoration.isRemote = nd :=
  List.filter_eq_self.2 hnd

theorem map_snd_zip_freshIds (e : Editor) (nd : List ModelDeltaDecoration) :
    ((e.freshIds nd.length).zip nd).map Prod.snd = nd :=
  List.map_snd_zip _ _ (by simp [Editor.freshIds])

theorem apply_decorations (ed : Editor) (old : List Nat) (nd : List ModelDeltaDecoration) :
    ((ed.deltaDecorations old []).deltaDecorations [] nd).decorations
      = ed.decorations.filter (fun d => decide (d.1 ∉ old)) ++ (ed.freshIds nd.length).zip nd := by
  rw [deltaDecorations_add_decorations, deltaDecorations_nil_decorations]
  rfl

theorem apply_twice_decorations (ed : Editor) (old : List Nat) (nd1 nd2 : List ModelDeltaDecoration)
    (hbelow : ∀ d ∈ ed.decorations, d.1 < ed.lastDecorationId) :
    ((((ed.deltaDecorations old []).deltaDecorations [] nd1).deltaDecorations
        (ed.freshIds nd1.length) []).deltaDecorations [] nd2).decorations
      = ed.decorations.filter (fun d => decide (d.1 ∉ old))
        ++ (((ed.deltaDecorations old []).deltaDecorations [] nd1).freshIds nd2.length).zip nd2 := by
  rw [apply_decorations, apply_decorations, List.filter_append]
  congr 1
  have h1 : (ed.decorations.filter (fun d => decide (d.1 ∉ old))).filter
      (fun d => decide (d.1 ∉ ed.freshIds nd1.length))
      = ed.decorations.filter (fun d => decide (d.1 ∉ old)) := by
    rw [List.filter_eq_self]
    intro d hd
    have hlt := hbelow d (List.mem_filter.1 hd).1
    simp only [decide_eq_true_eq, mem_freshIds]
    omega
  have h2 : ((ed.freshIds nd1.length).zip nd1).filter
      (fun d => decide (d.1 ∉ ed.freshIds nd1.length)) = [] := by
    rw [List.filter_eq_nil_iff]
    intro d hd
    obtain ⟨i, x⟩ := d
    simp only [decide_eq_true_eq, not_not]
    exact (List.of_mem_zip hd).1
  rw [h1, h2, List.append_nil]

theorem remoteOverlays_of_decorations {e ed : Editor} {old ids : List Nat} {nd : List ModelDeltaDecoration}
    (hdec : e.decorations = ed.decorations.filter (fun d => decide (d.1 ∉ old)) ++ ids.zip nd)
    (hlen : nd.length ≤ ids.length) (hnd : ∀ d ∈ nd, d.isRemote = true) :
    e.remoteOverlays.map Prod.snd
      = (ed.remoteOverlays.filter (fun d => decide (d.1 ∉ old))).map Prod.snd ++ nd := by
  rw [remoteOverlays_map_snd, hdec, List.map_append, List.filter_append,
    List.map_snd_zip _ _ hlen, filter_isRemote_eq_self hnd]
  congr 1
  unfold Editor.remoteOverlays
  rw [List.filter_filter, List.filter_map, List.filter_filter]
  congr 1
  apply List.filter_congr
  intro d _
  simp [Bool.and_comm]

theorem remoteOverlays_apply (s : State) (k : String) (u : Option String)
    (c : Option Position) (sel : Option Selection) (color : String) (ed : Editor)
    (he : s.editorRef = some ed) (hm : s.monacoRef = true) :
    (applyRemoteDecorations s k u c sel color).remoteOverlays.map Prod.snd
      = (s.remoteOverlays.filter (fun d => decide (d.1 ∉ oldIdsOf s.remoteDecorations k))).map Prod.snd
        ++ newDecorations k u c sel color := by
  rw [applyRemoteDecorations_eq_of_some s k u c sel color ed he hm]
  simp only [State.remoteOverlays, he]
  exact remoteOverlays_of_decorations (apply_decorations ed _ _) (by simp [Editor.freshIds])
    (newDecorations_isRemote k u c sel color)

theorem handleCursorActivity_eq_apply (s : State) (k : Socket) (ed : Editor) (p : CursorPayload)
    (hsock : s.socket = some k) (hed : s.editorRef = some ed) (hremote : some p.userId ≠ k.id) :
    handleCursorActivity s p
      = applyRemoteDecorations s p.userId p.username p.cursorPosition p.selection p.color := by
  simp [handleCursorActivity, hsock, hed, hremote]

theorem handleCursorActivity_twice_explicit (s : State) (k : Socket) (ed : Editor)
    (p1 p2 : CursorPayload)
    (hsock : s.socket = some k) (hed : s.editorRef = some ed) (hmon : s.monacoRef = true)
    (hremote : some p1.userId ≠ k.id) (hsame : p2.userId = p1.userId)
    (hbelow : ∀ d ∈ ed.decorations, d.1 < ed.lastDecorationId) :
    (∃ h, (handleCursorActivity (handleCursorActivity s p1) p2).remoteDecorations
        = deleteKey s.remoteDecorations p1.userId ++ [(p1.userId, h)])
    ∧ (handleCursorActivity (handleCursorActivity s p1) p2).remoteOverlays.map Prod.snd
        = (s.remoteOverlays.filter
            (fun d => decide (d.1 ∉ oldIdsOf s.remoteDecorations p1.userId))).map Prod.snd
          ++ newDecorations p2.userId p2.username p2.cursorPosition p2.selection p2.color := by
  have hremote2 : some p2.userId ≠ k.id := hsame ▸ hremote
  have hnone : handleOf (deleteKey s.remoteDecorations p1.userId) p1.userId = none :=
    handleOf_deleteKey_self _ _
  let nd1 := newDecorations p1.userId p1.username p1.cursorPosition p1.selection p1.color
  let e1 := (ed.deltaDecorations (oldIdsOf s.remoteDecorations p1.userId) []).deltaDecorations [] nd1
  let A : State :=
    { s with
      editorRef := some e1
      remoteDecorations := deleteKey s.remoteDecorations p1.userId ++
        [(p1.userId, { decorationId := ed.freshIds nd1.length, color := p1.color })] }
  have hA : handleCursorActivity s p1 = A := by
    rw [handleCursorActivity_eq_apply s k ed p1 hsock hed hremote]
    exact applyRemoteDecorations_eq_of_some s _ _ _ _ _ ed hed hmon
  have hB : handleCursorActivity A p2
      = applyRemoteDecorations A p2.userId p2.username p2.cursorPosition p2.selection p2.color :=
    handleCursorActivity_eq_apply A k e1 p2 hsock rfl hremote2
  have hB2 := applyRemoteDecorations_eq_of_some A p2.userId p2.username p2.cursorPosition
    p2.selection p2.color e1 rfl hmon
  have hold : oldIdsOf A.remoteDecorations p1.userId = ed.freshIds nd1.length := by
    show oldIdsOf (deleteKey s.remoteDecorations p1.userId ++ _) p1.userId = _
    unfold oldIdsOf
    rw [handleOf_append_singleton _ _ _ hnone]
  rw [hA, hB, hB2, hsame, hold]
  refine ⟨⟨{ decorationId := e1.freshIds (newDecorations p1.userId p2.username p2.cursorPosition
      p2.selection p2.color).length, color := p2.color }, ?_⟩, ?_⟩
  · show deleteKey (deleteKey s.remoteDecorations p1.userId ++ [_]) p1.userId ++ [_] = _
    rw [deleteKey_append_singleton]
  have hdec := apply_twice_decorations ed (oldIdsOf s.remoteDecorations p1.userId) nd1
    (newDecorations p1.userId p2.username p2.cursorPosition p2.selection p2.color) hbelow
  have hov := @remoteOverlays_of_decorations _ ed _ _ _ hdec (by simp [Editor.freshIds])
    (newDecorations_isRemote p1.userId p2.username p2.cursorPosition p2.selection p2.color)
  simp only [State.remoteOverlays, hed]
  exact hov

/-- C6: two cursor-activity events in a row from the same remote participant
(editor mounted) leave exactly one handle for that session id; the editor then
holds the overlays of the other participants followed by exactly the overlays
of the second snapshot, which is what a single call with the second snapshot
leaves: same overlay contents, same overlay count. -/
theorem handleCursorActivity_twice_one_handle (s : State) (k : Socket) (ed : Editor)
    (p1 p2 : CursorPayload)
    (hsock : s.socket = some k) (hed : s.editorRef = some ed) (hmon : s.monacoRef = true)
    (hremote : some p1.userId ≠ k.id) (hsame : p2.userId = p1.userId)
    (hbelow : ∀ d ∈ ed.decorations, d.1 < ed.lastDecorationId) :
    ((handleCursorActivity (handleCursorActivity s p1) p2).remoteDecorations.filter
        (fun kv => kv.1 == p1.userId)).length = 1
    ∧ (handleCursorActivity (handleCursorActivity s p1) p2).remoteOverlays.map Prod.snd
        = (s.remoteOverlays.filter
            (fun d => decide (d.1 ∉ oldIdsOf s.remoteDecorations p1.userId))).map Prod.snd
          ++ newDecorations p2.userId p2.username p2.cursorPosition p2.selection p2.color
    ∧ (handleCursorActivity (handleCursorActivity s p1) p2).remoteOverlays.map Prod.snd
        = (handleCursorActivity s p2).remoteOverlays.map Prod.snd
    ∧ (handleCursorActivity (handleCursorActivity s p1) p2).remoteOverlays.length
        = (handleCursorActivity s p2).remoteOverlays.length := by
  have hremote2 : some p2.userId ≠ k.id := hsame ▸ hremote
  have hsingle : (handleCursorActivity s p2).remoteOverlays.map Prod.snd
      = (s.remoteOverlays.filter
          (fun d => decide (d.1 ∉ oldIdsOf s.remoteDecorations p1.userId))).map Prod.snd
        ++ newDecorations p2.userId p2.username p2.cursorPosition p2.selection p2.color := by
    rw [handleCursorActivity_eq_apply s k ed p2 hsock hed hremote2,
      remoteOverlays_apply s _ _ _ _ _ ed hed hmon, hsame]
  obtain ⟨⟨h, hmap⟩, hov⟩ :=
    handleCursorActivity_twice_explicit s k ed p1 p2 hsock hed hmon hremote hsame hbelow
  have heq : (handleCursorActivity (handleCursorActivity s p1) p2).remoteOverlays.map Prod.snd
      = (handleCursorActivity s p2).remoteOverlays.map Prod.snd := by
    rw [hov, hsingle]
  refine ⟨?_, hov, heq, ?_⟩
  · rw [hmap, filter_key_append_singleton]
    rfl
  · have := congrArg List.length heq
    simpa using this

/-! ## Presence tracker: teardown -/

theorem mem_foldl_deleteKey (ks : List String) (m : List (String × DecorationHandle))
    (kv : String × DecorationHandle) (h : kv ∈ ks.foldl deleteKey m) : kv ∈ m ∧ kv.1 ∉ ks := by
  induction ks generalizing m with
  | nil => exact ⟨h, by simp⟩
  | cons k t ih =>
    obtain ⟨h1, h2⟩ := ih (deleteKey m k) h
    obtain ⟨h3, h4⟩ := mem_deleteKey.1 h1
    refine ⟨h3, ?_⟩
    simp only [List.mem_cons, not_or]
    exact ⟨h4, h2⟩

theorem foldl_clear_remoteDecorations (ks : List String) (s : State) (ed : Editor)
    (he : s.editorRef = some ed) :
    (ks.foldl clearUserDecorations s).remoteDecorations = ks.foldl deleteKey s.remoteDecorations := by
  induction ks generalizing s ed with
  | nil => rfl
  | cons k t ih =>
    simp only [List.foldl_cons]
    rw [clearUserDecorations_eq_of_some s k ed he]
    exact ih _ _ rfl

theorem clearAllDecorations_remoteDecorations (s : State)
    (hs : s.editorRef = none → s.remoteDecorations = []) :
    (clearAllDecorations s).remoteDecorations = [] := by
  unfold clearAllDecorations
  cases he : s.editorRef with
  | none => simpa using hs he
  | some ed =>
    simp only [Option.isSome_some, if_true]
    rw [foldl_clear_remoteDecorations _ s ed he, List.eq_nil_iff_forall_not_mem]
    intro kv hkv
    obtain ⟨h1, h2⟩ := mem_foldl_deleteKey _ _ kv hkv
    exact h2 (List.mem_map_of_mem Prod.fst h1)

theorem remoteOverlays_eq_nil_of_owned {s : State} (hs : Owned s) (hm : s.remoteDecorations = []) :
    s.remoteOverlays = [] := by
  obtain ⟨-, -, h3⟩ := hs
  rw [hm] at h3
  have : s.remoteOverlayIds = [] := by
    rw [List.eq_nil_iff_forall_not_mem]
    intro i hi
    simpa [ownedIds] using h3 i hi
  simpa [State.remoteOverlayIds] using this

/-- C7: in every reachable state, after the `CodeEditor` disconnect handler
has run, the presence list is empty, the decoration map is empty and the
editor holds no remote-cursor overlay. -/
theorem handleDisconnect_teardown (s : State) (hs : Reachable s) :
    (handleDisconnect s).onlineUsers = []
    ∧ (handleDisconnect s).remoteDecorations = []
    ∧ (handleDisconnect s).remoteOverlays = [] := by
  have hs0 : Owned s := owned_of_reachable hs
  have hown : Owned { s with isConnected := false } := hs0
  have hmap : (clearAllDecorations { s with isConnected := false }).remoteDecorations = [] :=
    clearAllDecorations_remoteDecorations _ hown.2.1
  have hfin : Owned (handleDisconnect s) := owned_handleDisconnect s (owned_of_reachable hs)
  exact ⟨rfl, hmap, remoteOverlays_eq_nil_of_owned hfin hmap⟩

/-- C8: a cursor-activity event whose `userId` is the local socket id leaves
the whole component state unchanged, the decoration map and the editor's
overlays included. -/
theorem handleCursorActivity_self (s : State) (k : Socket) (p : CursorPayload)
    (hsock : s.socket = some k) (hself : k.id = some p.userId) :
    handleCursorActivity s p = s
    ∧ (handleCursorActivity s p).remoteDecorations = s.remoteDecorations
    ∧ (handleCursorActivity s p).remoteOverlays = s.remoteOverlays := by
  have h : handleCursorActivity s p = s := by
    simp [handleCursorActivity, hsock, hself]
  exact ⟨h, by rw [h], by rw [h]⟩

/-- C5 on a sample history: both participants show up, `u1` moves, `u2`
leaves; one handle is left, owning the one live overlay. -/
theorem remoteDecorations_invariant_witness :
    (∀ e ∈ presenceTrace, e.isPresence = true)
    ∧ (run sampleState presenceTrace).remoteDecorations.map Prod.fst = ["u1"]
    ∧ (run sampleState presenceTrace).remoteOverlayIds = [3]
    ∧ ((run sampleState presenceTrace).remoteDecorations.map Prod.fst).Nodup
    ∧ ∀ i, i ∈ (run sampleState presenceTrace).remoteOverlayIds ↔
        ∃ kv ∈ (run sampleState presenceTrace).remoteDecorations, i ∈ kv.2.decorationId :=
  have hstart : PresenceStart sampleState :=
    ⟨rfl, fun ed he => by
      have h : ed = sampleEditor := by injection he.symm
      subst h
      exact ⟨rfl, fun d hd => by simp [sampleEditor] at hd⟩⟩
  have h := remoteDecorations_invariant sampleState presenceTrace hstart (by decide)
  ⟨by decide, by decide, by decide, h.1, h.2⟩

/-- C6 on a sample state: `u1` sends a caret with a selection, then a caret
alone; one handle for `u1` is left and one overlay, the second caret. -/
theorem handleCursorActivity_twice_one_handle_witness :
    ((handleCursorActivity (handleCursorActivity sampleState cursorAnn) cursorAnnMoved).remoteDecorations.filter
        (fun kv => kv.1 == cursorAnn.userId)).length = 1
    ∧ (handleCursorActivity sampleState cursorAnn).remoteOverlays.length = 2
    ∧ (handleCursorActivity (handleCursorActivity sampleState cursorAnn) cursorAnnMoved).remoteOverlays.map Prod.snd
        = (handleCursorActivity sampleState cursorAnnMoved).remoteOverlays.map Prod.snd
    ∧ (handleCursorActivity (handleCursorActivity sampleState cursorAnn) cursorAnnMoved).remoteOverlays.length
        = (handleCursorActivity sampleState cursorAnnMoved).remoteOverlays.length :=
  have h := handleCursorActivity_twice_one_handle sampleState { connected := true, id := some "me" }
    sampleEditor cursorAnn cursorAnnMoved rfl rfl rfl (by decide) rfl
    (fun d hd => by simp [sampleEditor] at hd)
  ⟨h.1, by decide, h.2.2.1, h.2.2.2⟩

/-- C7 on a sample state with two participants listed and two handles
stored. -/
theorem handleDisconnect_teardown_witness :
    busyState.onlineUsers.length = 2
    ∧ busyState.remoteDecorations.length = 2
    ∧ busyState.remoteOverlays.length = 3
    ∧ (handleDisconnect busyState).onlineUsers = []
    ∧ (handleDisconnect busyState).remoteDecorations = []
    ∧ (handleDisconnect busyState).remoteOverlays = [] :=
  have h := handleDisconnect_teardown busyState
    (Reachable.next 30 (.userListUpdate sampleUsers)
      (Reachable.next 20 (.cursorActivity cursorBob)
        (Reachable.next 10 (.cursorActivity cursorAnn)
          (Reachable.next 0 (.editorMount "// Connecting to server..." "javascript" sampleEditor)
            (Reachable.initial (some "p1") (some "f1") none
              (some { connected := true, id := some "me" }) true "#1A2B3C")))))
  ⟨by decide, by decide, by decide, h.1, h.2.1, h.2.2⟩

/-- C8 on a sample state: the echo of the own cursor changes nothing. -/
theorem handleCursorActivity_self_witness :
    busyState.socket = some { connected := true, id := some cursorSelf.userId }
    ∧ handleCursorActivity busyState cursorSelf = busyState
    ∧ (handleCursorActivity busyState cursorSelf).remoteDecorations = busyState.remoteDecorations
    ∧ (handleCursorActivity busyState cursorSelf).remoteOverlays = busyState.remoteOverlays :=
  ⟨by decide, handleCursorActivity_self busyState { connected := true, id := some "me" } cursorSelf
    (by decide) rfl⟩

/-! ## Presence tracker: a participant leaves -/

theorem clearUserDecorations_onlineUsers (s : State) (k : String) :
    (clearUserDecorations s k).onlineUsers = s.onlineUsers := by
  unfold clearUserDecorations
  split <;> rfl

theorem handleUserDisconnected_remoteOverlays (s : State) (id : String) :
    (handleUserDisconnected s id).remoteOverlays
      = s.remoteOverlays.filter (fun d => decide (d.1 ∉ oldIdsOf s.remoteDecorations id)) := by
  unfold handleUserDisconnected
  cases he : s.editorRef with
  | none => simp [State.remoteOverlays, he]
  | some ed =>
    simp only [Option.isSome_some, if_true]
    rw [clearUserDecorations_eq_of_some s id ed he]
    simp only [State.remoteOverlays, he, Editor.remoteOverlays, deltaDecorations_nil_decorations,
      List.filter_filter]
    apply List.filter_congr
    intro d _
    simp [Bool.and_comm]

/-- C9 (fails as stated): `u2` is listed and decorated; after
`handleUserDisconnected("u2")` the presence list still contains `u2`. -/
theorem handleUserDisconnected_keeps_presence :
    ¬ (∀ u ∈ (handleUserDisconnected busyState "u2").onlineUsers, u.id ≠ "u2") := by
  decide

/-- C9 (amended): in every reachable state, after `handleUserDisconnected(id)`
the decoration map has no handle for `id`; the handler leaves the presence
list `onlineUsers` as it was, and the list changes only when a
`user-list-update` replaces it wholesale. -/
theorem handleUserDisconnected_releases_handle (s : State) (id : String) (hs : Reachable s) :
    handleOf (handleUserDisconnected s id).remoteDecorations id = none
    ∧ (handleUserDisconnected s id).onlineUsers = s.onlineUsers
    ∧ ∀ users, (handleUserListUpdate (handleUserDisconnected s id) users).onlineUsers = users := by
  have hown := owned_of_reachable hs
  refine ⟨?_, ?_, fun users => rfl⟩
  · unfold handleUserDisconnected
    cases he : s.editorRef with
    | none => simp [hown.2.1 he, handleOf]
    | some ed =>
      simp only [Option.isSome_some, if_true]
      exact clearUserDecorations_handleOf_self s id hown.2.1
  · unfold handleUserDisconnected
    split_ifs
    · exact clearUserDecorations_onlineUsers s id
    · rfl

/-- C9 (amended) on a sample state: the handle of `u2` is released, the
presence list keeps both participants until the server sends a new list. -/
theorem handleUserDisconnected_releases_handle_witness :
    handleOf busyState.remoteDecorations "u2" ≠ none
    ∧ handleOf (handleUserDisconnected busyState "u2").remoteDecorations "u2" = none
    ∧ (handleUserDisconnected busyState "u2").onlineUsers = sampleUsers
    ∧ ∀ users, (handleUserListUpdate (handleUserDisconnected busyState "u2") users).onlineUsers = users :=
  have h := handleUserDisconnected_releases_handle busyState "u2"
    (Reachable.next 30 (.userListUpdate sampleUsers)
      (Reachable.next 20 (.cursorActivity cursorBob)
        (Reachable.next 10 (.cursorActivity cursorAnn)
          (Reachable.next 0 (.editorMount "// Connecting to server..." "javascript" sampleEditor)
            (Reachable.initial (some "p1") (some "f1") none
              (some { connected := true, id := some "me" }) true "#1A2B3C")))))
  ⟨by decide, h.1, h.2.1, h.2.2⟩

/-- C10: `handleUserDisconnected(id)` changes nothing when `id` has no handle;
running it twice equals running it once; the editor keeps exactly the overlays
not owned by the handle of `id`; the handle of every other session id is
unchanged, and under the decoration-handle invariant so are the overlays it
owns. -/
theorem handleUserDisconnected_idempotent_framed (s : State) (id : String) :
    (handleOf s.remoteDecorations id = none → handleUserDisconnected s id = s)
    ∧ handleUserDisconnected (handleUserDisconnected s id) id = handleUserDisconnected s id
    ∧ (handleUserDisconnected s id).remoteOverlays
        = s.remoteOverlays.filter (fun d => decide (d.1 ∉ oldIdsOf s.remoteDecorations id))
    ∧ (∀ j, j ≠ id →
        handleOf (handleUserDisconnected s id).remoteDecorations j = handleOf s.remoteDecorations j)
    ∧ (WF s → ∀ j h, j ≠ id → handleOf s.remoteDecorations j = some h →
        (handleUserDisconnected s id).remoteOverlays.filter (fun d => decide (d.1 ∈ h.decorationId))
          = s.remoteOverlays.filter (fun d => decide (d.1 ∈ h.decorationId))) := by
  have hnoop : handleOf s.remoteDecorations id = none → handleUserDisconnected s id = s := by
    intro hnone
    unfold handleUserDisconnected clearUserDecorations
    cases he : s.editorRef <;> simp [hnone]
  refine ⟨hnoop, ?_, handleUserDisconnected_remoteOverlays s id, ?_, ?_⟩
  · cases he : s.editorRef with
    | none =>
      have h1 : handleUserDisconnected s id = s := by simp [handleUserDisconnected, he]
      rw [h1, h1]
    | some ed =>
      have h1 : handleUserDisconnected s id = clearUserDecorations s id := by
        simp [handleUserDisconnected, he]
      have h2 : handleOf (clearUserDecorations s id).remoteDecorations id = none :=
        clearUserDecorations_handleOf_self s id (by simp [he])
      rw [h1]
      unfold handleUserDisconnected
      split_ifs
      · unfold clearUserDecorations
        cases he2 : (clearUserDecorations s id).editorRef <;> simp only [clearUserDecorations] at h2 ⊢ <;>
          simp [h2]
      · rfl
  · intro j hj
    unfold handleUserDisconnected
    cases he : s.editorRef with
    | none => simp
    | some ed =>
      simp only [Option.isSome_some, if_true]
      rw [clearUserDecorations_eq_of_some s id ed he]
      exact handleOf_deleteKey_other _ hj
  · intro hwf j h hj hjh
    rw [handleUserDisconnected_remoteOverlays, List.filter_filter]
    apply List.filter_congr
    intro d _
    cases hid : handleOf s.remoteDecorations id with
    | none => simp [oldIdsOf, hid]
    | some h0 =>
      have hdis := hwf.2.1 (j, h) (handleOf_some_mem hjh) (id, h0) (handleOf_some_mem hid) hj
      by_cases hd : d.1 ∈ h.decorationId
      · simp [oldIdsOf, hid, hd, hdis d.1 hd]
      · simp [hd]

/-- C10 on a sample state holding handles for `u1` and `u2`: an id without a
handle changes nothing, `u2` leaving twice equals leaving once, and the handle
and the two overlays of `u1` stay. -/
theorem handleUserDisconnected_idempotent_framed_witness :
    handleUserDisconnected (run sampleState twoHandles) "u9" = run sampleState twoHandles
    ∧ handleUserDisconnected (handleUserDisconnected (run sampleState twoHandles) "u2") "u2"
        = handleUserDisconnected (run sampleState twoHandles) "u2"
    ∧ handleOf (handleUserDisconnected (run sampleState twoHandles) "u2").remoteDecorations "u1"
        = some { decorationId := [0, 1], color := "#FF0000" }
    ∧ ((handleUserDisconnected (run sampleState twoHandles) "u2").remoteOverlays.filter
          (fun d => decide (d.1 ∈ [0, 1]))).length = 2 :=
  have hstart : PresenceStart sampleState :=
    ⟨rfl, fun ed he => by
      have h : ed = sampleEditor := by injection he.symm
      subst h
      exact ⟨rfl, fun d hd => by simp [sampleEditor] at hd⟩⟩
  have hwf : WF (run sampleState twoHandles) :=
    wf_run_presence twoHandles sampleState (by decide) (wf_of_presenceStart sampleState hstart)
  have h9 := handleUserDisconnected_idempotent_framed (run sampleState twoHandles) "u9"
  have h := handleUserDisconnected_idempotent_framed (run sampleState twoHandles) "u2"
  ⟨h9.1 (by decide), h.2.1,
    (h.2.2.2.1 "u1" (by decide)).trans (by decide),
    (congrArg List.length (h.2.2.2.2 hwf "u1" { decorationId := [0, 1], color := "#FF0000" }
      (by decide) (by decide))).trans (by decide)⟩

/-! ## Caret restoration: the editor's position validation -/

theorem splitLines_ne_nil (cs : List Char) : Editor.splitLines cs ≠ [] := by
  cases cs with
  | nil => simp [Editor.splitLines]
  | cons c t =>
    unfold Editor.splitLines
    split_ifs
    · simp
    · split <;> simp

theorem lineCount_pos (e : Editor) : 1 ≤ e.lineCount := by
  unfold Editor.lineCount Editor.lines
  rw [List.length_map]
  exact List.length_pos.2 (splitLines_ne_nil _)

theorem lineMaxColumn_pos (e : Editor) (n : Nat) : 1 ≤ e.lineMaxColumn n := by
  unfold Editor.lineMaxColumn
  omega

theorem isValidPosition_iff (e : Editor) (p : Position) :
    e.isValidPosition p = true ↔
      1 ≤ p.lineNumber ∧ p.lineNumber ≤ e.lineCount ∧ 1 ≤ p.column
        ∧ p.column ≤ e.lineMaxColumn p.lineNumber := by
  simp [Editor.isValidPosition]

theorem validatePosition_valid (e : Editor) (p : Position) :
    e.isValidPosition (e.validatePosition p) = true := by
  have h1 := lineCount_pos e
  rw [isValidPosition_iff]
  unfold Editor.validatePosition
  split_ifs with ha hb hc hd
  · exact ⟨le_refl _, h1, le_refl _, lineMaxColumn_pos e 1⟩
  · exact ⟨h1, le_refl _, lineMaxColumn_pos e _, le_refl _⟩
  · refine ⟨?_, ?_, le_refl _, lineMaxColumn_pos e _⟩ <;> simp only <;> omega
  · refine ⟨?_, ?_, lineMaxColumn_pos e _, le_refl _⟩ <;> simp only <;> omega
  · refine ⟨?_, ?_, ?_, ?_⟩ <;> omega

theorem validatePosition_of_valid (e : Editor) (p : Position) (hp : e.isValidPosition p = true) :
    e.validatePosition p = p := by
  obtain ⟨h1, h2, h3, h4⟩ := (isValidPosition_iff e p).1 hp
  obtain ⟨l, c⟩ := p
  simp only at h1 h2 h3 h4
  unfold Editor.validatePosition
  simp only
  split_ifs with ha hb hc hd
  · omega
  · omega
  · have : c = 1 := by omega
    rw [this]
  · have : c = e.lineMaxColumn l := by omega
    rw [← this]
  · rfl

theorem notAfter_iff (a b : Position) :
    a.notAfter b = true ↔
      a.lineNumber < b.lineNumber ∨ (a.lineNumber = b.lineNumber ∧ a.column ≤ b.column) := by
  simp [Position.notAfter]

/-- Clamping picks the last position of the text that is not after the asked
one (document order). -/
theorem validatePosition_nearest (e : Editor) (p : Position)
    (hl : 1 ≤ p.lineNumber) (hc : 1 ≤ p.column) :
    (e.validatePosition p).notAfter p = true
    ∧ ∀ r, e.isValidPosition r = true → r.notAfter p = true →
        r.notAfter (e.validatePosition p) = true := by
  obtain ⟨l, c⟩ := p
  simp only at hl hc
  unfold Editor.validatePosition
  simp only
  split_ifs with ha hb hcc hd
  · omega
  · refine ⟨by rw [notAfter_iff]; simp only; omega, ?_⟩
    intro r hr hrp
    obtain ⟨r1, r2, r3, r4⟩ := (isValidPosition_iff e r).1 hr
    rw [notAfter_iff]
    simp only
    by_cases hlt : r.lineNumber < e.lineCount
    · exact Or.inl hlt
    · have heq : r.lineNumber = e.lineCount := by omega
      refine Or.inr ⟨heq, ?_⟩
      rw [heq] at r4
      exact r4
  · have hc1 : c = 1 := by omega
    subst hc1
    refine ⟨by rw [notAfter_iff]; simp, fun r _ hrp => hrp⟩
  · refine ⟨(notAfter_iff _ _).2 (Or.inr ⟨rfl, hd⟩), ?_⟩
    intro r hr hrp
    obtain ⟨r1, r2, r3, r4⟩ := (isValidPosition_iff e r).1 hr
    rw [notAfter_iff] at hrp ⊢
    simp only at hrp ⊢
    rcases hrp with h | ⟨h, _⟩
    · exact Or.inl h
    · refine Or.inr ⟨h, ?_⟩
      rw [h] at r4
      exact r4
  · exact ⟨by rw [notAfter_iff]; simp, fun r _ hrp => hrp⟩

theorem validatePosition_congr {e1 e2 : Editor} (h : e1.value = e2.value) (p : Position) :
    e1.validatePosition p = e2.validatePosition p := by
  simp [Editor.validatePosition, Editor.lineCount, Editor.lineMaxColumn, Editor.lines, h]

theorem isValidPosition_congr {e1 e2 : Editor} (h : e1.value = e2.value) (p : Position) :
    e1.isValidPosition p = e2.isValidPosition p := by
  simp [Editor.isValidPosition, Editor.lineCount, Editor.lineMaxColumn, Editor.lines, h]

theorem restore_chain (e : Editor) (pos : Position) (sel : Selection) :
    ((e.setPosition pos).setSelection sel).value = e.value
    ∧ ((e.setPosition pos).setSelection sel).caret
        = some (((e.setPosition pos).setSelection sel).validatePosition
            { lineNumber := sel.endLineNumber, column := sel.endColumn })
    ∧ ((e.setPosition pos).setSelection sel).selection = some
        { startLineNumber := (((e.setPosition pos).setSelection sel).validatePosition
            { lineNumber := sel.startLineNumber, column := sel.startColumn }).lineNumber
          startColumn := (((e.setPosition pos).setSelection sel).validatePosition
            { lineNumber := sel.startLineNumber, column := sel.startColumn }).column
          endLineNumber := (((e.setPosition pos).setSelection sel).validatePosition
            { lineNumber := sel.endLineNumber, column := sel.endColumn }).lineNumber
          endColumn := (((e.setPosition pos).setSelection sel).validatePosition
            { lineNumber := sel.endLineNumber, column := sel.endColumn }).column } := by
  have hv : ((e.setPosition pos).setSelection sel).value = (e.setPosition pos).value := rfl
  refine ⟨rfl, ?_, ?_⟩
  · rw [validatePosition_congr hv]
    rfl
  · rw [validatePosition_congr hv, validatePosition_congr hv]
    rfl

/-- The editor after a remote apply that found a caret and a selection: the
new text is set, the language switched when it differs, then the captured
caret and selection are put back. -/
theorem handleCodeUpdate_editorRef (s : State) (p : CodePayload) (ed : Editor) (pos : Position)
    (sel : Selection) (he : s.editorRef = some ed) (hm : s.monacoRef = true)
    (hcaret : ed.caret = some pos) (hsel : ed.selection = some sel) :
    (handleCodeUpdateRun none s p).raised = false
    ∧ ∃ e2 : Editor, e2.value = p.code
      ∧ (handleCodeUpdate s p).editorRef = some ((e2.setPosition pos).setSelection sel) := by
  unfold handleCodeUpdate handleCodeUpdateRun
  simp only [he, hm, hcaret, hsel]
  by_cases hsw : some (ed.setValue p.code).languageId ≠ p.language
  · refine ⟨by simp [hsw], (ed.setValue p.code).setModelLanguage p.language, rfl, ?_⟩
    simp [hsw, State.setTimeout]
  · refine ⟨by simp [hsw], ed.setValue p.code, rfl, ?_⟩
    simp [hsw, State.setTimeout]

/-- C11 (fails as stated): the caret is at line 2 column 4, offset 7, of
the two lines `abc` and `def`; the remote text `abcdefgh` has 8 characters, at least the offset,
but no second line, and the caret ends at line 1 column 9. -/
theorem caret_moved_though_text_long_enough :
    twoLineEditor.caret = some { lineNumber := 2, column := 4 }
    ∧ twoLineEditor.offsetAt { lineNumber := 2, column := 4 } = 7
    ∧ 7 ≤ oneLineUpdate.code.length
    ∧ (handleCodeUpdate twoLineState oneLineUpdate).editorRef.map Editor.caret
        = some (some { lineNumber := 1, column := 9 })
    ∧ (handleCodeUpdate twoLineState oneLineUpdate).editorRef.map Editor.caret
        ≠ some (some { lineNumber := 2, column := 4 }) := by
  decide

/-- C11 (amended): with the editor mounted, if the captured caret (the active
end of the captured selection) and the anchor of the captured selection are
positions of the new text, then after `handleCodeUpdate` the caret and the
selection of the editor are exactly the captured ones. -/
theorem handleCodeUpdate_restores_valid_caret (s : State) (p : CodePayload) (ed : Editor)
    (pos : Position) (sel : Selection)
    (he : s.editorRef = some ed) (hm : s.monacoRef = true)
    (hcaret : ed.caret = some pos) (hsel : ed.selection = some sel)
    (hactive : pos = { lineNumber := sel.endLineNumber, column := sel.endColumn })
    (hend : (ed.setValue p.code).isValidPosition pos = true)
    (hstart : (ed.setValue p.code).isValidPosition
      { lineNumber := sel.startLineNumber, column := sel.startColumn } = true) :
    (handleCodeUpdate s p).editorRef.map Editor.caret = some (some pos)
    ∧ (handleCodeUpdate s p).editorRef.map Editor.selection = some (some sel) := by
  obtain ⟨-, e2, hv, heq⟩ := handleCodeUpdate_editorRef s p ed pos sel he hm hcaret hsel
  obtain ⟨hval, hc, hs⟩ := restore_chain e2 pos sel
  have hvv : ((e2.setPosition pos).setSelection sel).value = (ed.setValue p.code).value := by
    rw [hval, hv]
    rfl
  have h1 : ((e2.setPosition pos).setSelection sel).validatePosition pos = pos := by
    rw [validatePosition_congr hvv]
    exact validatePosition_of_valid _ _ hend
  have h2 : ((e2.setPosition pos).setSelection sel).validatePosition
      { lineNumber := sel.startLineNumber, column := sel.startColumn }
      = { lineNumber := sel.startLineNumber, column := sel.startColumn } := by
    rw [validatePosition_congr hvv]
    exact validatePosition_of_valid _ _ hstart
  rw [heq]
  subst hactive
  refine ⟨?_, ?_⟩
  · rw [Option.map_some', hc, h1]
  · rw [Option.map_some', hs, h1, h2]

/-- C11 (amended) on a sample: the remote text keeps two lines of three
characters and the caret stays at line 2 column 4. -/
theorem handleCodeUpdate_restores_valid_caret_witness :
    (twoLineEditor.setValue sameShapeUpdate.code).isValidPosition { lineNumber := 2, column := 4 } = true
    ∧ (handleCodeUpdate twoLineState sameShapeUpdate).editorRef.map Editor.caret
        = some (some { lineNumber := 2, column := 4 })
    ∧ (handleCodeUpdate twoLineState sameShapeUpdate).editorRef.map Editor.selection
        = some (some { startLineNumber := 2, startColumn := 4, endLineNumber := 2, endColumn := 4 }) :=
  ⟨by decide,
    handleCodeUpdate_restores_valid_caret twoLineState sameShapeUpdate twoLineEditor
      { lineNumber := 2, column := 4 }
      { startLineNumber := 2, startColumn := 4, endLineNumber := 2, endColumn := 4 }
      rfl rfl rfl rfl rfl (by decide) (by decide)⟩

/-- C12: with the editor mounted, `handleCodeUpdate` runs to its end without
raising whatever the new text is, and the caret it leaves is a position of
the new text: the last one, in document order, that is not after the captured
caret. In particular this holds when the new text is shorter than the
captured caret offset. -/
theorem handleCodeUpdate_clamps_caret (s : State) (p : CodePayload) (ed : Editor)
    (pos : Position) (sel : Selection)
    (he : s.editorRef = some ed) (hm : s.monacoRef = true)
    (hcaret : ed.caret = some pos) (hsel : ed.selection = some sel)
    (hactive : pos = { lineNumber := sel.endLineNumber, column := sel.endColumn })
    (hl : 1 ≤ pos.lineNumber) (hc : 1 ≤ pos.column) :
    (handleCodeUpdateRun none s p).raised = false
    ∧ ∃ ed1 q, (handleCodeUpdate s p).editorRef = some ed1
      ∧ ed1.value = p.code
      ∧ ed1.caret = some q
      ∧ ed1.isValidPosition q = true
      ∧ q.notAfter pos = true
      ∧ ∀ r, ed1.isValidPosition r = true → r.notAfter pos = true → r.notAfter q = true := by
  obtain ⟨hraised, e2, hv, heq⟩ := handleCodeUpdate_editorRef s p ed pos sel he hm hcaret hsel
  obtain ⟨hval, hcar, -⟩ := restore_chain e2 pos sel
  refine ⟨hraised, _, _, heq, hval.trans hv, hcar, validatePosition_valid _ _, ?_⟩
  rw [← hactive]
  exact validatePosition_nearest _ pos hl hc

/-- C12 on a sample: the caret is at offset 7 and the remote text has two
characters; the apply does not raise and the caret ends at line 1 column 3,
the end of the new text. -/
theorem handleCodeUpdate_clamps_caret_witness :
    shortUpdate.code.length < twoLineEditor.offsetAt { lineNumber := 2, column := 4 }
    ∧ (handleCodeUpdate twoLineState shortUpdate).editorRef.map Editor.caret
        = some (some { lineNumber := 1, column := 3 })
    ∧ (handleCodeUpdateRun none twoLineState shortUpdate).raised = false
    ∧ ∃ ed1 q, (handleCodeUpdate twoLineState shortUpdate).editorRef = some ed1
      ∧ ed1.value = shortUpdate.code
      ∧ ed1.caret = some q
      ∧ ed1.isValidPosition q = true
      ∧ q.notAfter { lineNumber := 2, column := 4 } = true
      ∧ ∀ r, ed1.isValidPosition r = true → r.notAfter { lineNumber := 2, column := 4 } = true →
          r.notAfter q = true :=
  ⟨by decide, by decide,
    handleCodeUpdate_clamps_caret twoLineState shortUpdate twoLineEditor
      { lineNumber := 2, column := 4 }
      { startLineNumber := 2, startColumn := 4, endLineNumber := 2, endColumn := 4 }
      rfl rfl rfl rfl rfl (by decide) (by decide)⟩

/-! ## Language change -/

theorem supportedLanguages_ne_empty : ∀ l ∈ supportedLanguages, l ≠ "" := by
  decide

/-- C13: with a file open and the socket connected, `handleLanguageChange`
sets the language tag to `newLanguage`, switches the mode of the mounted
editor to it, leaves the document text (state and editor) unchanged and emits
exactly one `code-change` carrying the current text and `newLanguage`. -/
theorem handleLanguageChange_emits_current_text (s : State) (fileId newLanguage : String)
    (hfile : s.fileId = some fileId) (hconn : s.socketConnected = true)
    (hmon : s.monacoRef = s.editorRef.isSome) (hne : newLanguage ≠ "") :
    (handleLanguageChange s newLanguage).language = newLanguage
    ∧ (handleLanguageChange s newLanguage).editorRef.map Editor.languageId
        = s.editorRef.map (fun _ => newLanguage)
    ∧ (handleLanguageChange s newLanguage).code = s.code
    ∧ (handleLanguageChange s newLanguage).editorRef.map Editor.value = s.editorRef.map Editor.value
    ∧ (handleLanguageChange s newLanguage).emitted
        = s.emitted ++ [OutEvent.codeChange fileId s.code newLanguage] := by
  unfold State.socketConnected at hconn
  unfold handleLanguageChange State.emit State.socketConnected
  cases he : s.editorRef with
  | none =>
    rw [he] at hmon
    rcases hk : s.socket with _ | ⟨_ | _, _⟩ <;> simp [hk] at hconn
    simp [hfile, hk, he]
  | some ed =>
    rw [he] at hmon
    rcases hk : s.socket with _ | ⟨_ | _, _⟩ <;> simp [hk] at hconn
    simp at hmon
    simp [hfile, hk, he, hmon, Editor.setModelLanguage, jsOr, hne]

/-- C13 on a sample: switching to `python` with `foo` in the document. -/
theorem handleLanguageChange_emits_current_text_witness :
    "python" ∈ supportedLanguages
    ∧ (handleLanguageChange sampleState "python").language = "python"
    ∧ (handleLanguageChange sampleState "python").editorRef.map Editor.languageId = some "python"
    ∧ (handleLanguageChange sampleState "python").code = "foo"
    ∧ (handleLanguageChange sampleState "python").emitted = [OutEvent.codeChange "f1" "foo" "python"] :=
  have h := handleLanguageChange_emits_current_text sampleState "f1" "python" rfl rfl rfl (by decide)
  ⟨by decide, h.1, h.2.1, h.2.2.1, h.2.2.2.2⟩

/-! ## Overlay content -/

theorem newDecorations_of_position (k : String) (u : Option String) (pos : Position)
    (sel : Option Selection) (color : String) :
    (newDecorations k u (some pos) sel color).map (fun d => (d.range, d.className))
      = ({ startLineNumber := pos.lineNumber, startColumn := pos.column, endLineNumber := pos.lineNumber,
           endColumn := pos.column }, DecorationClass.remoteCursor)
        :: (match sel with
            | some x =>
              if x.startLineNumber ≠ x.endLineNumber ∨ x.startColumn ≠ x.endColumn then
                [({ startLineNumber := x.startLineNumber, startColumn := x.startColumn,
                    endLineNumber := x.endLineNumber, endColumn := x.endColumn },
                  DecorationClass.remoteSelection)]
              else []
            | none => []) := by
  unfold newDecorations
  cases sel with
  | none => simp
  | some x =>
    simp only
    split_ifs <;> simp

theorem overlays_of_new_handle (ed : Editor) (old : List Nat) (nd : List ModelDeltaDecoration)
    (hbelow : ∀ d ∈ ed.decorations, d.1 < ed.lastDecorationId)
    (hnd : ∀ d ∈ nd, d.isRemote = true) :
    ((((ed.deltaDecorations old []).deltaDecorations [] nd).remoteOverlays.filter
        (fun d => decide (d.1 ∈ ed.freshIds nd.length))).map Prod.snd) = nd := by
  unfold Editor.remoteOverlays
  rw [apply_decorations, List.filter_append, List.filter_append]
  have h1 : ((ed.decorations.filter (fun d => decide (d.1 ∉ old))).filter
      (fun d => d.2.isRemote)).filter (fun d => decide (d.1 ∈ ed.freshIds nd.length)) = [] := by
    rw [List.filter_eq_nil_iff]
    intro d hd
    have hd0 := (List.mem_filter.1 (List.mem_filter.1 hd).1).1
    have hlt := hbelow d hd0
    simp only [decide_eq_true_eq, mem_freshIds]
    omega
  have h2 : (((ed.freshIds nd.length).zip nd).filter (fun d => d.2.isRemote)).filter
      (fun d => decide (d.1 ∈ ed.freshIds nd.length)) = (ed.freshIds nd.length).zip nd := by
    rw [List.filter_filter, List.filter_eq_self]
    intro d hd
    obtain ⟨i, x⟩ := d
    have := List.of_mem_zip hd
    simp [this.1, hnd x this.2]
  rw [h1, h2, List.nil_append]
  exact map_snd_zip_freshIds ed nd

/-- C14: for a cursor-activity event of a non-local participant that carries a
position, with the editor mounted, the overlays owned by the new handle are a
caret marker, the collapsed range at the position, followed by one selection
highlight exactly when start and end of the selection differ; nothing else is
created. -/
theorem applyRemoteDecorations_overlay_content (s : State) (k : Socket) (ed : Editor)
    (p : CursorPayload) (pos : Position)
    (hsock : s.socket = some k) (hed : s.editorRef = some ed) (hmon : s.monacoRef = true)
    (hremote : some p.userId ≠ k.id) (hpos : p.cursorPosition = some pos)
    (hbelow : ∀ d ∈ ed.decorations, d.1 < ed.lastDecorationId) :
    ∃ h, handleOf (handleCursorActivity s p).remoteDecorations p.userId = some h
      ∧ (((handleCursorActivity s p).remoteOverlays.filter
            (fun d => decide (d.1 ∈ h.decorationId))).map
            (fun d => (d.2.range, d.2.className)))
        = ({ startLineNumber := pos.lineNumber, startColumn := pos.column,
             endLineNumber := pos.lineNumber, endColumn := pos.column }, DecorationClass.remoteCursor)
          :: (match p.selection with
              | some x =>
                if x.startLineNumber ≠ x.endLineNumber ∨ x.startColumn ≠ x.endColumn then
                  [({ startLineNumber := x.startLineNumber, startColumn := x.startColumn,
                      endLineNumber := x.endLineNumber, endColumn := x.endColumn },
                    DecorationClass.remoteSelection)]
                else []
              | none => []) := by
  rw [handleCursorActivity_eq_apply s k ed p hsock hed hremote,
    applyRemoteDecorations_eq_of_some s _ _ _ _ _ ed hed hmon]
  refine ⟨_, handleOf_append_singleton _ _ _ (handleOf_deleteKey_self _ _), ?_⟩
  have h := overlays_of_new_handle ed (oldIdsOf s.remoteDecorations p.userId)
    (newDecorations p.userId p.username p.cursorPosition p.selection p.color) hbelow
    (newDecorations_isRemote _ _ _ _ _)
  have h2 := congrArg (List.map (fun d : ModelDeltaDecoration => (d.range, d.className))) h
  rw [List.map_map] at h2
  rw [hpos, newDecorations_of_position] at h2
  simp only [State.remoteOverlays]
  rw [← h2, hpos]
  rfl

/-- C14 on a sample: `u1` sends a caret at line 1 column 2 with a selection
up to column 4; a caret marker and one highlight are created. -/
theorem applyRemoteDecorations_overlay_content_witness :
    ∃ h, handleOf (handleCursorActivity sampleState cursorAnn).remoteDecorations "u1" = some h
      ∧ (((handleCursorActivity sampleState cursorAnn).remoteOverlays.filter
            (fun d => decide (d.1 ∈ h.decorationId))).map
            (fun d => (d.2.range, d.2.className)))
        = [({ startLineNumber := 1, startColumn := 2, endLineNumber := 1, endColumn := 2 },
            DecorationClass.remoteCursor),
           ({ startLineNumber := 1, startColumn := 2, endLineNumber := 1, endColumn := 4 },
            DecorationClass.remoteSelection)] :=
  applyRemoteDecorations_overlay_content sampleState { connected := true, id := some "me" }
    sampleEditor cursorAnn { lineNumber := 1, column := 2 } rfl rfl rfl (by decide) rfl
    (fun d hd => by simp [sampleEditor] at hd)

/-! ## Join reset -/

theorem sameOutsidePresence_refl (s : State) : SameOutsidePresence s s := by
  unfold SameOutsidePresence
  cases s
  rfl

theorem sameOutsidePresence_trans {s t u : State} (h1 : SameOutsidePresence s t)
    (h2 : SameOutsidePresence t u) : SameOutsidePresence s u := by
  unfold SameOutsidePresence at h1 h2 ⊢
  rw [h2, h1]

theorem sameOutsidePresence_clearUserDecorations (s : State) (k : String) :
    SameOutsidePresence s (clearUserDecorations s k) := by
  unfold clearUserDecorations
  split
  · rfl
  · exact sameOutsidePresence_refl s

theorem sameOutsidePresence_foldl_clear (ks : List String) (s : State) :
    SameOutsidePresence s (ks.foldl clearUserDecorations s) := by
  induction ks generalizing s with
  | nil => exact sameOutsidePresence_refl s
  | cons k t ih =>
    exact sameOutsidePresence_trans (sameOutsidePresence_clearUserDecorations s k) (ih _)

theorem sameOutsidePresence_clearAllDecorations (s : State) :
    SameOutsidePresence s (clearAllDecorations s) := by
  unfold clearAllDecorations
  split_ifs
  · exact sameOutsidePresence_foldl_clear _ s
  · exact sameOutsidePresence_refl s

theorem joinEffect_eq (s : State) (projectId fileId : String)
    (hp : s.projectId = some projectId) (hf : s.fileId = some fileId)
    (hc : s.socketConnected = true) (ha : s.isAuthenticatedSocket = true) :
    joinEffect s =
      { clearAllDecorations
          { s.emit (.joinFile projectId fileId s.myCursorColor) with
            code := "// Loading file..."
            language := "javascript"
            chatMessages := []
            comments := []
            versions := []
            projectDetails := none
            projectFiles := [] } with onlineUsers := [] } := by
  unfold joinEffect
  simp [hp, hf, hc, ha]

/-- C15: in every reachable state in which the join step runs (project and
file present, socket connected and authenticated) exactly one `join-file`
carrying the project id, the file id and the connection's color is emitted,
and right afterwards the text is the loading placeholder, the presence list,
the decoration map and the editor's remote overlays are empty, and the
comment, version and chat collections are empty. -/
theorem joinEffect_resets (s : State) (projectId fileId : String) (hs : Reachable s)
    (hp : s.projectId = some projectId) (hf : s.fileId = some fileId)
    (hc : s.socketConnected = true) (ha : s.isAuthenticatedSocket = true) :
    (joinEffect s).emitted = s.emitted ++ [OutEvent.joinFile projectId fileId s.myCursorColor]
    ∧ (joinEffect s).code = "// Loading file..."
    ∧ (joinEffect s).onlineUsers = []
    ∧ (joinEffect s).remoteDecorations = []
    ∧ (joinEffect s).remoteOverlays = []
    ∧ (joinEffect s).comments = []
    ∧ (joinEffect s).versions = []
    ∧ (joinEffect s).chatMessages = [] := by
  have hown : Owned s := owned_of_reachable hs
  have hfin : Owned (joinEffect s) := owned_joinEffect s hown
  have heq := joinEffect_eq s projectId fileId hp hf hc ha
  have hsame := sameOutsidePresence_clearAllDecorations
    { s.emit (.joinFile projectId fileId s.myCursorColor) with
      code := "// Loading file..."
      language := "javascript"
      chatMessages := []
      comments := []
      versions := []
      projectDetails := none
      projectFiles := [] }
  have hmap : (joinEffect s).remoteDecorations = [] := by
    rw [heq]
    exact clearAllDecorations_remoteDecorations _ hown.2.1
  unfold SameOutsidePresence at hsame
  refine ⟨?_, ?_, ?_, hmap, remoteOverlays_eq_nil_of_owned hfin hmap, ?_, ?_, ?_⟩ <;>
    first
      | (rw [heq, hsame]; done)
      | (rw [heq, hsame]; rfl)

/-- C15 on a sample: two participants are listed and decorated when the join
step runs for file `f1` of project `p1`. -/
theorem joinEffect_resets_witness :
    busyState.onlineUsers.length = 2
    ∧ busyState.remoteDecorations.length = 2
    ∧ (joinEffect busyState).emitted = [OutEvent.joinFile "p1" "f1" "#1A2B3C"]
    ∧ (joinEffect busyState).code = "// Loading file..."
    ∧ (joinEffect busyState).onlineUsers = []
    ∧ (joinEffect busyState).remoteDecorations = []
    ∧ (joinEffect busyState).remoteOverlays = []
    ∧ (joinEffect busyState).comments = []
    ∧ (joinEffect busyState).versions = []
    ∧ (joinEffect busyState).chatMessages = [] :=
  ⟨by decide, by decide,
    joinEffect_resets busyState "p1" "f1"
      (Reachable.next 30 (.userListUpdate sampleUsers)
        (Reachable.next 20 (.cursorActivity cursorBob)
          (Reachable.next 10 (.cursorActivity cursorAnn)
            (Reachable.next 0 (.editorMount "// Connecting to server..." "javascript" sampleEditor)
              (Reachable.initial (some "p1") (some "f1") none
                (some { connected := true, id := some "me" }) true "#1A2B3C")))))
      (by decide) (by decide) (by decide) (by decide)⟩

/-! ## Auxiliary fetches -/

theorem handleEditorChange_code (s : State) (value : String) :
    (handleEditorChange s value).code = value := by
  unfold handleEditorChange State.emit
  cases s.fileId with
  | none => rfl
  | some f => simp only; split_ifs <;> rfl


theorem fetchFileContent_ok_code (s : State) (data : CodePayload) :
    (fetchFileContent s (.ok data)).code = jsOr (some data.code) "// File is empty."
    ∧ (fetchFileContent s (.ok data)).language = jsOr data.language "javascript"
    ∧ (fetchFileContent s (.ok data)).fileId = s.fileId
    ∧ (fetchFileContent s (.ok data)).emitted = s.emitted := by
  unfold fetchFileContent
  cases s.editorRef <;> cases s.monacoRef <;> simp [State.setTimeout]

theorem fetchFileContent_ok_editor (s : State) (data : CodePayload) :
    (fetchFileContent s (.ok data)).editorRef.map Editor.value
      = if s.monacoRef = true then
          s.editorRef.map (fun _ => jsOr (some data.code) "// File is empty.")
        else s.editorRef.map Editor.value := by
  unfold fetchFileContent
  cases s.editorRef <;> cases s.monacoRef <;>
    simp [State.setTimeout, Editor.setValue, Editor.setModelLanguage]

/-- C16 (fails): after navigating from `f1` to `f2` the responses of the
fetches started for `f1` arrive; the content response replaces the text, the
language and the editor content of `f2`, the comments response replaces its
comment collection. -/
theorem stale_fetch_results_applied :
    movedState.fileId = some "f2"
    ∧ movedState.comments = []
    ∧ (step movedState (.contentFetched "f1" (.ok staleFile))).code ≠ movedState.code
    ∧ (step movedState (.contentFetched "f1" (.ok staleFile))).code = "text of f1"
    ∧ (step movedState (.contentFetched "f1" (.ok staleFile))).language = "python"
    ∧ (step movedState (.contentFetched "f1" (.ok staleFile))).editorRef.map Editor.value
        = some "text of f1"
    ∧ (step movedState (.commentsFetched "f1" (.ok staleComments))).comments = staleComments
    ∧ (step movedState (.versionsFetched "f1" (.ok ["version 1 of f1"]))).versions
        = ["version 1 of f1"] := by
  decide

/-- C16 (amended): a fetch response is applied when it arrives, whatever file
is active then and whatever file it was requested for. An ok content response
sets the text to the fetched text (the `File is empty` placeholder for an
empty one), the language tag to the fetched language (`javascript` when
missing) and, with editor and monaco bound, the editor content to that text;
an ok comments response replaces the comment collection and an ok versions
response the version collection. The active file id is not changed. -/
theorem fetch_results_applied_whatever_file (s : State) (requestedFileId : String)
    (data : CodePayload) (cs : List Comment) (vs : List String) :
    (step s (.contentFetched requestedFileId (.ok data))).code
        = jsOr (some data.code) "// File is empty."
    ∧ (step s (.contentFetched requestedFileId (.ok data))).language
        = jsOr data.language "javascript"
    ∧ (step s (.contentFetched requestedFileId (.ok data))).editorRef.map Editor.value
        = (if s.monacoRef = true then
            s.editorRef.map (fun _ => jsOr (some data.code) "// File is empty.")
          else s.editorRef.map Editor.value)
    ∧ (step s (.contentFetched requestedFileId (.ok data))).fileId = s.fileId
    ∧ (step s (.commentsFetched requestedFileId (.ok cs))).comments = cs
    ∧ (step s (.commentsFetched requestedFileId (.ok cs))).fileId = s.fileId
    ∧ (step s (.versionsFetched requestedFileId (.ok vs))).versions = vs
    ∧ (step s (.versionsFetched requestedFileId (.ok vs))).fileId = s.fileId := by
  obtain ⟨h1, h2, h3, -⟩ := fetchFileContent_ok_code s data
  exact ⟨h1, h2, fetchFileContent_ok_editor s data, h3, rfl, rfl, rfl, rfl⟩

theorem handleLoadFile_monacoRef (s : State) (p : CodePayload) :
    (handleLoadFile s p).monacoRef = s.monacoRef
    ∧ (handleLoadFile s p).editorRef.isSome = s.editorRef.isSome := by
  unfold handleLoadFile handleLoadFileRun
  cases s.editorRef <;> simp [State.setTimeout]

theorem handleCodeUpdate_monacoRef (s : State) (p : CodePayload) :
    (handleCodeUpdate s p).monacoRef = s.monacoRef := by
  unfold handleCodeUpdate handleCodeUpdateRun
  cases h : s.editorRef <;> simp [State.setTimeout]
  split_ifs <;> rfl

theorem handleCodeUpdate_editorRef_isSome (s : State) (p : CodePayload) :
    (handleCodeUpdate s p).editorRef.isSome = s.editorRef.isSome := by
  have h := congrArg Option.isSome (handleCodeUpdate_editor_value s p)
  simpa using h

/-- C17 (fails): `f1` is loaded as `v1`, a peer edits it to `v2`, then the
content fetch of the join resolves with the stored `v0`: text and editor
content go back to `v0`. -/
theorem late_content_fetch_overrides_live_edit :
    (run sampleState liveTrace).code = "v2"
    ∧ (run sampleState liveTrace).editorRef.map Editor.value = some "v2"
    ∧ (step (run sampleState liveTrace) (.contentFetched "f1" (.ok storedFile))).code = "v0"
    ∧ (step (run sampleState liveTrace) (.contentFetched "f1" (.ok storedFile))).editorRef.map
        Editor.value = some "v0" := by
  decide

/-- C17 (amended): the content-fetch result replaces live edits. After a
`load-file` and then a remote `code-update` (or a local edit) the text is the
live one; when the ok content response is applied afterwards, the text is the
fetched text (the `File is empty` placeholder for an empty one) and, with the
editor mounted, so is the editor content. -/
theorem late_content_fetch_replaces_text (s : State) (ed : Editor) (p1 p2 data : CodePayload)
    (value : String) (he : s.editorRef = some ed) (hm : s.monacoRef = true) :
    (handleCodeUpdate (handleLoadFile s p1) p2).code = p2.code
    ∧ (fetchFileContent (handleCodeUpdate (handleLoadFile s p1) p2) (.ok data)).code
        = jsOr (some data.code) "// File is empty."
    ∧ (fetchFileContent (handleCodeUpdate (handleLoadFile s p1) p2) (.ok data)).editorRef.map
        Editor.value = some (jsOr (some data.code) "// File is empty.")
    ∧ (handleEditorChange (handleLoadFile s p1) value).code = value
    ∧ (fetchFileContent (handleEditorChange (handleLoadFile s p1) value) (.ok data)).code
        = jsOr (some data.code) "// File is empty."
    ∧ (fetchFileContent (handleEditorChange (handleLoadFile s p1) value) (.ok data)).editorRef.map
        Editor.value = some (jsOr (some data.code) "// File is empty.") := by
  obtain ⟨hlm, hle⟩ := handleLoadFile_monacoRef s p1
  rw [hm] at hlm
  rw [he] at hle
  have hum : (handleCodeUpdate (handleLoadFile s p1) p2).monacoRef = true := by
    rw [handleCodeUpdate_monacoRef, hlm]
  have hue : (handleCodeUpdate (handleLoadFile s p1) p2).editorRef.isSome = true := by
    rw [handleCodeUpdate_editorRef_isSome, hle]
    rfl
  have hcm : (handleEditorChange (handleLoadFile s p1) value).monacoRef = true := by
    rw [← hlm]
    unfold handleEditorChange State.emit
    cases (handleLoadFile s p1).fileId with
    | none => rfl
    | some f => simp only; split_ifs <;> rfl
  have hce : (handleEditorChange (handleLoadFile s p1) value).editorRef.isSome = true := by
    rw [handleEditorChange_editorRef, hle]
    rfl
  refine ⟨handleCodeUpdate_code _ _, (fetchFileContent_ok_code _ _).1, ?_,
    (handleEditorChange_code _ _), (fetchFileContent_ok_code _ _).1, ?_⟩
  · rw [fetchFileContent_ok_editor, hum]
    obtain ⟨e1, h1⟩ := Option.isSome_iff_exists.1 hue
    simp [h1]
  · rw [fetchFileContent_ok_editor, hcm]
    obtain ⟨e1, h1⟩ := Option.isSome_iff_exists.1 hce
    simp [h1]

/-- C17 (amended) on a sample: after `v1` and the live `v2` (or the typed
text), the stored `v0` comes back. -/
theorem late_content_fetch_replaces_text_witness :
    (handleCodeUpdate (handleLoadFile sampleState { code := "v1", language := some "javascript" })
        { code := "v2", language := some "javascript" }).code = "v2"
    ∧ (fetchFileContent
        (handleCodeUpdate (handleLoadFile sampleState { code := "v1", language := some "javascript" })
          { code := "v2", language := some "javascript" }) (.ok storedFile)).code
        = jsOr (some storedFile.code) "// File is empty."
    ∧ jsOr (some storedFile.code) "// File is empty." = "v0" :=
  have h := late_content_fetch_replaces_text sampleState sampleEditor
    { code := "v1", language := some "javascript" } { code := "v2", language := some "javascript" }
    storedFile "typed" rfl rfl
  ⟨h.1, h.2.1, by decide⟩

/-! ## Initial load -/

theorem handleLoadFile_mounted (s : State) (p : CodePayload) (ed : Editor)
    (he : s.editorRef = some ed) :
    (handleLoadFileRun (some .setValue) s p).state.isUpdatingRemotely = true
    ∧ (handleLoadFile s p).isUpdatingRemotely = true
    ∧ (handleLoadFile s p).code = p.code
    ∧ (handleLoadFile s p).editorRef.map Editor.value = some p.code
    ∧ (handleLoadFile s p).emitted = s.emitted
    ∧ (handleLoadFile s p).timers = s.timers ++ [s.now + 50] := by
  unfold handleLoadFile handleLoadFileRun
  simp [he, State.setTimeout, Editor.setValue]

/-- Initial load where the discipline does hold: with the editor mounted and
no earlier guard timer falling due before it, a change notification delivered
less than 50 ms after `load-file` is not emitted. -/
theorem load_echo_suppressed_without_earlier_timer (s : State) (p : CodePayload) (ed : Editor)
    (t : Nat) (value : String) (he : s.editorRef = some ed)
    (hpending : ∀ d ∈ s.timers, t < d) (ht : t < s.now + 50) :
    (stepAt (handleLoadFile s p) (t, .editorChange value)).emitted = s.emitted := by
  obtain ⟨-, hflag, -, -, hem, htim⟩ := handleLoadFile_mounted s p ed he
  have hany : ((handleLoadFile s p).timers.any (fun d => decide (d ≤ t))) = false := by
    rw [List.any_eq_false]
    intro d hd
    rw [htim] at hd
    rcases List.mem_append.1 hd with h | h
    · have := hpending d h
      simp; omega
    · simp only [List.mem_singleton] at h
      simp; omega
  have h2 : ((handleLoadFile s p).advanceTo t).isUpdatingRemotely = true := by
    simp [State.advanceTo, hany, hflag]
  have h3 : ((handleLoadFile s p).advanceTo t).emitted = s.emitted := by
    rw [advanceTo_emitted, hem]
  simp only [stepAt, step, handleEditorChange, h2]
  cases ((handleLoadFile s p).advanceTo t).fileId <;> simp [h3]

/-- C18 (fails on overlapping guard timers): the content fetch of the join
resolves at 100 ms and `load-file` arrives at 140 ms. The flag is set before
the editor content is replaced and the text becomes the loaded text, but the
timer of the fetch clears the flag at 150 ms, and the notification of the
loaded text at 160 ms, inside the 50 ms guard of the load, is emitted. -/
theorem joinRaceTrace_echo_emitted :
    160 < 140 + 50
    ∧ (handleLoadFileRun (some .setValue) ((runTimed sampleState (joinRaceTrace.take 1)).advanceTo 140)
        { code := "loaded", language := some "javascript" }).state.isUpdatingRemotely = true
    ∧ (runTimed sampleState (joinRaceTrace.take 2)).code = "loaded"
    ∧ (runTimed sampleState (joinRaceTrace.take 2)).isUpdatingRemotely = true
    ∧ ((runTimed sampleState (joinRaceTrace.take 2)).advanceTo 160).isUpdatingRemotely = false
    ∧ (runTimed sampleState joinRaceTrace).emitted = [OutEvent.codeChange "f1" "loaded" "javascript"] := by
  decide

/-! ## Editor and state agreement -/

theorem clearUserDecorations_editor_value (s : State) (k : String) :
    (clearUserDecorations s k).editorRef.map Editor.value = s.editorRef.map Editor.value := by
  unfold clearUserDecorations
  split
  · next ed h he hk => simp [he, Editor.deltaDecorations]
  · rfl

theorem foldl_clear_editor_value (ks : List String) (s : State) :
    (ks.foldl clearUserDecorations s).editorRef.map Editor.value = s.editorRef.map Editor.value := by
  induction ks generalizing s with
  | nil => rfl
  | cons k t ih =>
    simp only [List.foldl_cons]
    rw [ih, clearUserDecorations_editor_value]

theorem clearAllDecorations_editor_value (s : State) :
    (clearAllDecorations s).editorRef.map Editor.value = s.editorRef.map Editor.value := by
  unfold clearAllDecorations
  split_ifs
  · exact foldl_clear_editor_value _ s
  · rfl

theorem joinEffect_editor_value (s : State) :
    (joinEffect s).editorRef.map Editor.value = s.editorRef.map Editor.value := by
  unfold joinEffect
  split
  · split_ifs
    · exact clearAllDecorations_editor_value _
    · rfl
  · rfl

/-- With editor and monaco bound, the editor content equals the `code` state
right after `handleCodeUpdate`, `handleLoadFile`, the ok branch of the content
fetch and the ok branch of `handleLoadVersion`, and after `handleEditorChange`
called with the editor's content. The join reset and the two failure branches
of the content fetch set `code` to a placeholder and do not write to the
editor themselves. -/
theorem editor_agrees_after_apply (s : State) (ed : Editor)
    (he : s.editorRef = some ed) (hm : s.monacoRef = true) :
    (∀ p, (handleCodeUpdate s p).editorRef.map Editor.value = some (handleCodeUpdate s p).code)
    ∧ (∀ p, (handleLoadFile s p).editorRef.map Editor.value = some (handleLoadFile s p).code)
    ∧ (∀ data, (fetchFileContent s (.ok data)).editorRef.map Editor.value
        = some (fetchFileContent s (.ok data)).code)
    ∧ (∀ data, (handleLoadVersion s (.ok data)).editorRef.map Editor.value
        = some (handleLoadVersion s (.ok data)).code)
    ∧ (handleEditorChange s ed.value).editorRef.map Editor.value
        = some (handleEditorChange s ed.value).code
    ∧ (joinEffect s).editorRef.map Editor.value = some ed.value
    ∧ (fetchFileContent s .notOk).editorRef.map Editor.value = some ed.value
    ∧ (fetchFileContent s .notOk).code = "// Error loading file. Please try again later."
    ∧ (fetchFileContent s .networkError).editorRef.map Editor.value = some ed.value
    ∧ (fetchFileContent s .networkError).code
        = "// Network error loading file. Please try again later." := by
  refine ⟨fun p => ?_, fun p => ?_, fun data => ?_, fun data => ?_, ?_, ?_, ?_, rfl, ?_, rfl⟩
  · rw [handleCodeUpdate_editor_value, handleCodeUpdate_code, he]
    rfl
  · obtain ⟨-, -, h1, h2, -, -⟩ := handleLoadFile_mounted s p ed he
    rw [h1, h2]
  · rw [fetchFileContent_ok_editor, (fetchFileContent_ok_code s data).1, hm, he]
    rfl
  · unfold handleLoadVersion
    simp [he, hm, State.setTimeout, Editor.setValue, Editor.setModelLanguage]
  · rw [handleEditorChange_editorRef, handleEditorChange_code, he]
    rfl
  · rw [joinEffect_editor_value, he]
    rfl
  · simp [fetchFileContent, he]
  · simp [fetchFileContent, he]

/-- Committing a render does not change the `code` state. -/
theorem commitValue_code (previous : String) (s : State) :
    (commitValue previous s).code = s.code := by
  unfold commitValue
  split_ifs
  · rfl
  · cases s.editorRef with
    | none => rfl
    | some ed => simp only; split_ifs <;> rfl

/-- After a render is committed the mounted editor shows the `code` state,
provided it showed it before in case the `value` prop has not changed. -/
theorem commitValue_agrees (previous : String) (s : State) (v : String)
    (hed : s.editorRef.map Editor.value = some v) (h : s.code = previous → v = s.code) :
    (commitValue previous s).editorRef.map Editor.value = some (commitValue previous s).code := by
  rw [commitValue_code]
  unfold commitValue
  by_cases hc : s.code = previous
  · rw [if_pos hc, hed, h hc]
  · rw [if_neg hc]
    cases he : s.editorRef with
    | none => rw [he] at hed; simp at hed
    | some ed =>
      simp only
      by_cases hv : ed.value = s.code
      · rw [if_pos hv, he]
        simp [hv]
      · rw [if_neg hv]
        rfl

/-- Agreement is kept by every handler that changes the document: with the
editor mounted and showing the `code` state, it shows the `code` state again
once the render after `handleCodeUpdate`, `handleLoadFile`, a content
response of any kind, the join reset, a version response or `handleEditorChange`
is committed. For the join reset and the failed content fetch this is the
work of the `value` prop. -/
theorem agreement_kept_by_handlers (s : State) (ed : Editor)
    (he : s.editorRef = some ed) (hm : s.monacoRef = true) (hv : ed.value = s.code) :
    (∀ p, (commitValue s.code (handleCodeUpdate s p)).editorRef.map Editor.value
        = some (commitValue s.code (handleCodeUpdate s p)).code)
    ∧ (∀ p, (commitValue s.code (handleLoadFile s p)).editorRef.map Editor.value
        = some (commitValue s.code (handleLoadFile s p)).code)
    ∧ (∀ r, (commitValue s.code (fetchFileContent s r)).editorRef.map Editor.value
        = some (commitValue s.code (fetchFileContent s r)).code)
    ∧ (∀ data, (commitValue s.code (handleLoadVersion s (.ok data))).editorRef.map Editor.value
        = some (commitValue s.code (handleLoadVersion s (.ok data))).code)
    ∧ (commitValue s.code (handleEditorChange s ed.value)).editorRef.map Editor.value
        = some (commitValue s.code (handleEditorChange s ed.value)).code
    ∧ (commitValue s.code (joinEffect s)).editorRef.map Editor.value
        = some (commitValue s.code (joinEffect s)).code := by
  obtain ⟨h1, h2, h3, h4, h5, h6, h7, -, h8, -⟩ := editor_agrees_after_apply s ed he hm
  refine ⟨fun p => ?_, fun p => ?_, fun r => ?_, fun data => ?_, ?_, ?_⟩
  · exact commitValue_agrees _ _ _ (h1 p) (fun _ => rfl)
  · exact commitValue_agrees _ _ _ (h2 p) (fun _ => rfl)
  · cases r with
    | ok data => exact commitValue_agrees _ _ _ (h3 data) (fun _ => rfl)
    | notOk => exact commitValue_agrees _ _ _ h7 (fun hc => by rw [hv, hc])
    | networkError => exact commitValue_agrees _ _ _ h8 (fun hc => by rw [hv, hc])
  · exact commitValue_agrees _ _ _ (h4 data) (fun _ => rfl)
  · exact commitValue_agrees _ _ _ h5 (fun _ => rfl)
  · exact commitValue_agrees _ _ _ h6 (fun hc => by rw [hv, hc])

/-- With `foo` in the editor and in the state, the join reset and a failed
content fetch set the placeholder, and the committed editor shows it. -/
theorem placeholder_reaches_editor :
    (commitValue sampleState.code (joinEffect sampleState)).editorRef.map Editor.value
      = some "// Loading file..."
    ∧ (commitValue sampleState.code (fetchFileContent sampleState .notOk)).editorRef.map
        Editor.value
      = some "// Error loading file. Please try again later." := by
  decide

/-- C19: the join effect of the first render sets the text to the loading
placeholder; the editor becomes ready after that, and the mount handler, run
with the `code` of the first render, writes `// Connecting to server...` into
it: editor and `code` state differ. The route then changes to file `f2`; the
join reset has run to completion with the editor mounted and the render is
committed, and the editor still shows `// Connecting to server...` while the
`code` state is `// Loading file...`. A failed content fetch after that
changes the text, and then the editor follows. -/
theorem stale_mount_breaks_agreement :
    freshState.code = "// Connecting to server..."
    ∧ joinedState.code = "// Loading file..."
    ∧ joinedState.initialCodeLoaded = none
    ∧ staleMountState.code = "// Loading file..."
    ∧ staleMountState.editorRef.map Editor.value = some "// Connecting to server..."
    ∧ staleRejoinState.fileId = some "f2"
    ∧ staleRejoinState.emitted
        = [.joinFile "p1" "f1" "#1A2B3C", .joinFile "p1" "f2" "#1A2B3C"]
    ∧ staleRejoinState.code = "// Loading file..."
    ∧ staleRejoinState.editorRef.map Editor.value = some "// Connecting to server..."
    ∧ (commitValue staleRejoinState.code (fetchFileContent staleRejoinState .notOk)).editorRef.map
        Editor.value
      = some "// Error loading file. Please try again later." := by
  decide

/-! ## Color stability -/

theorem emitsOk_of_eq {s t : State} (hc : t.myCursorColor = s.myCursorColor)
    (he : t.emitted = s.emitted) : EmitsOk s t :=
  ⟨hc, fun _ hx => Or.inl (he ▸ hx)⟩

theorem emitsOk_trans {s t u : State} (h1 : EmitsOk s t) (h2 : EmitsOk t u) : EmitsOk s u := by
  refine ⟨h2.1.trans h1.1, fun x hx => ?_⟩
  rcases h2.2 x hx with h | h
  · exact h1.2 x h
  · exact Or.inr (h1.1 ▸ h)

theorem emitsOk_of_sameOutsidePresence {s t : State} (h : SameOutsidePresence s t) : EmitsOk s t := by
  unfold SameOutsidePresence at h
  exact emitsOk_of_eq (by rw [h]) (by rw [h])

theorem sameOutsidePresence_applyRemoteDecorations (s : State) (k : String) (u : Option String)
    (c : Option Position) (sel : Option Selection) (color : String) :
    SameOutsidePresence s (applyRemoteDecorations s k u c sel color) := by
  cases he : s.editorRef with
  | none =>
    have h : applyRemoteDecorations s k u c sel color = s := by
      simp [applyRemoteDecorations, he]
    rw [h]
    exact sameOutsidePresence_refl s
  | some ed =>
    cases hm : s.monacoRef with
    | false =>
      have h : applyRemoteDecorations s k u c sel color = s := by
        simp [applyRemoteDecorations, he, hm]
      rw [h]
      exact sameOutsidePresence_refl s
    | true =>
      rw [applyRemoteDecorations_eq_of_some s k u c sel color ed he hm]
      rfl

theorem emitsOk_emit (s : State) (e : OutEvent) (he : ColorOk s.myCursorColor e) :
    EmitsOk s (s.emit e) := by
  refine ⟨rfl, fun x hx => ?_⟩
  simp only [State.emit, List.mem_append, List.mem_singleton] at hx
  rcases hx with h | h
  · exact Or.inl h
  · exact Or.inr (h ▸ he)

theorem emitsOk_handleEditorChange (s : State) (value : String) :
    EmitsOk s (handleEditorChange s value) := by
  unfold handleEditorChange
  cases s.fileId with
  | none => exact emitsOk_of_eq rfl rfl
  | some f =>
    simp only
    split_ifs
    · exact emitsOk_emit { s with code := value } _ (Or.inl ⟨rfl, rfl⟩)
    · exact emitsOk_of_eq rfl rfl

theorem emitsOk_of_append {s t : State} (hc : t.myCursorColor = s.myCursorColor)
    (he : t.emitted = s.emitted ∨ ∃ e, t.emitted = s.emitted ++ [e] ∧ ColorOk s.myCursorColor e) :
    EmitsOk s t := by
  refine ⟨hc, fun x hx => ?_⟩
  rcases he with h | ⟨e, h, hok⟩
  · exact Or.inl (h ▸ hx)
  · rw [h] at hx
    rcases List.mem_append.1 hx with h1 | h1
    · exact Or.inl h1
    · exact Or.inr ((List.mem_singleton.1 h1) ▸ hok)

theorem emitsOk_handleLanguageChange (s : State) (newLanguage : String) :
    EmitsOk s (handleLanguageChange s newLanguage) := by
  refine emitsOk_of_append ?_ ?_ <;>
    unfold handleLanguageChange State.emit State.socketConnected <;>
    cases hf : s.fileId <;> cases he : s.editorRef <;> cases hm : s.monacoRef <;>
    rcases hk : s.socket with _ | ⟨_ | _, _⟩ <;>
    simp [ColorOk, OutEvent.isCodeChange, OutEvent.color?]

theorem emitsOk_onDidChangeCursorPosition (s : State) (mountFileId : Option String)
    (e : CursorEvent) : EmitsOk s (onDidChangeCursorPosition s mountFileId e) := by
  unfold onDidChangeCursorPosition
  cases mountFileId with
  | none => exact emitsOk_of_eq rfl rfl
  | some f =>
    simp only
    split_ifs
    · exact emitsOk_emit s _ (Or.inr ⟨rfl, rfl⟩)
    · exact emitsOk_of_eq rfl rfl

theorem emitsOk_handleEditorDidMount (s : State) (code language : String) (editor : Editor) :
    EmitsOk s (handleEditorDidMount s code language editor) := by
  unfold handleEditorDidMount
  cases s.initialCodeLoaded <;> exact emitsOk_of_eq rfl rfl

theorem emitsOk_handleLoadFile (s : State) (p : CodePayload) : EmitsOk s (handleLoadFile s p) := by
  unfold handleLoadFile handleLoadFileRun
  cases s.editorRef <;> exact emitsOk_of_eq rfl rfl

theorem handleCodeUpdate_myCursorColor (s : State) (p : CodePayload) :
    (handleCodeUpdate s p).myCursorColor = s.myCursorColor := by
  unfold handleCodeUpdate handleCodeUpdateRun
  cases h : s.editorRef <;> simp [State.setTimeout]
  split_ifs <;> rfl

theorem emitsOk_handleCodeUpdate (s : State) (p : CodePayload) :
    EmitsOk s (handleCodeUpdate s p) :=
  emitsOk_of_eq (handleCodeUpdate_myCursorColor s p) (handleCodeUpdate_emitted s p)

theorem emitsOk_handleCursorActivity (s : State) (p : CursorPayload) :
    EmitsOk s (handleCursorActivity s p) := by
  unfold handleCursorActivity
  cases s.socket with
  | none => exact emitsOk_of_eq rfl rfl
  | some k =>
    simp only
    split_ifs
    · exact emitsOk_of_sameOutsidePresence (sameOutsidePresence_applyRemoteDecorations _ _ _ _ _ _)
    · exact emitsOk_of_eq rfl rfl

theorem emitsOk_handleUserDisconnected (s : State) (k : String) :
    EmitsOk s (handleUserDisconnected s k) := by
  unfold handleUserDisconnected
  split_ifs
  · exact emitsOk_of_sameOutsidePresence (sameOutsidePresence_clearUserDecorations s k)
  · exact emitsOk_of_eq rfl rfl

theorem emitsOk_clearAllDecorations (s : State) : EmitsOk s (clearAllDecorations s) :=
  emitsOk_of_sameOutsidePresence (sameOutsidePresence_clearAllDecorations s)

theorem emitsOk_handleDisconnect (s : State) : EmitsOk s (handleDisconnect s) := by
  have h := emitsOk_clearAllDecorations { s with isConnected := false }
  exact ⟨h.1, h.2⟩

theorem emitsOk_joinCleanup (s : State) : EmitsOk s (joinCleanup s) := by
  unfold joinCleanup
  split_ifs
  · have h := emitsOk_clearAllDecorations s
    exact ⟨h.1, h.2⟩
  · exact emitsOk_of_eq rfl rfl

theorem emitsOk_joinEffect (s : State) : EmitsOk s (joinEffect s) := by
  cases hp : s.projectId with
  | none =>
    have h : joinEffect s = s := by simp [joinEffect, hp]
    rw [h]
    exact emitsOk_of_eq rfl rfl
  | some projectId =>
    cases hf : s.fileId with
    | none =>
      have h : joinEffect s = s := by simp [joinEffect, hp, hf]
      rw [h]
      exact emitsOk_of_eq rfl rfl
    | some fileId =>
      by_cases hc : s.socketConnected = true ∧ s.isAuthenticatedSocket = true
      · have h1 : EmitsOk s (s.emit (.joinFile projectId fileId s.myCursorColor)) :=
          emitsOk_emit s _ (Or.inr ⟨rfl, rfl⟩)
        have h2 := emitsOk_clearAllDecorations
          { s.emit (.joinFile projectId fileId s.myCursorColor) with
            code := "// Loading file..."
            language := "javascript"
            chatMessages := []
            comments := []
            versions := []
            projectDetails := none
            projectFiles := [] }
        rw [joinEffect_eq s projectId fileId hp hf hc.1 hc.2]
        exact emitsOk_trans h1 ⟨h2.1, h2.2⟩
      · have h : joinEffect s = s := by
          unfold joinEffect
          simp only [hp, hf]
          rw [if_neg]
          simpa using hc
        rw [h]
        exact emitsOk_of_eq rfl rfl

theorem emitsOk_navigateTo (s : State) (projectId fileId : Option String) :
    EmitsOk s (navigateTo s projectId fileId) := by
  have h1 := emitsOk_joinCleanup s
  have h2 := emitsOk_joinEffect { joinCleanup s with projectId := projectId, fileId := fileId }
  exact emitsOk_trans ⟨h1.1, h1.2⟩ h2

theorem emitsOk_fetchFileContent (s : State) (r : FetchResult CodePayload) :
    EmitsOk s (fetchFileContent s r) := by
  unfold fetchFileContent
  cases r with
  | ok data => cases s.editorRef <;> cases s.monacoRef <;> exact emitsOk_of_eq rfl rfl
  | notOk => exact emitsOk_of_eq rfl rfl
  | networkError => exact emitsOk_of_eq rfl rfl

theorem emitsOk_handleLoadVersion (s : State) (r : FetchResult CodePayload) :
    EmitsOk s (handleLoadVersion s r) := by
  unfold handleLoadVersion
  cases r with
  | ok data => cases s.editorRef <;> cases s.monacoRef <;> exact emitsOk_of_eq rfl rfl
  | notOk => exact emitsOk_of_eq rfl rfl
  | networkError => exact emitsOk_of_eq rfl rfl

theorem emitsOk_step (s : State) (e : Event) : EmitsOk s (step s e) := by
  cases e with
  | editorMount code language editor => exact emitsOk_handleEditorDidMount s code language editor
  | editorChange value => exact emitsOk_handleEditorChange s value
  | loadFile p => exact emitsOk_handleLoadFile s p
  | codeUpdate p => exact emitsOk_handleCodeUpdate s p
  | cursorActivity p => exact emitsOk_handleCursorActivity s p
  | userDisconnected id => exact emitsOk_handleUserDisconnected s id
  | userListUpdate users => exact emitsOk_of_eq rfl rfl
  | connect id =>
    simp only [step]
    cases s.socket with
    | none => exact emitsOk_of_eq rfl rfl
    | some k => exact emitsOk_of_eq rfl rfl
  | disconnect =>
    simp only [step]
    cases s.socket with
    | none => exact emitsOk_of_eq rfl rfl
    | some k =>
      have h := emitsOk_handleDisconnect { s with socket := some { connected := false, id := none } }
      exact ⟨h.1, h.2⟩
  | navigate projectId fileId => exact emitsOk_navigateTo s projectId fileId
  | languageChange newLanguage => exact emitsOk_handleLanguageChange s newLanguage
  | cursorMoved mountFileId e => exact emitsOk_onDidChangeCursorPosition s mountFileId e
  | contentFetched requestedFileId r => exact emitsOk_fetchFileContent s r
  | commentsFetched requestedFileId r =>
    simp only [step, fetchComments]
    cases r <;> exact emitsOk_of_eq rfl rfl
  | versionsFetched requestedFileId r =>
    simp only [step, fetchVersions]
    cases r <;> exact emitsOk_of_eq rfl rfl
  | versionLoaded r => exact emitsOk_handleLoadVersion s r

/-- C20 (fails as stated): the `code-change` event emitted for a local edit
has no color field. -/
theorem code_change_carries_no_color :
    (handleEditorChange sampleState "x").emitted = [OutEvent.codeChange "f1" "x" "javascript"]
    ∧ ¬ (∀ e ∈ (handleEditorChange sampleState "x").emitted, e.color?.isSome = true) := by
  decide

/-- C20 (amended): in every reachable state, every `join-file` and every
`cursor-activity` event of the outward log carries the same color, the
connection's `MY_CURSOR_COLOR`; a `code-change` event carries no color. -/
theorem emitted_colors_stable (s : State) (hs : Reachable s) :
    ∀ e ∈ s.emitted,
      (e.isCodeChange = true ∧ e.color? = none)
      ∨ (e.isCodeChange = false ∧ e.color? = some s.myCursorColor) := by
  induction hs with
  | initial projectId fileId user socket auth color =>
    intro e he
    simp [State.initial] at he
  | @next s0 t ev _ ih =>
    have h : EmitsOk s0 (stepAt s0 (t, ev)) := by
      have h1 : EmitsOk s0 (s0.advanceTo t) := emitsOk_of_eq rfl rfl
      exact emitsOk_trans h1 (emitsOk_step _ ev)
    intro e he
    rw [h.1]
    rcases h.2 e he with h2 | h2
    · exact ih e h2
    · exact h2

/-- C20 (amended) on a sample history with a join, a cursor move and an
edit. -/
theorem emitted_colors_stable_witness :
    (runTimed freshState chattyTrace).emitted
      = [OutEvent.joinFile "p1" "f1" "#1A2B3C",
         OutEvent.cursorActivity "f1" { lineNumber := 1, column := 2 } none "#1A2B3C",
         OutEvent.codeChange "f1" "x" "javascript"]
    ∧ ∀ e ∈ (runTimed freshState chattyTrace).emitted,
        (e.isCodeChange = true ∧ e.color? = none)
        ∨ (e.isCodeChange = false ∧ e.color? = some (runTimed freshState chattyTrace).myCursorColor) :=
  ⟨by decide,
    emitted_colors_stable (runTimed freshState chattyTrace)
      (Reachable.next 200 (.editorChange "x")
        (Reachable.next 100 (.cursorMoved (some "f1") localCursorMove)
          (Reachable.next 10 (.navigate (some "p1") (some "f1"))
            (Reachable.next 0 (.editorMount "// Connecting to server..." "javascript" sampleEditor)
              (Reachable.initial (some "p1") (some "f1") none
                (some { connected := true, id := some "me" }) true "#1A2B3C")))))⟩

/-! ## Color, providers, fetches, comments and versions: theorems -/

/-- An index in `0..15` appends the hexadecimal digit of that value. -/
theorem appendLetter_of_lt (color : String) (index : Int) (h0 : 0 ≤ index) (h1 : index < 16) :
    appendLetter color index = color.push (hexChar index.toNat) := by
  obtain ⟨n, rfl⟩ := Int.eq_ofNat_of_zero_le h0
  have hn : n < 16 := by omega
  unfold appendLetter hexChar
  rw [if_neg (by omega)]
  simp only [Int.toNat_ofNat]
  interval_cases n <;> rfl

/-- A draw in `[0, 1)` gives a lookup index in `0..15`. -/
theorem floor_draw_bounds (r : ℚ) (h0 : 0 ≤ r) (h1 : r < 1) :
    0 ≤ ⌊r * 16⌋ ∧ ⌊r * 16⌋ < 16 := by
  constructor
  · exact Int.floor_nonneg.2 (by positivity)
  · rw [Int.floor_lt]
    push_cast
    linarith

/-- The six rounds of the loop of `getRandomColor`. -/
theorem getRandomColor_unfold (random : Nat → ℚ) :
    getRandomColor random
      = appendLetter (appendLetter (appendLetter (appendLetter (appendLetter (appendLetter "#"
          ⌊random 0 * 16⌋) ⌊random 1 * 16⌋) ⌊random 2 * 16⌋) ⌊random 3 * 16⌋)
          ⌊random 4 * 16⌋) ⌊random 5 * 16⌋ := by
  simp [getRandomColor, List.range_succ]

/-- The draw `d i / 16` gives the lookup index `d i`. -/
theorem floor_drawsOf (d : Nat → Nat) (i : Nat) : ⌊drawsOf d i * 16⌋ = (d i : Int) := by
  unfold drawsOf
  rw [div_mul_cancel₀ _ (by norm_num : (16 : ℚ) ≠ 0)]
  exact Int.floor_natCast (d i)

/-- C21: for six draws in `[0, 1)` every lookup index `floor(16 * r i)` lies
in `0..15`, and `getRandomColor` returns the 7 characters `#` followed by the
hexadecimal digits `letters[floor(16 * r i)]` for `i = 0..5`; every string `#`
followed by six hexadecimal digits is returned for some such draws. -/
theorem getRandomColor_hex (random : Nat → ℚ) (h : ∀ i < 6, 0 ≤ random i ∧ random i < 1) :
    (∀ i < 6, 0 ≤ ⌊random i * 16⌋ ∧ ⌊random i * 16⌋ < 16)
    ∧ (getRandomColor random).data
        = '#' :: (List.range 6).map (fun i => hexChar ⌊random i * 16⌋.toNat)
    ∧ (getRandomColor random).length = 7
    ∧ ∀ d : Nat → Nat, (∀ i < 6, d i < 16) →
        (∀ i < 6, 0 ≤ drawsOf d i ∧ drawsOf d i < 1)
        ∧ (getRandomColor (drawsOf d)).data = '#' :: (List.range 6).map (fun i => hexChar (d i)) := by
  have key : ∀ r : Nat → ℚ, (∀ i < 6, 0 ≤ r i ∧ r i < 1) →
      (getRandomColor r).data = '#' :: (List.range 6).map (fun i => hexChar ⌊r i * 16⌋.toNat) := by
    intro r hr
    have b := fun i hi => floor_draw_bounds (r i) (hr i hi).1 (hr i hi).2
    rw [getRandomColor_unfold,
      appendLetter_of_lt _ _ (b 5 (by norm_num)).1 (b 5 (by norm_num)).2,
      appendLetter_of_lt _ _ (b 4 (by norm_num)).1 (b 4 (by norm_num)).2,
      appendLetter_of_lt _ _ (b 3 (by norm_num)).1 (b 3 (by norm_num)).2,
      appendLetter_of_lt _ _ (b 2 (by norm_num)).1 (b 2 (by norm_num)).2,
      appendLetter_of_lt _ _ (b 1 (by norm_num)).1 (b 1 (by norm_num)).2,
      appendLetter_of_lt _ _ (b 0 (by norm_num)).1 (b 0 (by norm_num)).2]
    simp [String.push, List.range_succ]
  refine ⟨fun i hi => floor_draw_bounds (random i) (h i hi).1 (h i hi).2, key random h, ?_, ?_⟩
  · rw [String.length, key random h]
    simp
  · intro d hd
    have hb : ∀ i < 6, 0 ≤ drawsOf d i ∧ drawsOf d i < 1 := by
      intro i hi
      have : (d i : ℚ) < 16 := by exact_mod_cast hd i hi
      unfold drawsOf
      constructor
      · positivity
      · rw [div_lt_one (by norm_num)]
        exact this
    refine ⟨hb, ?_⟩
    rw [key (drawsOf d) hb]
    simp only [floor_drawsOf, Int.toNat_ofNat]

/-- Witness of C21: six draws of one half give the color `#888888`. -/
theorem getRandomColor_hex_witness :
    (∀ i < 6, 0 ≤ halfDraws i ∧ halfDraws i < 1)
    ∧ (getRandomColor halfDraws).length = 7 :=
  ⟨fun _ _ => by unfold halfDraws; norm_num,
   (getRandomColor_hex halfDraws (fun _ _ => by unfold halfDraws; norm_num)).2.2.1⟩

/-- Six draws of one half give the color `#888888`. -/
theorem getRandomColor_halfDraws : getRandomColor halfDraws = "#888888" := by
  have h8 : ⌊(1 / 2 : ℚ) * 16⌋ = 8 := by norm_num
  rw [getRandomColor_unfold]
  simp only [halfDraws, h8]
  decide

/-- The join effect does nothing while the socket is marked unauthenticated. -/
theorem joinEffect_unauthenticated (s : State) (h : s.isAuthenticatedSocket = false) :
    joinEffect s = s := by
  unfold joinEffect
  cases s.projectId <;> cases s.fileId <;> simp [h]

/-- When the join effect runs its body it adds one `join-file` to the outward log. -/
theorem joinEffect_emitted_of_join (s : State) (projectId fileId : String)
    (hp : s.projectId = some projectId) (hf : s.fileId = some fileId)
    (hc : s.socketConnected = true) (ha : s.isAuthenticatedSocket = true) :
    (joinEffect s).emitted = s.emitted ++ [OutEvent.joinFile projectId fileId s.myCursorColor] := by
  have heq := joinEffect_eq s projectId fileId hp hf hc ha
  have hsame := sameOutsidePresence_clearAllDecorations
    { s.emit (.joinFile projectId fileId s.myCursorColor) with
      code := "// Loading file..."
      language := "javascript"
      chatMessages := []
      comments := []
      versions := []
      projectDetails := none
      projectFiles := [] }
  unfold SameOutsidePresence at hsame
  rw [heq, hsame]
  rfl

/-- Counterexample to C22: the token of `ann` is rejected, the next socket
connects without a user and is marked authenticated at once, and the join
effect emits `join-file` for `f1` although nobody has logged in again. -/
theorem rejoin_without_login :
    loggedInState.user = some annUser
    ∧ (providerAuthenticationFailed loggedInState).user = none
    ∧ rejoinState.user = none
    ∧ rejoinState.storedToken = none
    ∧ rejoinState.emitted = [.joinFile "p1" "f1" "#1A2B3C"] := by
  decide

/-- C22, amended: after `authentication_failed` the user is null, the stored
token, user id and username are removed and the socket is marked
unauthenticated; while it stays so marked the join effect emits nothing; the
next `connect` of a socket finds no user and marks the socket authenticated
without any login, and with a project and a file on the route the join effect
then emits `join-file` for them. -/
theorem authentication_failed_logs_out (s : State) (id projectId fileId : String)
    (hp : s.projectId = some projectId) (hf : s.fileId = some fileId) :
    (providerAuthenticationFailed s).user = none
    ∧ (providerAuthenticationFailed s).storedToken = none
    ∧ (providerAuthenticationFailed s).storedUserId = none
    ∧ (providerAuthenticationFailed s).storedUsername = none
    ∧ (providerAuthenticationFailed s).isAuthenticatedSocket = false
    ∧ joinEffect (providerAuthenticationFailed s) = providerAuthenticationFailed s
    ∧ (socketConnects (providerAuthenticationFailed s) id).user = none
    ∧ (socketConnects (providerAuthenticationFailed s) id).isAuthenticatedSocket = true
    ∧ (joinEffect (socketConnects (providerAuthenticationFailed s) id)).emitted
        = s.emitted ++ [.joinFile projectId fileId s.myCursorColor] := by
  refine ⟨rfl, rfl, rfl, rfl, rfl, ?_, rfl, rfl, ?_⟩
  · exact joinEffect_unauthenticated _ rfl
  · exact joinEffect_emitted_of_join (socketConnects (providerAuthenticationFailed s) id)
      projectId fileId hp hf rfl rfl

/-- Witness of the amended C22 on the session of `ann`. -/
theorem authentication_failed_logs_out_witness :
    loggedInState.projectId = some "p1" ∧ loggedInState.fileId = some "f1"
    ∧ (providerAuthenticationFailed loggedInState).user = none
    ∧ (joinEffect (socketConnects (providerAuthenticationFailed loggedInState) "me2")).emitted
        = loggedInState.emitted ++ [.joinFile "p1" "f1" loggedInState.myCursorColor] :=
  ⟨rfl, rfl,
   (authentication_failed_logs_out loggedInState "me2" "p1" "f1" rfl rfl).1,
   (authentication_failed_logs_out loggedInState "me2" "p1" "f1" rfl rfl).2.2.2.2.2.2.2.2⟩

/-- C23: a content fetch that fails, by a response that is not ok or by a
network error, sets the document text to an error placeholder and the language
tag to `plaintext`; it emits nothing, leaves the route (project and file id)
as it is, and leaves the comment and version collections unchanged. -/
theorem fetchFileContent_failure_is_local (s : State) :
    (fetchFileContent s .notOk).code = "// Error loading file. Please try again later."
    ∧ (fetchFileContent s .networkError).code
        = "// Network error loading file. Please try again later."
    ∧ ∀ r : FetchResult CodePayload, (r = .notOk ∨ r = .networkError) →
      (fetchFileContent s r).language = "plaintext"
      ∧ (fetchFileContent s r).emitted = s.emitted
      ∧ (fetchFileContent s r).projectId = s.projectId
      ∧ (fetchFileContent s r).fileId = s.fileId
      ∧ (fetchFileContent s r).comments = s.comments
      ∧ (fetchFileContent s r).versions = s.versions := by
  refine ⟨rfl, rfl, ?_⟩
  rintro r (rfl | rfl) <;> exact ⟨rfl, rfl, rfl, rfl, rfl, rfl⟩

/-- Witness of C23 on the sample state with stored comments. -/
theorem fetchFileContent_failure_is_local_witness :
    (fetchFileContent { sampleState with comments := staleComments } .networkError).language
        = "plaintext"
    ∧ (fetchFileContent { sampleState with comments := staleComments } .networkError).comments
        = staleComments :=
  ⟨((fetchFileContent_failure_is_local { sampleState with comments := staleComments }).2.2
      .networkError (Or.inr rfl)).1,
   ((fetchFileContent_failure_is_local { sampleState with comments := staleComments }).2.2
      .networkError (Or.inr rfl)).2.2.2.2.1⟩

/-- A content response writes the text, the language, `initialCodeLoaded`, the
editor, the apply-in-progress flag and its timers, and nothing else. -/
theorem fetchFileContent_frame (s : State) (r : FetchResult CodePayload) :
    { fetchFileContent s r with
        code := s.code
        language := s.language
        initialCodeLoaded := s.initialCodeLoaded
        editorRef := s.editorRef
        isUpdatingRemotely := s.isUpdatingRemotely
        timers := s.timers } = s := by
  cases r with
  | ok data =>
    unfold fetchFileContent State.setTimeout
    cases he : s.editorRef with
    | none => simp only [he]; cases s; simp_all
    | some ed =>
      cases hm : s.monacoRef with
      | false => simp [he, hm]; cases s; simp_all
      | true => simp [he, hm]; cases s; simp_all
  | notOk => rfl
  | networkError => rfl

/-- A comments response and a content response commute. -/
theorem fetchComments_content_comm (s : State) (a : FetchResult CodePayload)
    (b : FetchResult (List Comment)) :
    fetchComments (fetchFileContent s a) b = fetchFileContent (fetchComments s b) a := by
  cases b with
  | ok data =>
    cases a with
    | ok d =>
      unfold fetchFileContent fetchComments State.setTimeout
      cases he : s.editorRef with
      | none => simp only [he]
      | some ed =>
        cases hm : s.monacoRef with
        | false => simp [he, hm]
        | true => simp [he, hm]
    | notOk => rfl
    | networkError => rfl
  | notOk => rfl
  | networkError => rfl

/-- A versions response and a content response commute. -/
theorem fetchVersions_content_comm (s : State) (a : FetchResult CodePayload)
    (c : FetchResult (List String)) :
    fetchVersions (fetchFileContent s a) c = fetchFileContent (fetchVersions s c) a := by
  cases c with
  | ok data =>
    cases a with
    | ok d =>
      unfold fetchFileContent fetchVersions State.setTimeout
      cases he : s.editorRef with
      | none => simp only [he]
      | some ed =>
        cases hm : s.monacoRef with
        | false => simp [he, hm]
        | true => simp [he, hm]
    | notOk => rfl
    | networkError => rfl
  | notOk => rfl
  | networkError => rfl

/-- A versions response and a comments response commute. -/
theorem fetchVersions_comments_comm (s : State) (b : FetchResult (List Comment))
    (c : FetchResult (List String)) :
    fetchVersions (fetchComments s b) c = fetchComments (fetchVersions s c) b := by
  cases b <;> cases c <;> rfl

/-- C24: a comments response changes only the comment collection, a versions
response only the version collection, and a content response only the
document text and language (the `code` and `language` state, the copy
`initialCodeLoaded`, the editor model) and the apply-in-progress flag with its
timer; the state after the three responses is the same for each of their six
orders of arrival. -/
theorem fetch_responses_independent (s : State) (a : FetchResult CodePayload)
    (b : FetchResult (List Comment)) (c : FetchResult (List String)) :
    { fetchComments s b with comments := s.comments } = s
    ∧ { fetchVersions s c with versions := s.versions } = s
    ∧ { fetchFileContent s a with
          code := s.code
          language := s.language
          initialCodeLoaded := s.initialCodeLoaded
          editorRef := s.editorRef
          isUpdatingRemotely := s.isUpdatingRemotely
          timers := s.timers } = s
    ∧ fetchVersions (fetchFileContent (fetchComments s b) a) c
        = fetchVersions (fetchComments (fetchFileContent s a) b) c
    ∧ fetchComments (fetchVersions (fetchFileContent s a) c) b
        = fetchVersions (fetchComments (fetchFileContent s a) b) c
    ∧ fetchFileContent (fetchVersions (fetchComments s b) c) a
        = fetchVersions (fetchComments (fetchFileContent s a) b) c
    ∧ fetchComments (fetchFileContent (fetchVersions s c) a) b
        = fetchVersions (fetchComments (fetchFileContent s a) b) c
    ∧ fetchFileContent (fetchComments (fetchVersions s c) b) a
        = fetchVersions (fetchComments (fetchFileContent s a) b) c := by
  refine ⟨?_, ?_, fetchFileContent_frame s a, ?_, ?_, ?_, ?_, ?_⟩
  · cases b <;> rfl
  · cases c <;> rfl
  · rw [fetchComments_content_comm]
  · rw [fetchVersions_comments_comm]
  · rw [← fetchVersions_content_comm, ← fetchComments_content_comm]
  · rw [← fetchVersions_content_comm, ← fetchVersions_comments_comm]
  · rw [← fetchVersions_comments_comm, ← fetchVersions_content_comm, ← fetchComments_content_comm]

/-- With `ann` logged in the gated actions go through: the comment is emitted,
the resolve request is emitted and the save-version dialog opens. -/
theorem handleAddComment_logged_in_emits :
    (handleAddComment commentDraftState).emitted = [.addComment "f1" 3 "look here"]
    ∧ (handleResolveComment loggedInState "c1").emitted = [.resolveComment "f1" "c1"]
    ∧ (handleSaveVersion loggedInState).showSaveVersionModal = true := by
  decide

/-- C25: with no user logged in, `handleAddComment` and `handleResolveComment`
leave the state as it is, so they emit nothing, and `handleSaveVersion` leaves
it as it is, so the save-version dialog is not opened, whatever the other
inputs are; with a comment text that is empty or white space only
`handleAddComment` leaves the state as it is, logged in or not. -/
theorem identity_gated_actions (s : State) :
    (s.user = none →
      handleAddComment s = s
      ∧ (∀ commentId, handleResolveComment s commentId = s)
      ∧ handleSaveVersion s = s)
    ∧ (isBlank s.newCommentText = true → handleAddComment s = s) := by
  refine ⟨fun hu => ⟨?_, fun commentId => ?_, ?_⟩, fun hb => ?_⟩
  · unfold handleAddComment
    split
    · rfl
    · rw [hu]
      cases s.fileId <;> cases s.selectedLine <;> rfl
  · unfold handleResolveComment
    rw [hu]
    cases s.fileId <;> rfl
  · unfold handleSaveVersion
    rw [hu]
  · unfold handleAddComment
    rw [if_pos hb]

/-- Witness of C25: the comment dialog without a user, and the dialog of a
logged-in user with two blanks as text. -/
theorem identity_gated_actions_witness :
    anonymousDraftState.user = none
    ∧ (handleAddComment anonymousDraftState).emitted = []
    ∧ (handleSaveVersion anonymousDraftState).showSaveVersionModal = false
    ∧ blankDraftState.user = some annUser
    ∧ (handleAddComment blankDraftState).emitted = [] :=
  ⟨rfl,
   by rw [((identity_gated_actions anonymousDraftState).1 rfl).1]; rfl,
   by rw [((identity_gated_actions anonymousDraftState).1 rfl).2.2]; rfl,
   rfl,
   by rw [(identity_gated_actions blankDraftState).2 (by decide)]; rfl⟩

/-- A message that is not blank is sent by a logged-in user as one create-version
request. -/
theorem handleSubmitVersion_sends_nonblank (s : State) (u : User)
    (hu : s.user = some u) (hm : isBlank s.versionMessage = false) :
    (handleSubmitVersion s).requests
      = s.requests ++ [.createVersion (s.fileId.getD "undefined") u.token s.versionMessage] := by
  unfold handleSubmitVersion
  rw [hm, hu]
  rfl

/-- A blank message makes `handleSubmitVersion` return before sending. -/
theorem handleSubmitVersion_blank (s : State) (hm : isBlank s.versionMessage = true) :
    handleSubmitVersion s = s := by
  unfold handleSubmitVersion
  rw [if_pos hm]

/-- C26: with `ann` logged in, file `f1` open and the save-version dialog
showing, `handleSubmitVersion` sends no request for the empty message nor for
a message of three blanks; for the message `v1` it sends the create-version
request of `f1`. -/
theorem handleSubmitVersion_empty_message_not_sent :
    emptyMessageState.user = some annUser
    ∧ emptyMessageState.fileId = some "f1"
    ∧ emptyMessageState.versionMessage.length ≤ 200
    ∧ (handleSubmitVersion emptyMessageState).requests = []
    ∧ (handleSubmitVersion blankMessageState).requests = []
    ∧ (handleSubmitVersion namedMessageState).requests = [.createVersion "f1" "tok" "v1"] := by
  decide

/-- C27: the name `setIsConnected` is not bound in the scope of the
`disconnect` listener of `SocketProvider`, so the listener raises at its second
statement; the dispatch of `disconnect` ends there, and `handleDisconnect` of
the editor is not run: in the sample session the two participants stay in the
participant list and the editor stays marked connected, where
`handleDisconnect` alone empties the list and clears the mark. -/
theorem providerDisconnect_raises :
    firstUnbound socketProviderScope providerDisconnectUses = some "setIsConnected"
    ∧ (∀ s, (providerDisconnect s).raised = true)
    ∧ (∀ s, (dispatchDisconnect s).raised = true)
    ∧ (dispatchDisconnect busyState).state.onlineUsers = busyState.onlineUsers
    ∧ busyState.onlineUsers.length = 2
    ∧ (dispatchDisconnect busyState).state.remoteDecorations.length = 2
    ∧ (handleDisconnect busyState).onlineUsers = []
    ∧ (handleDisconnect busyState).remoteDecorations = [] := by
  have h : firstUnbound socketProviderScope providerDisconnectUses = some "setIsConnected" := by
    decide
  refine ⟨h, fun s => ?_, fun s => ?_, ?_, ?_, ?_, ?_, ?_⟩
  · simp [providerDisconnect, h]
  · simp [dispatchDisconnect, providerDisconnect, h]
  · simp [dispatchDisconnect, providerDisconnect, h]
  · decide
  · simp [dispatchDisconnect, providerDisconnect, h]; decide
  · decide
  · decide

/-- The cursor listener emits nothing while the apply-in-progress flag is set. -/
theorem onDidChangeCursorPosition_silent_while_flag (s : State) (mountFileId : Option String)
    (e : CursorEvent) (h : s.isUpdatingRemotely = true) :
    onDidChangeCursorPosition s mountFileId e = s := by
  unfold onDidChangeCursorPosition
  cases mountFileId <;> simp [h]

/-- C28: the editor mounts with file `f1` open, the route changes to file
`f2`, and the caret moves: the `cursor-activity` event emitted then carries the
file id `f1`, while the open file is `f2`. -/
theorem cursor_activity_carries_mount_file :
    freshState.fileId = some "f1"
    ∧ staleCursorState.fileId = some "f2"
    ∧ staleCursorState.emitted.getLast?
        = some (.cursorActivity "f1" { lineNumber := 1, column := 2 } none "#1A2B3C") := by
  decide

/-- After a remote `code-update` with the editor mounted the language tag is the
mode of the editor model, also when the update has no language. -/
theorem handleCodeUpdate_language_agrees (s : State) (p : CodePayload) (ed : Editor)
    (he : s.editorRef = some ed) (hm : s.monacoRef = true) (hl : ed.languageId ≠ "") :
    (handleCodeUpdate s p).editorRef.map (fun e => e.languageId)
      = some (handleCodeUpdate s p).language := by
  unfold handleCodeUpdate handleCodeUpdateRun State.setTimeout
  simp only [he, hm]
  cases hc : ed.caret <;> cases hs : ed.selection <;>
    by_cases hsw : some (ed.setValue p.code).languageId = p.language <;>
    simp [hsw, Editor.setModelLanguage, Editor.setPosition, Editor.setSelection] <;>
    (rw [← hsw]; simp [jsOr, Editor.setValue, hl])

/-- C29: an ok content response without a language, applied with the editor
mounted, sets the language tag to `javascript` and the mode of the editor
model to `plaintext`; so does one with the empty language. -/
theorem fetchFileContent_language_disagrees :
    sampleState.editorRef.isSome = true
    ∧ sampleState.language = "javascript"
    ∧ (fetchFileContent sampleState (.ok noLanguageFile)).language = "javascript"
    ∧ (fetchFileContent sampleState (.ok noLanguageFile)).editorRef.map (fun e => e.languageId)
        = some "plaintext"
    ∧ (fetchFileContent sampleState (.ok { code := "print(1)", language := some "" })).language
        = "javascript"
    ∧ (fetchFileContent sampleState
        (.ok { code := "print(1)", language := some "" })).editorRef.map (fun e => e.languageId)
        = some "plaintext" := by
  decide

/-- C30: `handleCommentUpdated` keeps the length and the order of the comment
collection; the comment at each index is the update `u` when its `_id` is that
of `u` and the old comment otherwise; the collection is unchanged when no
comment has that `_id`; and applying the same update twice is applying it
once. Nothing but the comment collection changes. -/
theorem handleCommentUpdated_pointwise (s : State) (u : Comment) :
    (handleCommentUpdated s u).comments.length = s.comments.length
    ∧ (∀ i : Nat, (handleCommentUpdated s u).comments[i]?
        = (s.comments[i]?).map (fun c => if c._id = u._id then u else c))
    ∧ ((∀ c ∈ s.comments, c._id ≠ u._id) → handleCommentUpdated s u = s)
    ∧ handleCommentUpdated (handleCommentUpdated s u) u = handleCommentUpdated s u
    ∧ { handleCommentUpdated s u with comments := s.comments } = s := by
  refine ⟨?_, ?_, ?_, ?_, rfl⟩
  · simp [handleCommentUpdated]
  · intro i
    simp [handleCommentUpdated]
  · intro h
    have hmap : s.comments.map (fun c => if c._id = u._id then u else c) = s.comments := by
      conv_rhs => rw [← List.map_id s.comments]
      apply List.map_congr_left
      intro c hc
      simp [h c hc]
    unfold handleCommentUpdated
    rw [hmap]
  · unfold handleCommentUpdated
    simp only [List.map_map]
    congr 1
    apply List.map_congr_left
    intro c _
    by_cases hc : c._id = u._id <;> simp [hc]

/-- Witness of C30: no comment of the sample collection has the id `c9`. -/
theorem handleCommentUpdated_pointwise_witness :
    (∀ c ∈ twoComments, c._id ≠ "c9")
    ∧ handleCommentUpdated { sampleState with comments := twoComments }
        { resolvedComment with _id := "c9" }
      = { sampleState with comments := twoComments } :=
  ⟨by decide,
   (handleCommentUpdated_pointwise { sampleState with comments := twoComments }
      { resolvedComment with _id := "c9" }).2.2.1 (by decide)⟩

/-- The update of comment `c1` replaces the first of the two sample comments
and keeps the second. -/
theorem handleCommentUpdated_sample :
    (handleCommentUpdated { sampleState with comments := twoComments } resolvedComment).comments
      = [resolvedComment,
         { _id := "c2", line := 2, text := "other", username := "bob", resolved := false }] := by
  decide

end CollabCode
